import Mathlib

/-!
Verification of the Balance Accumulator (`services/balance_accumulator_handler.go`).

The file shallowly embeds the accumulator: the database is a `DBState` record of
table contents, each SQL statement of the source becomes a pure list
transformation, a pass (`processOutputs`, `processTransactions`) is a function
`DBState → Except String PassOut` whose `Except.error` outcome models the
transaction rolling back (the source defers `dbTx.RollbackUnlessCommitted()`),
and the `Accumulate` driver loop is embedded with explicit fuel for its two
unbounded loops.  The `Run` admission gate and its retry harness are embedded
as a step relation, respectively a fueled retry function, in later sections.
-/

set_option autoImplicit false

namespace Services

/-- Batch cap of every claim query; `var RowLintValue = 100` in the source. -/
def RowLintValue : Nat := 100

/-- Row of the `output_addresses_accumulate` staging table. -/
structure OutputAddressAccumulate where
  id : String
  address : String
  processedOut : Bool
  processedIn : Bool
deriving DecidableEq, Repr

/-- Row of the `output_txs_accumulate` staging table. -/
structure OutputTxsAccumulate where
  id : String
  chainID : String
  assetID : String
  address : String
  transactionID : String
  processed : Bool
deriving DecidableEq, Repr

/-- Row of the `avm_outputs` table (the columns the accumulator touches). -/
structure AvmOutput where
  id : String
  chainID : String
  assetID : String
  transactionID : String
  amount : Nat
deriving DecidableEq, Repr

/-- Row of the `avm_output_addresses` table. -/
structure AvmOutputAddress where
  outputID : String
  address : String
deriving DecidableEq, Repr

/-- Balance key: the `(chain_id, asset_id, address)` identity of an aggregate row. -/
structure BalanceKey where
  chainID : String
  assetID : String
  address : String
deriving DecidableEq, Repr

/-- Row of the `accumulate_balances` aggregate table. -/
structure AccumulateBalances where
  id : BalanceKey
  utxoCount : Int
  totalReceived : Nat
  totalSent : Nat
  transactionCount : Nat
deriving DecidableEq, Repr

/-- The database state seen by the accumulator. -/
structure DBState where
  outputAddressesAccumulate : List OutputAddressAccumulate
  outputTxsAccumulate : List OutputTxsAccumulate
  avmOutputs : List AvmOutput
  avmOutputAddresses : List AvmOutputAddress
  avmOutputsRedeeming : List String
  accumulateBalances : List AccumulateBalances
deriving DecidableEq, Repr

/-- The OUT-pass claim query: `output_addresses_accumulate` joined with
`avm_outputs` on `id`, `processed_out = 0`, `limit RowLimit for update`. -/
def claimOutPairs (s : DBState) : List (String × String) :=
  ((s.outputAddressesAccumulate.filter (fun r => !r.processedOut)).flatMap (fun r =>
    (s.avmOutputs.filter (fun o => decide (o.id = r.id))).map
      (fun _ => (r.id, r.address)))).take RowLintValue

/-- The IN-pass claim query: additionally joined with `avm_outputs_redeeming`
on `id`, `processed_in = 0`, `limit RowLimit for update`. -/
def claimInPairs (s : DBState) : List (String × String) :=
  ((s.outputAddressesAccumulate.filter (fun r => !r.processedIn)).flatMap (fun r =>
    (s.avmOutputs.filter (fun o => decide (o.id = r.id))).flatMap (fun _ =>
      (s.avmOutputsRedeeming.filter (fun x => decide (x = r.id))).map
        (fun _ => (r.id, r.address))))).take RowLintValue

/-- The transaction-pass claim query: `output_txs_accumulate` with
`processed = 0`, `limit RowLimit for update`. -/
def claimTxRows (s : DBState) : List OutputTxsAccumulate :=
  (s.outputTxsAccumulate.filter (fun r => !r.processed)).take RowLintValue

/-- Join underlying the per-row aggregation query: `avm_outputs` joined with
`avm_output_addresses` on `id = output_id`, restricted to the claimed
`(id, address)`. -/
def joinPairs (s : DBState) (id addr : String) : List (AvmOutput × AvmOutputAddress) :=
  (s.avmOutputs.filter (fun o => decide (o.id = id))).flatMap (fun o =>
    (s.avmOutputAddresses.filter (fun oa =>
      decide (oa.outputID = o.id) && decide (oa.address = addr))).map (fun oa => (o, oa)))

/-- Grouping key of the aggregation query: `(chain_id, address, asset_id)`. -/
def pairKey (p : AvmOutput × AvmOutputAddress) : BalanceKey :=
  ⟨p.1.chainID, p.1.assetID, p.2.address⟩

/-- One row produced by the aggregation query: grouped key together with
`count(distinct(transaction_id))`, `sum(amount) as total_received` and
`sum(amount) as total_sent`. -/
structure AggRow where
  chainID : String
  address : String
  assetID : String
  transactionCount : Nat
  totalReceived : Nat
  totalSent : Nat
deriving DecidableEq, Repr

/-- Balance key of an aggregation row, the input of `ComputeID`. -/
def aggKey (b : AggRow) : BalanceKey :=
  ⟨b.chainID, b.assetID, b.address⟩

/-- The per-row aggregation query of `processOutputs`: group the join rows for
`(id, addr)` by `(chain_id, address, asset_id)` and aggregate. -/
def aggregateBalances (s : DBState) (id addr : String) : List AggRow :=
  let rows := joinPairs s id addr
  ((rows.map pairKey).dedup).map (fun k =>
    let grp := rows.filter (fun p => decide (pairKey p = k))
    { chainID := k.chainID, address := k.address, assetID := k.assetID,
      transactionCount := ((grp.map (fun p => p.1.transactionID)).dedup).length,
      totalReceived := (grp.map (fun p => p.1.amount)).sum,
      totalSent := (grp.map (fun p => p.1.amount)).sum })

/-- Modelled from the spec: `AccumulateBalances.ComputeID` (its source lives in
the models package, which is not under `src/`).  The spec requires a
deterministic hash over `(chain_id, asset_id, address)` (I1); it is modelled as
the identity embedding of the triple, which is deterministic and injective.
The fallible signature mirrors the source, whose `ComputeID` returns an error. -/
def computeID (k : BalanceKey) : Except String BalanceKey :=
  Except.ok k

/-- Modelled from the spec: `Persist.InsertAccumulateBalances` (the persistence
layer is not under `src/`).  The spec requires an idempotent insert: a
duplicate balance key is a no-op preserving all counters (I2), and a fresh key
seeds a row whose counters start at zero. -/
def insertAccumulateBalances (s : DBState) (k : BalanceKey) : DBState :=
  if s.accumulateBalances.any (fun b => decide (b.id = k)) then s
  else { s with accumulateBalances := s.accumulateBalances ++ [⟨k, 0, 0, 0, 0⟩] }

/-- The OUT delta statement: `utxo_count = utxo_count+1,
total_received = total_received + b.TotalReceived where id = b.ID`. -/
def updOut (k : BalanceKey) (amt : Nat) (bs : List AccumulateBalances) :
    List AccumulateBalances :=
  bs.map (fun b => if b.id = k then
    { b with utxoCount := b.utxoCount + 1, totalReceived := b.totalReceived + amt }
    else b)

/-- The IN delta statement: `utxo_count = utxo_count-1,
total_sent = total_sent + b.TotalSent where id = b.ID`. -/
def updIn (k : BalanceKey) (amt : Nat) (bs : List AccumulateBalances) :
    List AccumulateBalances :=
  bs.map (fun b => if b.id = k then
    { b with utxoCount := b.utxoCount - 1, totalSent := b.totalSent + amt }
    else b)

/-- The transaction-pass delta statement:
`transaction_count = transaction_count+1 where id = b.ID`. -/
def updTx (k : BalanceKey) (bs : List AccumulateBalances) : List AccumulateBalances :=
  bs.map (fun b => if b.id = k then
    { b with transactionCount := b.transactionCount + 1 }
    else b)

/-- The OUT flag flip: `set processed_out = 1 where id=? and address=?`. -/
def flipOut (id addr : String) (rs : List OutputAddressAccumulate) :
    List OutputAddressAccumulate :=
  rs.map (fun r => if r.id = id ∧ r.address = addr then { r with processedOut := true } else r)

/-- The IN flag flip: `set processed_in = 1 where id=? and address=?`. -/
def flipIn (id addr : String) (rs : List OutputAddressAccumulate) :
    List OutputAddressAccumulate :=
  rs.map (fun r => if r.id = id ∧ r.address = addr then { r with processedIn := true } else r)

/-- The transaction-pass flag flip: `set processed=1 where id=?`. -/
def markTx (id : String) (rs : List OutputTxsAccumulate) : List OutputTxsAccumulate :=
  rs.map (fun r => if r.id = id then { r with processed := true } else r)

/-- Direction tag of the output pass (`processTypeIn` and `processTypeOut` in
the source). -/
inductive ProcessType where
  | typeIn : ProcessType
  | typeOut : ProcessType
deriving DecidableEq, Repr

/-- Claim query of the output pass, selected by the direction tag. -/
def claimPairs (typ : ProcessType) (s : DBState) : List (String × String) :=
  match typ with
  | ProcessType.typeOut => claimOutPairs s
  | ProcessType.typeIn => claimInPairs s

/-- Per-claimed-row body of `processOutputs`: aggregate, skip if empty
(the `invalid balance` info-log path, which leaves the flag untouched),
otherwise compute ids and insert idempotently, lock, apply the direction's
delta per aggregated balance, and flip the staging flag. -/
def processRow (cid : BalanceKey → Except String BalanceKey) (typ : ProcessType)
    (s : DBState) (p : String × String) : Except String DBState :=
  let balances := aggregateBalances s p.1 p.2
  if balances.isEmpty then Except.ok s
  else do
    let r ← balances.foldlM (fun (acc : DBState × List (BalanceKey × AggRow)) b => do
      let k ← cid (aggKey b)
      pure (insertAccumulateBalances acc.1 k, acc.2 ++ [(k, b)])) (s, [])
    let s2 : DBState := r.2.foldl (fun st kb =>
      match typ with
      | ProcessType.typeOut =>
        { st with accumulateBalances := updOut kb.1 kb.2.totalReceived st.accumulateBalances }
      | ProcessType.typeIn =>
        { st with accumulateBalances := updIn kb.1 kb.2.totalSent st.accumulateBalances }) r.1
    let s3 : DBState :=
      match typ with
      | ProcessType.typeOut =>
        { s2 with outputAddressesAccumulate := flipOut p.1 p.2 s2.outputAddressesAccumulate }
      | ProcessType.typeIn =>
        { s2 with outputAddressesAccumulate := flipIn p.1 p.2 s2.outputAddressesAccumulate }
    Except.ok s3

/-- Result of one pass invocation: the returned batch size, whether
`dbTx.Commit()` was reached, and the database state the transaction left
behind.  An `Except.error` outcome stands for the rolled-back transaction. -/
structure PassOut where
  cnt : Nat
  committed : Bool
  state : DBState
deriving DecidableEq, Repr

/-- The output pass `processOutputs(typ, sess, persist)`: claim a batch; if it
is empty return 0 without committing (the deferred `RollbackUnlessCommitted`
then rolls the read-only transaction back); otherwise process every claimed
row, commit, and return the batch size. -/
def processOutputs (cid : BalanceKey → Except String BalanceKey) (typ : ProcessType)
    (s : DBState) : Except String PassOut :=
  let rowdata := claimPairs typ s
  if rowdata.isEmpty then Except.ok ⟨0, false, s⟩
  else do
    let s3 ← rowdata.foldlM (processRow cid typ) s
    Except.ok ⟨rowdata.length, true, s3⟩

/-- The transaction pass `processTransactions(sess, persist)`: claim a batch;
if empty return 0 without committing; otherwise build one provisional balance
per staging row (computing its id and inserting idempotently), bump
`transaction_count` once per collected balance, mark every claimed row
processed, commit, and return the batch size. -/
def processTransactions (cid : BalanceKey → Except String BalanceKey)
    (s : DBState) : Except String PassOut :=
  let rowdata := claimTxRows s
  if rowdata.isEmpty then Except.ok ⟨0, false, s⟩
  else do
    let r ← rowdata.foldlM (fun (acc : DBState × List BalanceKey) row => do
      let k ← cid ⟨row.chainID, row.assetID, row.address⟩
      pure (insertAccumulateBalances acc.1 k, acc.2 ++ [k])) (s, [])
    let s2 : DBState := r.2.foldl (fun st k =>
      { st with accumulateBalances := updTx k st.accumulateBalances }) r.1
    let s3 : DBState := rowdata.foldl (fun st row =>
      { st with outputTxsAccumulate := markTx row.id st.outputTxsAccumulate }) s2
    Except.ok ⟨rowdata.length, true, s3⟩

/-- Result of the `Accumulate` driver: final state with final iteration
counter and the trace of batch sizes returned by the pass invocations, a
propagated pass error together with the state the run left behind, or fuel
exhaustion of the embedding (the source loops are unbounded). -/
inductive LoopRes where
  | ok : DBState → Nat → List Nat → LoopRes
  | fail : String → DBState → List Nat → LoopRes
  | fuelOut : LoopRes
deriving DecidableEq, Repr

/-- Inner loop of `Accumulate`: repeat one pass, resetting `icnt` whenever a
batch produced at least one row, until a batch returns fewer than
`RowLintValue` rows. -/
def innerLoop (pass : DBState → Except String PassOut) :
    Nat → DBState → Nat → List Nat → LoopRes
  | 0, _, _, _ => LoopRes.fuelOut
  | Nat.succ fuel, s, icnt, tr =>
    match pass s with
    | Except.error e => LoopRes.fail e s tr
    | Except.ok po =>
      if po.cnt < RowLintValue then
        LoopRes.ok po.state (if 0 < po.cnt then 0 else icnt) (tr ++ [po.cnt])
      else innerLoop pass fuel po.state (if 0 < po.cnt then 0 else icnt) (tr ++ [po.cnt])

/-- Outer loop of `Accumulate`: `for ; icnt < 10; icnt++` around the three
inner loops in the fixed order outputs-out, outputs-in, transactions. -/
def outerLoop (cid : BalanceKey → Except String BalanceKey) :
    Nat → Nat → DBState → Nat → List Nat → LoopRes
  | 0, _, _, _, _ => LoopRes.fuelOut
  | Nat.succ ofuel, ifuel, s, icnt, tr =>
    if 10 ≤ icnt then LoopRes.ok s icnt tr
    else
      match innerLoop (processOutputs cid ProcessType.typeOut) ifuel s icnt tr with
      | LoopRes.fuelOut => LoopRes.fuelOut
      | LoopRes.fail e sE trE => LoopRes.fail e sE trE
      | LoopRes.ok s1 icnt1 tr1 =>
        match innerLoop (processOutputs cid ProcessType.typeIn) ifuel s1 icnt1 tr1 with
        | LoopRes.fuelOut => LoopRes.fuelOut
        | LoopRes.fail e sE trE => LoopRes.fail e sE trE
        | LoopRes.ok s2 icnt2 tr2 =>
          match innerLoop (processTransactions cid) ifuel s2 icnt2 tr2 with
          | LoopRes.fuelOut => LoopRes.fuelOut
          | LoopRes.fail e sE trE => LoopRes.fail e sE trE
          | LoopRes.ok s3 icnt3 tr3 => outerLoop cid ofuel ifuel s3 (icnt3 + 1) tr3

/-- The `Accumulate` driver, starting with `icnt = 0` and an empty trace. -/
def accumulate (cid : BalanceKey → Except String BalanceKey)
    (ofuel ifuel : Nat) (s : DBState) : LoopRes :=
  outerLoop cid ofuel ifuel s 0 []

/-- Quiescence: every pass's claim query returns no rows. -/
def Quiescent (s : DBState) : Prop :=
  claimOutPairs s = [] ∧ claimInPairs s = [] ∧ claimTxRows s = []

instance (s : DBState) : Decidable (Quiescent s) := by
  unfold Quiescent
  infer_instance

/-!
### The Runner admission gate

`Run` is embedded as a step relation over a counter abstraction of the shared
state: `running` is the `int64` touched by `atomic.LoadInt64`/`AddInt64`,
`lockHeld` is `a.lock`, the `atP·` fields count callers of `Run` at each
program point between two accesses to shared state, and `tRun`/`tEnd` count
spawned goroutines that are still executing the retry loop, respectively have
finished it but not yet run the deferred decrement.  Each constructor of
`RStep` performs exactly one access to shared state; the branch on a loaded
value is purely local in the source, so it is folded into the load.
-/

/-- Shared state of one `BalancerAccumulateHandler` plus program-point
counters for its concurrent callers and spawned tasks. -/
structure RunnerState where
  running : Int
  lockHeld : Bool
  atP0 : Nat
  atP1 : Nat
  atP2 : Nat
  atP3 : Nat
  atP4 : Nat
  atPU : Nat
  tRun : Nat
  tEnd : Nat
deriving DecidableEq, Repr

/-- Initial state: counter zero, lock free, no callers, no tasks. -/
def initRunner : RunnerState := ⟨0, false, 0, 0, 0, 0, 0, 0, 0, 0⟩

/-- One atomic step of the `Run` admission protocol or of a spawned task.
`atP0`: about to `atomic.LoadInt64` (fast path); `atP1`: fast path saw zero,
about to `a.lock.Lock()`; `atP2`: holding the lock, about to re-load;
`atP3`: re-check saw zero, about to `atomic.AddInt64(+1)`; `atP4`: incremented,
about to `go func(){…}()`; `atPU`: about to return (deferred `Unlock`). -/
inductive RStep : RunnerState → RunnerState → Prop where
  | arrive (st : RunnerState) :
      RStep st { st with atP0 := st.atP0 + 1 }
  | fastFail (st : RunnerState) : 1 ≤ st.atP0 → st.running ≠ 0 →
      RStep st { st with atP0 := st.atP0 - 1 }
  | fastPass (st : RunnerState) : 1 ≤ st.atP0 → st.running = 0 →
      RStep st { st with atP0 := st.atP0 - 1, atP1 := st.atP1 + 1 }
  | lockAcq (st : RunnerState) : 1 ≤ st.atP1 → st.lockHeld = false →
      RStep st { st with atP1 := st.atP1 - 1, atP2 := st.atP2 + 1, lockHeld := true }
  | checkFail (st : RunnerState) : 1 ≤ st.atP2 → st.running ≠ 0 →
      RStep st { st with atP2 := st.atP2 - 1, atPU := st.atPU + 1 }
  | checkPass (st : RunnerState) : 1 ≤ st.atP2 → st.running = 0 →
      RStep st { st with atP2 := st.atP2 - 1, atP3 := st.atP3 + 1 }
  | incr (st : RunnerState) : 1 ≤ st.atP3 →
      RStep st { st with atP3 := st.atP3 - 1, atP4 := st.atP4 + 1, running := st.running + 1 }
  | spawn (st : RunnerState) : 1 ≤ st.atP4 →
      RStep st { st with atP4 := st.atP4 - 1, atPU := st.atPU + 1, tRun := st.tRun + 1 }
  | unlock (st : RunnerState) : 1 ≤ st.atPU →
      RStep st { st with atPU := st.atPU - 1, lockHeld := false }
  | bodyDone (st : RunnerState) : 1 ≤ st.tRun →
      RStep st { st with tRun := st.tRun - 1, tEnd := st.tEnd + 1 }
  | decr (st : RunnerState) : 1 ≤ st.tEnd →
      RStep st { st with tEnd := st.tEnd - 1, running := st.running - 1 }

/-- States reachable from the initial runner state under any interleaving of
any number of `Run` callers and spawned tasks. -/
inductive RunnerReach : RunnerState → Prop where
  | init : RunnerReach initRunner
  | step (s t : RunnerState) : RunnerReach s → RStep s t → RunnerReach t

/-- Inductive invariant of the admission protocol: the counter accounts
exactly for incremented-but-unspawned callers plus in-flight tasks, that
account never exceeds one, the mutex guards the critical section, and a caller
that passed the re-check still sees a zero counter when it increments. -/
def RunnerInv (st : RunnerState) : Prop :=
  st.running = (st.atP4 : Int) + st.tRun + st.tEnd ∧
  st.atP4 + st.tRun + st.tEnd ≤ 1 ∧
  st.atP2 + st.atP3 + st.atP4 + st.atPU ≤ 1 ∧
  (st.lockHeld = false → st.atP2 + st.atP3 + st.atP4 + st.atPU = 0) ∧
  (1 ≤ st.atP3 → st.running = 0)




/-!
### The Runner retry harness

The goroutine spawned by `Run` calls `Accumulate` in a loop; it exits when the
call succeeds or fails with an error whose message does not contain
`db.DeadlockDBErrorMessage`, sleeping one millisecond between deadlock
retries (the sleep is untimed here).  The sequence of `Accumulate` outcomes is
abstracted as `results : Nat → Option String` (`none` is success); the loop is
fueled because the source retries without bound.
-/

/-- Modelled from the spec: `db.DeadlockDBErrorMessage` (the `services/db`
package is not under `src/`); the spec fixes the substring to
`"Deadlock found"`, the database driver deadlock signal. -/
def deadlockDBErrorMessage : String := "Deadlock found"

/-- Helper for `strContains`: does the second list start with the first? -/
def hasPre : List Char → List Char → Bool
  | [], _ => true
  | _ :: _, [] => false
  | p :: ps, h :: hs => p == h && hasPre ps hs

/-- Helper for `strContains`: does the second list contain the first as a
contiguous sublist? -/
def subList (pat : List Char) : List Char → Bool
  | [] => hasPre pat []
  | c :: cs => hasPre pat (c :: cs) || subList pat cs

/-- The `strings.Contains(hay, pat)` test of the retry loop. -/
def strContains (hay pat : String) : Bool := subList pat.toList hay.toList

/-- The retry loop of the goroutine spawned by `Run`: attempt `i` yields
`results i`; on success or a non-deadlock error the loop breaks; a deadlock
error sleeps 1 ms and retries.  Returns the number of attempts made and the
final error, or `none` when the fuel bound is hit. -/
def retryLoop (results : Nat → Option String) : Nat → Nat → Option (Nat × Option String)
  | 0, _ => none
  | Nat.succ fuel, i =>
    match results i with
    | none => some (i + 1, none)
    | some e =>
      if strContains e deadlockDBErrorMessage then retryLoop results fuel (i + 1)
      else some (i + 1, some e)

/-- The whole goroutine body: run the retry loop, then `sc.Log.Warn` the final
error if there is one.  Returns attempts made and the warning-log lines;
nothing is ever reported back to the caller of `Run`. -/
def runTask (results : Nat → Option String) (fuel : Nat) : Option (Nat × List String) :=
  match retryLoop results fuel 0 with
  | none => none
  | some (n, none) => some (n, [])
  | some (n, some e) => some (n, ["Accumulate " ++ e])



/-! ### Observables, scenario states, and invariant vocabulary -/

/-- Observed database state of a finished pass transaction: a committed
transaction leaves `po.state`; an uncommitted one is rolled back by the
deferred `RollbackUnlessCommitted`, leaving the state the transaction began
with. -/
def passState (r : Except String PassOut) (s : DBState) : DBState :=
  match r with
  | Except.ok po => po.state
  | Except.error _ => s

/-- A database with every table empty. -/
def emptyState : DBState := ⟨[], [], [], [], [], []⟩

/-- Scenario "single output": one pending staging row, its output of amount 10
and its address link; nothing redeemed, no aggregates yet. -/
def w1 : DBState :=
  ⟨[⟨"X", "A", false, false⟩], [], [⟨"X", "C", "S", "T", 10⟩], [⟨"X", "A"⟩], [], []⟩

/-- Scenario "redeem before output-ingest gate": the single-output scenario
after its OUT pass, with no redemption record ingested. -/
def w3 : DBState :=
  ⟨[⟨"X", "A", true, false⟩], [], [⟨"X", "C", "S", "T", 10⟩], [⟨"X", "A"⟩], [],
   [⟨⟨"C", "S", "A"⟩, 1, 10, 0, 0⟩]⟩

/-- Scenario "multi-tx on same key": three transaction staging rows with the
same `(chain_id, asset_id, address)` and distinct transaction ids. -/
def w5 : DBState :=
  ⟨[], [⟨"t1", "C", "S", "A", "T1", false⟩, ⟨"t2", "C", "S", "A", "T2", false⟩,
        ⟨"t3", "C", "S", "A", "T3", false⟩], [], [], [], []⟩

/-- A `ComputeID` stand-in that always fails, exercising the error path of the
persistence boundary. -/
def cidFail (_k : BalanceKey) : Except String BalanceKey :=
  Except.error "key failure"

/-- Final state of running the accumulator on the single-output scenario:
flag flipped, one aggregate row with `utxo_count = 1`, `total_received = 10`. -/
def w1Final : DBState :=
  ⟨[⟨"X", "A", true, false⟩], [], [⟨"X", "C", "S", "T", 10⟩], [⟨"X", "A"⟩], [],
   [⟨⟨"C", "S", "A"⟩, 1, 10, 0, 0⟩]⟩

/-- A runner state with one spawned task in flight, reached by one caller
completing the admission protocol. -/
def runnerWitState : RunnerState := ⟨1, false, 0, 0, 0, 0, 0, 0, 1, 0⟩

/-- Outcome sequence injecting two deadlock errors, then success. -/
def wresDeadlock : Nat → Option String :=
  fun i => if i < 2 then some "Error 1213: Deadlock found" else none

/-- Outcome sequence failing immediately with a non-deadlock error. -/
def wresFatal : Nat → Option String :=
  fun i => if i = 0 then some "connection refused" else none

/-- Per-key total of `total_received` over an `accumulate_balances` table. -/
def keySumTR (bs : List AccumulateBalances) (k : BalanceKey) : Nat :=
  (bs.map (fun b => if b.id = k then b.totalReceived else 0)).sum

/-- Per-key total of `total_sent` over an `accumulate_balances` table. -/
def keySumTS (bs : List AccumulateBalances) (k : BalanceKey) : Nat :=
  (bs.map (fun b => if b.id = k then b.totalSent else 0)).sum

/-- Per-key total of `transaction_count` over an `accumulate_balances` table. -/
def keySumTC (bs : List AccumulateBalances) (k : BalanceKey) : Nat :=
  (bs.map (fun b => if b.id = k then b.transactionCount else 0)).sum

/-- Per-key total of `utxo_count` over an `accumulate_balances` table. -/
def keySumUC (bs : List AccumulateBalances) (k : BalanceKey) : Int :=
  (bs.map (fun b => if b.id = k then b.utxoCount else 0)).sum

/-- The `total_received` recorded for key `k` (0 when the row is absent). -/
def balTR (s : DBState) (k : BalanceKey) : Nat := keySumTR s.accumulateBalances k

/-- The `total_sent` recorded for key `k` (0 when the row is absent). -/
def balTS (s : DBState) (k : BalanceKey) : Nat := keySumTS s.accumulateBalances k

/-- The `transaction_count` recorded for key `k` (0 when the row is absent). -/
def balTC (s : DBState) (k : BalanceKey) : Nat := keySumTC s.accumulateBalances k

/-- The `utxo_count` recorded for key `k` (0 when the row is absent). -/
def balUC (s : DBState) (k : BalanceKey) : Int := keySumUC s.accumulateBalances k

/-- Amount a staging row `(id, addr)` contributes to key `k`: the sum of
amounts of its aggregation-join rows that group under `k`. -/
def rowContrib (s : DBState) (id addr : String) (k : BalanceKey) : Nat :=
  (((joinPairs s id addr).filter (fun p => decide (pairKey p = k))).map
    (fun p => p.1.amount)).sum

/-- The set of balance keys a staging row `(id, addr)` aggregates to. -/
def rowKeys (s : DBState) (id addr : String) : List BalanceKey :=
  ((joinPairs s id addr).map pairKey).dedup

/-- Balance key of an `output_txs_accumulate` row. -/
def txRowKey (r : OutputTxsAccumulate) : BalanceKey :=
  ⟨r.chainID, r.assetID, r.address⟩

/-- Sum over processed-OUT staging rows of their contribution to key `k`. -/
def recvSum (s : DBState) (k : BalanceKey) : Nat :=
  (s.outputAddressesAccumulate.map (fun r =>
    if r.processedOut = true then rowContrib s r.id r.address k else 0)).sum

/-- Sum over processed-IN staging rows of their contribution to key `k`. -/
def sentSum (s : DBState) (k : BalanceKey) : Nat :=
  (s.outputAddressesAccumulate.map (fun r =>
    if r.processedIn = true then rowContrib s r.id r.address k else 0)).sum

/-- Number of processed-OUT staging rows aggregating to key `k`. -/
def outCount (s : DBState) (k : BalanceKey) : Nat :=
  (s.outputAddressesAccumulate.map (fun r =>
    if r.processedOut = true ∧ k ∈ rowKeys s r.id r.address then 1 else 0)).sum

/-- Number of processed-IN staging rows aggregating to key `k`. -/
def inCount (s : DBState) (k : BalanceKey) : Nat :=
  (s.outputAddressesAccumulate.map (fun r =>
    if r.processedIn = true ∧ k ∈ rowKeys s r.id r.address then 1 else 0)).sum

/-- Number of processed `output_txs_accumulate` rows with key `k`. -/
def txCount (s : DBState) (k : BalanceKey) : Nat :=
  (s.outputTxsAccumulate.map (fun r =>
    if r.processed = true ∧ txRowKey r = k then 1 else 0)).sum

/-- Invariant I4 (conservation), per balance key: the four aggregate counters
equal what the processed staging rows account for. -/
def Conservation (s : DBState) : Prop :=
  ∀ k : BalanceKey,
    balTR s k = recvSum s k ∧
    balTS s k = sentSum s k ∧
    balUC s k = (outCount s k : Int) - (inCount s k : Int) ∧
    balTC s k = txCount s k

/-- Schema key constraints the database enforces: primary keys of
`accumulate_balances`, `output_addresses_accumulate` (composite),
`output_txs_accumulate`, `avm_outputs` and `avm_outputs_redeeming`. -/
def StateOK (s : DBState) : Prop :=
  (s.accumulateBalances.map (fun b => b.id)).Nodup ∧
  (s.outputAddressesAccumulate.map (fun r => (r.id, r.address))).Nodup ∧
  (s.outputTxsAccumulate.map (fun r => r.id)).Nodup ∧
  (s.avmOutputs.map (fun o => o.id)).Nodup ∧
  s.avmOutputsRedeeming.Nodup

/-- A fresh workload: no aggregate rows yet and every staging flag still 0. -/
def InitialWorkload (s : DBState) : Prop :=
  s.accumulateBalances = [] ∧
  (∀ r ∈ s.outputAddressesAccumulate, r.processedOut = false ∧ r.processedIn = false) ∧
  (∀ t ∈ s.outputTxsAccumulate, t.processed = false)


/-- Does the `accumulate_balances` table hold a row with key `k`? -/
def keyPresent (bs : List AccumulateBalances) (k : BalanceKey) : Prop :=
  k ∈ bs.map (fun b => b.id)

/-- The per-row state transformation `processRow` performs under the concrete
`computeID` (which never fails): skip when the aggregation is empty, otherwise
insert all aggregated keys idempotently, apply the direction's delta per
aggregated balance, and flip the staging flag. -/
def applyRow (typ : ProcessType) (s : DBState) (p : String × String) : DBState :=
  if (aggregateBalances s p.1 p.2).isEmpty then s
  else
    let s1 := (aggregateBalances s p.1 p.2).foldl
      (fun st b => insertAccumulateBalances st (aggKey b)) s
    let s2 := (aggregateBalances s p.1 p.2).foldl (fun st b =>
      match typ with
      | ProcessType.typeOut =>
        { st with accumulateBalances := updOut (aggKey b) b.totalReceived st.accumulateBalances }
      | ProcessType.typeIn =>
        { st with accumulateBalances := updIn (aggKey b) b.totalSent st.accumulateBalances }) s1
    match typ with
    | ProcessType.typeOut =>
      { s2 with outputAddressesAccumulate := flipOut p.1 p.2 s2.outputAddressesAccumulate }
    | ProcessType.typeIn =>
      { s2 with outputAddressesAccumulate := flipIn p.1 p.2 s2.outputAddressesAccumulate }

/-- The state transformation `processTransactions` performs under the
concrete `computeID`: insert the key of every claimed row idempotently, bump
`transaction_count` once per claimed row, and mark every claimed row
processed. -/
def applyTx (s : DBState) : DBState :=
  let rowdata := claimTxRows s
  let s1 := (rowdata.map txRowKey).foldl insertAccumulateBalances s
  let s2 := (rowdata.map txRowKey).foldl
    (fun st k => { st with accumulateBalances := updTx k st.accumulateBalances }) s1
  rowdata.foldl
    (fun st row => { st with outputTxsAccumulate := markTx row.id st.outputTxsAccumulate }) s2


/-- A staging row for `(id, address)` is still pending for the OUT pass. -/
def pendOut (s : DBState) (q : String × String) : Prop :=
  ∃ r ∈ s.outputAddressesAccumulate,
    r.id = q.1 ∧ r.address = q.2 ∧ r.processedOut = false

/-- A staging row for `(id, address)` is still pending for the IN pass. -/
def pendIn (s : DBState) (q : String × String) : Prop :=
  ∃ r ∈ s.outputAddressesAccumulate,
    r.id = q.1 ∧ r.address = q.2 ∧ r.processedIn = false

/-! ### Theorems -/

/-! Helper equations for the `Except` monad. -/

theorem except_bind_ok {α β : Type} (a : α) (f : α → Except String β) :
    (Except.ok a : Except String α) >>= f = f a := rfl

theorem except_bind_err {α β : Type} (e : String) (f : α → Except String β) :
    (Except.error e : Except String α) >>= f = Except.error e := rfl

/-! Structural lemmas about a single pass. -/

theorem processOutputs_empty (cid : BalanceKey → Except String BalanceKey)
    (typ : ProcessType) (s : DBState) (h : claimPairs typ s = []) :
    processOutputs cid typ s = Except.ok ⟨0, false, s⟩ := by
  simp [processOutputs, h]

theorem processTransactions_empty (cid : BalanceKey → Except String BalanceKey)
    (s : DBState) (h : claimTxRows s = []) :
    processTransactions cid s = Except.ok ⟨0, false, s⟩ := by
  simp [processTransactions, h]

theorem processOutputs_zero (cid : BalanceKey → Except String BalanceKey)
    (typ : ProcessType) (s : DBState) (po : PassOut)
    (h : processOutputs cid typ s = Except.ok po) (hz : po.cnt = 0) :
    po.state = s ∧ po.committed = false ∧ claimPairs typ s = [] := by
  cases hcl : claimPairs typ s with
  | nil =>
    rw [processOutputs_empty cid typ s hcl] at h
    injection h with h2
    rw [← h2]
    exact ⟨rfl, rfl, rfl⟩
  | cons p rest =>
    exfalso
    unfold processOutputs at h
    rw [hcl] at h
    simp only [List.isEmpty_cons, Bool.false_eq_true, if_false] at h
    cases hf : (p :: rest).foldlM (processRow cid typ) s with
    | error e => rw [hf, except_bind_err] at h; exact Except.noConfusion h
    | ok s3 =>
      rw [hf, except_bind_ok] at h
      injection h with h2
      rw [← h2] at hz
      simp at hz

theorem processTransactions_zero (cid : BalanceKey → Except String BalanceKey)
    (s : DBState) (po : PassOut)
    (h : processTransactions cid s = Except.ok po) (hz : po.cnt = 0) :
    po.state = s ∧ po.committed = false ∧ claimTxRows s = [] := by
  cases hcl : claimTxRows s with
  | nil =>
    rw [processTransactions_empty cid s hcl] at h
    injection h with h2
    rw [← h2]
    exact ⟨rfl, rfl, rfl⟩
  | cons p rest =>
    exfalso
    unfold processTransactions at h
    rw [hcl] at h
    simp only [List.isEmpty_cons, Bool.false_eq_true, if_false] at h
    cases hf : (p :: rest).foldlM (fun (acc : DBState × List BalanceKey) row => do
        let k ← cid ⟨row.chainID, row.assetID, row.address⟩
        pure (insertAccumulateBalances acc.1 k, acc.2 ++ [k])) (s, []) with
    | error e => rw [hf, except_bind_err] at h; exact Except.noConfusion h
    | ok r =>
      rw [hf, except_bind_ok] at h
      injection h with h2
      rw [← h2] at hz
      simp at hz

theorem runnerInv_init : RunnerInv initRunner := by
  simp [RunnerInv, initRunner]

theorem runnerInv_step (s t : RunnerState) (hs : RunnerInv s) (h : RStep s t) :
    RunnerInv t := by
  obtain ⟨hA, hB, hC, hD, hE⟩ := hs
  unfold RunnerInv
  cases h with
  | arrive => exact ⟨hA, hB, hC, hD, hE⟩
  | fastFail hp hr => exact ⟨hA, hB, hC, hD, hE⟩
  | fastPass hp hr => exact ⟨hA, hB, hC, hD, hE⟩
  | lockAcq hp hfree =>
    have h0 := hD hfree
    refine ⟨hA, hB, by dsimp only; omega, fun hf => Bool.noConfusion hf, hE⟩
  | checkFail hp hr =>
    refine ⟨hA, hB, by dsimp only; omega,
      fun hf => by have := hD hf; dsimp only; omega, hE⟩
  | checkPass hp hz =>
    refine ⟨hA, hB, by dsimp only; omega,
      fun hf => by have := hD hf; dsimp only; omega, fun _ => hz⟩
  | incr hp =>
    have hz := hE hp
    refine ⟨by dsimp only; omega, by dsimp only; omega, by dsimp only; omega,
      fun hf => by have := hD hf; dsimp only; omega, ?_⟩
    intro h3
    dsimp only at h3
    omega
  | spawn hp =>
    refine ⟨by dsimp only; omega, by dsimp only; omega, by dsimp only; omega,
      fun hf => by have := hD hf; dsimp only; omega, fun h3 => hE h3⟩
  | unlock hp =>
    refine ⟨hA, hB, by dsimp only; omega, fun _ => by dsimp only; omega, hE⟩
  | bodyDone hp =>
    refine ⟨by dsimp only; omega, by dsimp only; omega, hC, hD, fun h3 => hE h3⟩
  | decr hp =>
    refine ⟨by dsimp only; omega, by dsimp only; omega, hC, hD, ?_⟩
    intro h3
    have hz := hE h3
    dsimp only
    omega

theorem runnerInv_reach (st : RunnerState) (h : RunnerReach st) : RunnerInv st := by
  induction h with
  | init => exact runnerInv_init
  | step s t _ hstep ih => exact runnerInv_step s t ih hstep

theorem retryLoop_deadlock (results : Nat → Option String) (N : Nat) :
    ∀ (start fuel : Nat), N < fuel →
    (∀ j, j < N → ∃ ej, results (start + j) = some ej ∧
        strContains ej deadlockDBErrorMessage = true) →
    results (start + N) = none →
    retryLoop results fuel start = some (start + N + 1, none) := by
  induction N with
  | zero =>
    intro start fuel hfuel _ hsucc
    obtain ⟨f, rfl⟩ : ∃ f, fuel = f + 1 := ⟨fuel - 1, by omega⟩
    rw [Nat.add_zero] at hsucc
    show retryLoop results (Nat.succ f) start = _
    simp only [retryLoop, hsucc]
  | succ n ih =>
    intro start fuel hfuel hdl hsucc
    obtain ⟨f, rfl⟩ : ∃ f, fuel = f + 1 := ⟨fuel - 1, by omega⟩
    obtain ⟨e0, he0, hdl0⟩ := hdl 0 (Nat.succ_pos n)
    rw [Nat.add_zero] at he0
    show retryLoop results (Nat.succ f) start = _
    simp only [retryLoop]
    rw [he0]
    simp only [if_pos hdl0]
    have hres := ih (start + 1) f (by omega) (fun j hj => by
      obtain ⟨ej, h1, h2⟩ := hdl (j + 1) (Nat.succ_lt_succ hj)
      exact ⟨ej, by rw [show start + 1 + j = start + (j + 1) by omega]; exact h1, h2⟩)
      (by rw [show start + 1 + n = start + (n + 1) by omega]; exact hsucc)
    rw [hres]
    congr 2
    omega

/-! Lemmas about the driver loops. -/

theorem innerLoop_zero_icnt (pass : DBState → Except String PassOut) :
    ∀ (f : Nat) (s : DBState) (tr : List Nat) (s' : DBState) (i' : Nat) (tr' : List Nat),
    innerLoop pass f s 0 tr = LoopRes.ok s' i' tr' → i' = 0 := by
  intro f
  induction f with
  | zero => intro s tr s' i' tr' h; exact LoopRes.noConfusion h
  | succ f ih =>
    intro s tr s' i' tr' h
    unfold innerLoop at h
    split at h
    · exact LoopRes.noConfusion h
    · split at h
      · injection h with h1 h2 h3
        rw [← h2]
        simp
      · simp only [ite_self] at h
        exact ih _ _ _ _ _ h

theorem innerLoop_icnt_cases (pass : DBState → Except String PassOut) :
    ∀ (f : Nat) (s : DBState) (icnt : Nat) (tr : List Nat)
      (s' : DBState) (i' : Nat) (tr' : List Nat),
    innerLoop pass f s icnt tr = LoopRes.ok s' i' tr' → i' = 0 ∨ i' = icnt := by
  intro f
  induction f with
  | zero => intro s icnt tr s' i' tr' h; exact LoopRes.noConfusion h
  | succ f ih =>
    intro s icnt tr s' i' tr' h
    unfold innerLoop at h
    split at h
    · exact LoopRes.noConfusion h
    · rename_i po hpo
      by_cases hc : 0 < po.cnt
      · rw [if_pos hc] at h
        split at h
        · injection h with h1 h2 h3
          exact Or.inl h2.symm
        · exact Or.inl (innerLoop_zero_icnt pass _ _ _ _ _ _ h)
      · rw [if_neg hc] at h
        split at h
        · injection h with h1 h2 h3
          exact Or.inr h2.symm
        · exact ih _ _ _ _ _ _ h

theorem innerLoop_stall (pass : DBState → Except String PassOut)
    (f : Nat) (s : DBState) (icnt : Nat) (tr : List Nat)
    (s' : DBState) (tr' : List Nat)
    (h : innerLoop pass f s icnt tr = LoopRes.ok s' icnt tr') (hnz : icnt ≠ 0) :
    ∃ po, pass s = Except.ok po ∧ po.cnt = 0 ∧ s' = po.state ∧ tr' = tr ++ [0] := by
  cases f with
  | zero => exact absurd h (fun hc => LoopRes.noConfusion hc)
  | succ f =>
    unfold innerLoop at h
    split at h
    · exact absurd h (fun hc => LoopRes.noConfusion hc)
    · rename_i po hpo
      by_cases hc : 0 < po.cnt
      · rw [if_pos hc] at h
        exfalso
        split at h
        · injection h with h1 h2 h3
          exact hnz h2.symm
        · exact hnz (innerLoop_zero_icnt pass _ _ _ _ _ _ h)
      · rw [if_neg hc] at h
        have hz : po.cnt = 0 := by omega
        rw [if_pos (by rw [hz]; decide : po.cnt < RowLintValue)] at h
        injection h with h1 h2 h3
        exact ⟨po, hpo, hz, h1.symm, by rw [← h3, hz]⟩

theorem innerLoop_quiescent (pass : DBState → Except String PassOut)
    (f : Nat) (s : DBState) (h : pass s = Except.ok ⟨0, false, s⟩) :
    ∀ (icnt : Nat) (tr : List Nat),
    innerLoop pass (f + 1) s icnt tr = LoopRes.ok s icnt (tr ++ [0]) := by
  intro icnt tr
  unfold innerLoop
  rw [h]
  simp [RowLintValue]

theorem innerLoop_inv (pass : DBState → Except String PassOut) (P : DBState → Prop)
    (hpass : ∀ t po, pass t = Except.ok po → P t → P po.state) :
    ∀ (f : Nat) (s : DBState) (icnt : Nat) (tr : List Nat)
      (s' : DBState) (i' : Nat) (tr' : List Nat),
    innerLoop pass f s icnt tr = LoopRes.ok s' i' tr' → P s → P s' := by
  intro f
  induction f with
  | zero => intro s icnt tr s' i' tr' h _; exact LoopRes.noConfusion h
  | succ f ih =>
    intro s icnt tr s' i' tr' h hP
    unfold innerLoop at h
    split at h
    · exact LoopRes.noConfusion h
    · rename_i po hpo
      split at h
      · injection h with h1 h2 h3
        rw [← h1]
        exact hpass s po hpo hP
      · exact ih _ _ _ _ _ _ h (hpass s po hpo hP)

theorem outerLoop_exit_ten (cid : BalanceKey → Except String BalanceKey) :
    ∀ (ofuel ifuel : Nat) (s : DBState) (icnt : Nat) (tr : List Nat)
      (s' : DBState) (i' : Nat) (tr' : List Nat),
    outerLoop cid ofuel ifuel s icnt tr = LoopRes.ok s' i' tr' → icnt ≤ 10 → i' = 10 := by
  intro ofuel
  induction ofuel with
  | zero => intro _ _ _ _ _ _ _ h _; exact LoopRes.noConfusion h
  | succ ofuel ih =>
    intro ifuel s icnt tr s' i' tr' h hle
    unfold outerLoop at h
    by_cases h10 : 10 ≤ icnt
    · rw [if_pos h10] at h
      injection h with h1 h2 h3
      omega
    · rw [if_neg h10] at h
      split at h
      · exact LoopRes.noConfusion h
      · exact LoopRes.noConfusion h
      · rename_i s1 icnt1 tr1 h1
        split at h
        · exact LoopRes.noConfusion h
        · exact LoopRes.noConfusion h
        · rename_i s2 icnt2 tr2 h2
          split at h
          · exact LoopRes.noConfusion h
          · exact LoopRes.noConfusion h
          · rename_i s3 icnt3 tr3 h3
            have hc1 := innerLoop_icnt_cases _ _ _ _ _ _ _ _ h1
            have hc2 := innerLoop_icnt_cases _ _ _ _ _ _ _ _ h2
            have hc3 := innerLoop_icnt_cases _ _ _ _ _ _ _ _ h3
            exact ih ifuel s3 (icnt3 + 1) tr3 s' i' tr' h (by omega)

theorem outerLoop_ok_quiescent (cid : BalanceKey → Except String BalanceKey) :
    ∀ (ofuel ifuel : Nat) (s : DBState) (icnt : Nat) (tr : List Nat)
      (s' : DBState) (i' : Nat) (tr' : List Nat),
    outerLoop cid ofuel ifuel s icnt tr = LoopRes.ok s' i' tr' → icnt < 10 →
    Quiescent s' := by
  intro ofuel
  induction ofuel with
  | zero => intro _ _ _ _ _ _ _ h _; exact LoopRes.noConfusion h
  | succ ofuel ih =>
    intro ifuel s icnt tr s' i' tr' h hlt
    unfold outerLoop at h
    rw [if_neg (by omega)] at h
    split at h
    · exact LoopRes.noConfusion h
    · exact LoopRes.noConfusion h
    · rename_i s1 icnt1 tr1 h1
      split at h
      · exact LoopRes.noConfusion h
      · exact LoopRes.noConfusion h
      · rename_i s2 icnt2 tr2 h2
        split at h
        · exact LoopRes.noConfusion h
        · exact LoopRes.noConfusion h
        · rename_i s3 icnt3 tr3 h3
          by_cases hrec : icnt3 + 1 < 10
          · exact ih ifuel s3 (icnt3 + 1) tr3 s' i' tr' h hrec
          · cases ofuel with
            | zero => exact LoopRes.noConfusion h
            | succ o2 =>
              unfold outerLoop at h
              rw [if_pos (by omega)] at h
              injection h with hs hi ht
              have hc3 := innerLoop_icnt_cases _ _ _ _ _ _ _ _ h3
              have hc2 := innerLoop_icnt_cases _ _ _ _ _ _ _ _ h2
              have hc1 := innerLoop_icnt_cases _ _ _ _ _ _ _ _ h1
              have e3 : icnt3 = icnt2 := by omega
              have e2 : icnt2 = icnt1 := by omega
              have e1 : icnt1 = icnt := by omega
              have hnz : icnt ≠ 0 := by omega
              rw [e1] at h1
              obtain ⟨po1, hp1, hz1, hs1, _⟩ := innerLoop_stall _ _ _ _ _ _ _ h1 hnz
              obtain ⟨hps1, _, hcl1⟩ := processOutputs_zero cid ProcessType.typeOut s po1 hp1 hz1
              rw [e2, e1] at h2
              rw [hs1, hps1] at h2
              obtain ⟨po2, hp2, hz2, hs2, _⟩ := innerLoop_stall _ _ _ _ _ _ _ h2 hnz
              obtain ⟨hps2, _, hcl2⟩ := processOutputs_zero cid ProcessType.typeIn s po2 hp2 hz2
              rw [e3, e2, e1] at h3
              rw [hs2, hps2] at h3
              obtain ⟨po3, hp3, hz3, hs3, _⟩ := innerLoop_stall _ _ _ _ _ _ _ h3 hnz
              obtain ⟨hps3, _, hcl3⟩ := processTransactions_zero cid s po3 hp3 hz3
              rw [← hs, hs3, hps3]
              exact ⟨hcl1, hcl2, hcl3⟩

theorem outerLoop_quiescent_run (cid : BalanceKey → Except String BalanceKey)
    (g : Nat) (t : DBState) (hq : Quiescent t) :
    ∀ (m : Nat) (tr : List Nat), m ≤ 10 →
    outerLoop cid (m + 1) (g + 1) t (10 - m) tr
      = LoopRes.ok t 10 (tr ++ List.replicate (3 * m) 0) := by
  have hOut : processOutputs cid ProcessType.typeOut t = Except.ok ⟨0, false, t⟩ :=
    processOutputs_empty cid ProcessType.typeOut t hq.1
  have hIn : processOutputs cid ProcessType.typeIn t = Except.ok ⟨0, false, t⟩ :=
    processOutputs_empty cid ProcessType.typeIn t hq.2.1
  have hTx : processTransactions cid t = Except.ok ⟨0, false, t⟩ :=
    processTransactions_empty cid t hq.2.2
  intro m
  induction m with
  | zero =>
    intro tr _
    unfold outerLoop
    rw [if_pos (by omega)]
    simp
  | succ m ih =>
    intro tr hm
    unfold outerLoop
    rw [if_neg (by omega)]
    simp only [innerLoop_quiescent _ g _ hOut, innerLoop_quiescent _ g _ hIn,
      innerLoop_quiescent _ g _ hTx]
    rw [show 10 - (m + 1) + 1 = 10 - m from by omega]
    rw [ih (tr ++ [0] ++ [0] ++ [0]) (by omega)]
    congr 1
    rw [show 3 * (m + 1) = (3 * m + 1 + 1 + 1) from by ring]
    simp [List.replicate_succ, List.append_assoc]

/-! Generic list lemmas for pointwise updates of keyed tables. -/

theorem map_flip_id {α : Type} (P : α → Prop) [DecidablePred P] (g : α → α)
    (l : List α) (h : ∀ a ∈ l, ¬ P a) :
    l.map (fun a => if P a then g a else a) = l := by
  induction l with
  | nil => rfl
  | cons a t ih =>
    rw [List.map_cons, if_neg (h a (List.mem_cons_self a t)),
      ih (fun b hb => h b (List.mem_cons_of_mem a hb))]

theorem sum_map_flip_split {α β : Type} [AddCommMonoid β] (P : α → Prop)
    [DecidablePred P] (g : α → α) (f : α → β) (l1 l2 : List α) (r : α)
    (h1 : ∀ a ∈ l1, ¬ P a) (h2 : ∀ a ∈ l2, ¬ P a) (hr : P r) :
    (((l1 ++ r :: l2).map (fun a => if P a then g a else a)).map f).sum
      = (l1.map f).sum + (f (g r) + (l2.map f).sum) := by
  rw [List.map_append, List.map_cons, if_pos hr, List.map_append, List.map_cons,
    List.sum_append, List.sum_cons, map_flip_id P g l1 h1, map_flip_id P g l2 h2]

theorem sum_map_split {α β : Type} [AddCommMonoid β] (f : α → β)
    (l1 l2 : List α) (r : α) :
    (((l1 ++ r :: l2)).map f).sum = (l1.map f).sum + (f r + (l2.map f).sum) := by
  rw [List.map_append, List.map_cons, List.sum_append, List.sum_cons]

theorem nodup_split_ne {α β : Type} (key : α → β) (l1 l2 : List α) (r : α)
    (h : ((l1 ++ r :: l2).map key).Nodup) :
    (∀ a ∈ l1, key a ≠ key r) ∧ (∀ a ∈ l2, key a ≠ key r) := by
  rw [List.map_append, List.map_cons, List.nodup_append] at h
  obtain ⟨h1, h2, hdis⟩ := h
  rw [List.nodup_cons] at h2
  constructor
  · intro a ha he
    exact hdis (List.mem_map_of_mem key ha) (by rw [he]; exact List.mem_cons_self _ _)
  · intro a ha he
    exact h2.1 (he ▸ List.mem_map_of_mem key ha)

theorem sum_if_single {β γ : Type} [DecidableEq β] [AddCommMonoid γ]
    (f : β → γ) (k : β) :
    ∀ (ks : List β), ks.Nodup →
    ((ks.map (fun x => if x = k then f x else 0)).sum) = if k ∈ ks then f k else 0 := by
  intro ks
  induction ks with
  | nil => intro _; simp
  | cons x t ih =>
    intro hnd
    rw [List.nodup_cons] at hnd
    rw [List.map_cons, List.sum_cons, ih hnd.2]
    by_cases hx : x = k
    · subst hx
      rw [if_pos rfl, if_pos (List.mem_cons_self _ _), if_neg hnd.1, add_zero]
    · rw [if_neg hx]
      by_cases hk : k ∈ t
      · rw [if_pos hk, if_pos (List.mem_cons_of_mem _ hk), zero_add]
      · rw [if_neg hk, if_neg (by
          intro hc
          rcases List.mem_cons.mp hc with hc1 | hc2
          · exact hx hc1.symm
          · exact hk hc2), add_zero]

theorem len_le_one_nodup {α : Type} (l : List α) (h : l.length ≤ 1) : l.Nodup := by
  cases l with
  | nil => exact List.nodup_nil
  | cons a t =>
    cases t with
    | nil => simp
    | cons b t2 => simp at h

theorem filter_key_len {α β : Type} [DecidableEq β] (key : α → β) (x : β) :
    ∀ (l : List α), ((l.map key).Nodup) →
    (l.filter (fun a => decide (key a = x))).length ≤ 1 := by
  intro l
  induction l with
  | nil => intro _; simp
  | cons a t ih =>
    intro h
    rw [List.map_cons, List.nodup_cons] at h
    by_cases hx : key a = x
    · rw [List.filter_cons_of_pos (by simpa using hx)]
      have ht : t.filter (fun a2 => decide (key a2 = x)) = [] := by
        rw [List.filter_eq_nil_iff]
        intro b hb
        simp only [decide_eq_true_eq]
        intro hbx
        exact h.1 (by rw [hx, ← hbx]; exact List.mem_map_of_mem key hb)
      rw [ht]
      simp
    · rw [List.filter_cons_of_neg (by simpa using hx)]
      exact ih h.2

/-! Lemmas about the aggregation query. -/

theorem aggregateBalances_map_key (s : DBState) (id addr : String) :
    (aggregateBalances s id addr).map aggKey = rowKeys s id addr := by
  simp only [aggregateBalances, rowKeys, List.map_map]
  exact (List.map_congr_left (fun k0 _ => rfl)).trans (List.map_id _)

theorem rowKeys_nodup (s : DBState) (id addr : String) : (rowKeys s id addr).Nodup :=
  List.nodup_dedup _

theorem rowContrib_zero (s : DBState) (id addr : String) (k : BalanceKey)
    (h : k ∉ rowKeys s id addr) : rowContrib s id addr k = 0 := by
  unfold rowContrib
  have hf : (joinPairs s id addr).filter (fun p => decide (pairKey p = k)) = [] := by
    rw [List.filter_eq_nil_iff]
    intro p hp
    simp only [decide_eq_true_eq]
    intro he
    exact h (by
      unfold rowKeys
      rw [List.mem_dedup]
      exact he ▸ List.mem_map_of_mem pairKey hp)
  rw [hf]
  rfl

theorem aggregate_sum_tr (s : DBState) (id addr : String) (k : BalanceKey) :
    ((aggregateBalances s id addr).map
      (fun b => if aggKey b = k then b.totalReceived else 0)).sum
      = rowContrib s id addr k := by
  have h1 : (aggregateBalances s id addr).map
      (fun b => if aggKey b = k then b.totalReceived else 0)
      = (((joinPairs s id addr).map pairKey).dedup).map
          (fun x => if x = k then rowContrib s id addr x else 0) := by
    simp only [aggregateBalances, List.map_map]
    refine List.map_congr_left ?_
    intro k0 _
    show (if k0 = k then
        (((joinPairs s id addr).filter (fun p => decide (pairKey p = k0))).map
          (fun p => p.1.amount)).sum else 0)
      = if k0 = k then rowContrib s id addr k0 else 0
    rfl
  rw [h1, sum_if_single (rowContrib s id addr) k _ (List.nodup_dedup _)]
  by_cases hk : k ∈ ((joinPairs s id addr).map pairKey).dedup
  · rw [if_pos hk]
  · rw [if_neg hk]
    exact (rowContrib_zero s id addr k (by simpa [rowKeys] using hk)).symm

theorem aggregate_sum_ts (s : DBState) (id addr : String) (k : BalanceKey) :
    ((aggregateBalances s id addr).map
      (fun b => if aggKey b = k then b.totalSent else 0)).sum
      = rowContrib s id addr k := by
  have h1 : (aggregateBalances s id addr).map
      (fun b => if aggKey b = k then b.totalSent else 0)
      = (aggregateBalances s id addr).map
          (fun b => if aggKey b = k then b.totalReceived else 0) := by
    refine List.map_congr_left ?_
    intro b hb
    have : b.totalSent = b.totalReceived := by
      simp only [aggregateBalances, List.mem_map] at hb
      obtain ⟨k0, _, he⟩ := hb
      rw [← he]
    rw [this]
  rw [h1, aggregate_sum_tr]

theorem aggregate_sum_ind (s : DBState) (id addr : String) (k : BalanceKey) :
    ((aggregateBalances s id addr).map
      (fun b => if aggKey b = k then (1 : Nat) else 0)).sum
      = if k ∈ rowKeys s id addr then 1 else 0 := by
  have h1 : (aggregateBalances s id addr).map
      (fun b => if aggKey b = k then (1 : Nat) else 0)
      = (((joinPairs s id addr).map pairKey).dedup).map
          (fun x => if x = k then (1 : Nat) else 0) := by
    simp only [aggregateBalances, List.map_map]
    exact List.map_congr_left (fun k0 _ => rfl)
  rw [h1, sum_if_single (fun _ => (1 : Nat)) k _ (List.nodup_dedup _)]
  rfl

theorem aggregate_sum_ind_int (s : DBState) (id addr : String) (k : BalanceKey) :
    ((aggregateBalances s id addr).map
      (fun b => if aggKey b = k then (1 : Int) else 0)).sum
      = if k ∈ rowKeys s id addr then 1 else 0 := by
  have h1 : (aggregateBalances s id addr).map
      (fun b => if aggKey b = k then (1 : Int) else 0)
      = (((joinPairs s id addr).map pairKey).dedup).map
          (fun x => if x = k then (1 : Int) else 0) := by
    simp only [aggregateBalances, List.map_map]
    exact List.map_congr_left (fun k0 _ => rfl)
  rw [h1, sum_if_single (fun _ => (1 : Int)) k _ (List.nodup_dedup _)]
  rfl

theorem aggregateBalances_isEmpty (s : DBState) (id addr : String)
    (h : (aggregateBalances s id addr).isEmpty = true) : rowKeys s id addr = [] := by
  rw [← aggregateBalances_map_key]
  rw [List.isEmpty_iff] at h
  rw [h]
  rfl

theorem joinPairs_congr (s t : DBState) (h1 : s.avmOutputs = t.avmOutputs)
    (h2 : s.avmOutputAddresses = t.avmOutputAddresses) (id addr : String) :
    joinPairs s id addr = joinPairs t id addr := by
  unfold joinPairs
  rw [h1, h2]

theorem rowContrib_congr (s t : DBState) (h1 : s.avmOutputs = t.avmOutputs)
    (h2 : s.avmOutputAddresses = t.avmOutputAddresses) (id addr : String)
    (k : BalanceKey) : rowContrib s id addr k = rowContrib t id addr k := by
  unfold rowContrib
  rw [joinPairs_congr s t h1 h2]

theorem rowKeys_congr (s t : DBState) (h1 : s.avmOutputs = t.avmOutputs)
    (h2 : s.avmOutputAddresses = t.avmOutputAddresses) (id addr : String) :
    rowKeys s id addr = rowKeys t id addr := by
  unfold rowKeys
  rw [joinPairs_congr s t h1 h2]

/-! Effect of the idempotent insert. -/

theorem insert_frame (s : DBState) (k0 : BalanceKey) :
    (insertAccumulateBalances s k0).outputAddressesAccumulate
      = s.outputAddressesAccumulate ∧
    (insertAccumulateBalances s k0).outputTxsAccumulate = s.outputTxsAccumulate ∧
    (insertAccumulateBalances s k0).avmOutputs = s.avmOutputs ∧
    (insertAccumulateBalances s k0).avmOutputAddresses = s.avmOutputAddresses ∧
    (insertAccumulateBalances s k0).avmOutputsRedeeming = s.avmOutputsRedeeming := by
  unfold insertAccumulateBalances
  split <;> exact ⟨rfl, rfl, rfl, rfl, rfl⟩

theorem insert_keySums (s : DBState) (k0 k : BalanceKey) :
    keySumTR (insertAccumulateBalances s k0).accumulateBalances k
      = keySumTR s.accumulateBalances k ∧
    keySumTS (insertAccumulateBalances s k0).accumulateBalances k
      = keySumTS s.accumulateBalances k ∧
    keySumTC (insertAccumulateBalances s k0).accumulateBalances k
      = keySumTC s.accumulateBalances k ∧
    keySumUC (insertAccumulateBalances s k0).accumulateBalances k
      = keySumUC s.accumulateBalances k := by
  unfold insertAccumulateBalances
  split
  · exact ⟨rfl, rfl, rfl, rfl⟩
  · refine ⟨?_, ?_, ?_, ?_⟩ <;>
      simp [keySumTR, keySumTS, keySumTC, keySumUC, List.sum_append]

theorem insert_keys_nodup (s : DBState) (k0 : BalanceKey)
    (h : (s.accumulateBalances.map (fun b => b.id)).Nodup) :
    ((insertAccumulateBalances s k0).accumulateBalances.map (fun b => b.id)).Nodup := by
  unfold insertAccumulateBalances
  split
  · exact h
  · rename_i hany
    rw [List.any_eq_true] at hany
    push_neg at hany
    simp only [List.map_append, List.map_cons, List.map_nil]
    rw [List.nodup_append]
    refine ⟨h, List.nodup_singleton _, ?_⟩
    intro x hx
    simp only [List.mem_singleton]
    intro he
    obtain ⟨b, hb, hbe⟩ := List.mem_map.mp hx
    exact absurd (by simpa using (hbe.trans he) : b.id = k0)
      (by simpa using hany b hb)

theorem insert_keyPresent_self (s : DBState) (k0 : BalanceKey) :
    keyPresent (insertAccumulateBalances s k0).accumulateBalances k0 := by
  unfold insertAccumulateBalances keyPresent
  split
  · rename_i hany
    rw [List.any_eq_true] at hany
    obtain ⟨b, hb, hbe⟩ := hany
    rw [List.mem_map]
    exact ⟨b, hb, by simpa using hbe⟩
  · simp

theorem insert_keyPresent_mono (s : DBState) (k0 k : BalanceKey)
    (h : keyPresent s.accumulateBalances k) :
    keyPresent (insertAccumulateBalances s k0).accumulateBalances k := by
  unfold keyPresent at h
  unfold insertAccumulateBalances keyPresent
  split
  · exact h
  · simp only [List.map_append, List.mem_append]
    exact Or.inl h

/-! Effect of the delta updates on the aggregate table. -/

theorem updOut_keys (k0 : BalanceKey) (amt : Nat) (bs : List AccumulateBalances) :
    (updOut k0 amt bs).map (fun b => b.id) = bs.map (fun b => b.id) := by
  unfold updOut
  rw [List.map_map]
  refine List.map_congr_left ?_
  intro b _
  by_cases h : b.id = k0 <;> simp [h]

theorem updIn_keys (k0 : BalanceKey) (amt : Nat) (bs : List AccumulateBalances) :
    (updIn k0 amt bs).map (fun b => b.id) = bs.map (fun b => b.id) := by
  unfold updIn
  rw [List.map_map]
  refine List.map_congr_left ?_
  intro b _
  by_cases h : b.id = k0 <;> simp [h]

theorem updTx_keys (k0 : BalanceKey) (bs : List AccumulateBalances) :
    (updTx k0 bs).map (fun b => b.id) = bs.map (fun b => b.id) := by
  unfold updTx
  rw [List.map_map]
  refine List.map_congr_left ?_
  intro b _
  by_cases h : b.id = k0 <;> simp [h]

theorem updOut_other (k0 : BalanceKey) (amt : Nat) (bs : List AccumulateBalances)
    (k : BalanceKey) :
    keySumTS (updOut k0 amt bs) k = keySumTS bs k ∧
    keySumTC (updOut k0 amt bs) k = keySumTC bs k := by
  unfold updOut keySumTS keySumTC
  rw [List.map_map, List.map_map]
  constructor <;>
    (refine congrArg List.sum (List.map_congr_left ?_)
     intro b _
     by_cases h : b.id = k0 <;> simp [h])

theorem updIn_other (k0 : BalanceKey) (amt : Nat) (bs : List AccumulateBalances)
    (k : BalanceKey) :
    keySumTR (updIn k0 amt bs) k = keySumTR bs k ∧
    keySumTC (updIn k0 amt bs) k = keySumTC bs k := by
  unfold updIn keySumTR keySumTC
  rw [List.map_map, List.map_map]
  constructor <;>
    (refine congrArg List.sum (List.map_congr_left ?_)
     intro b _
     by_cases h : b.id = k0 <;> simp [h])

theorem updTx_other (k0 : BalanceKey) (bs : List AccumulateBalances) (k : BalanceKey) :
    keySumTR (updTx k0 bs) k = keySumTR bs k ∧
    keySumTS (updTx k0 bs) k = keySumTS bs k ∧
    keySumUC (updTx k0 bs) k = keySumUC bs k := by
  unfold updTx keySumTR keySumTS keySumUC
  rw [List.map_map, List.map_map, List.map_map]
  refine ⟨?_, ?_, ?_⟩ <;>
    (refine congrArg List.sum (List.map_congr_left ?_)
     intro b _
     by_cases h : b.id = k0 <;> simp [h])

theorem keyPresent_split (bs : List AccumulateBalances) (k0 : BalanceKey)
    (hp : keyPresent bs k0) : ∃ b0 l1 l2, bs = l1 ++ b0 :: l2 ∧ b0.id = k0 := by
  unfold keyPresent at hp
  obtain ⟨b0, hm, he⟩ := List.mem_map.mp hp
  obtain ⟨l1, l2, hsp⟩ := List.append_of_mem hm
  exact ⟨b0, l1, l2, hsp, he⟩

theorem keySumTR_updOut (bs : List AccumulateBalances) (k0 k : BalanceKey) (amt : Nat)
    (hnd : (bs.map (fun b => b.id)).Nodup) (hp : keyPresent bs k0) :
    keySumTR (updOut k0 amt bs) k = keySumTR bs k + (if k0 = k then amt else 0) := by
  obtain ⟨b0, l1, l2, rfl, hb0⟩ := keyPresent_split bs k0 hp
  have hne := nodup_split_ne (fun b => b.id) l1 l2 b0 hnd
  unfold updOut keySumTR
  rw [sum_map_flip_split (fun b => b.id = k0)
    (fun b => { b with utxoCount := b.utxoCount + 1,
                       totalReceived := b.totalReceived + amt })
    (fun b => if b.id = k then b.totalReceived else 0) l1 l2 b0
    (fun a ha he => hne.1 a ha (he.trans hb0.symm))
    (fun a ha he => hne.2 a ha (he.trans hb0.symm)) hb0]
  rw [sum_map_split]
  by_cases hk : k0 = k <;> simp [hb0, hk] <;> omega

theorem keySumUC_updOut (bs : List AccumulateBalances) (k0 k : BalanceKey) (amt : Nat)
    (hnd : (bs.map (fun b => b.id)).Nodup) (hp : keyPresent bs k0) :
    keySumUC (updOut k0 amt bs) k = keySumUC bs k + (if k0 = k then 1 else 0) := by
  obtain ⟨b0, l1, l2, rfl, hb0⟩ := keyPresent_split bs k0 hp
  have hne := nodup_split_ne (fun b => b.id) l1 l2 b0 hnd
  unfold updOut keySumUC
  rw [sum_map_flip_split (fun b => b.id = k0)
    (fun b => { b with utxoCount := b.utxoCount + 1,
                       totalReceived := b.totalReceived + amt })
    (fun b => if b.id = k then b.utxoCount else 0) l1 l2 b0
    (fun a ha he => hne.1 a ha (he.trans hb0.symm))
    (fun a ha he => hne.2 a ha (he.trans hb0.symm)) hb0]
  rw [sum_map_split]
  by_cases hk : k0 = k <;> simp [hb0, hk] <;> omega

theorem keySumTS_updIn (bs : List AccumulateBalances) (k0 k : BalanceKey) (amt : Nat)
    (hnd : (bs.map (fun b => b.id)).Nodup) (hp : keyPresent bs k0) :
    keySumTS (updIn k0 amt bs) k = keySumTS bs k + (if k0 = k then amt else 0) := by
  obtain ⟨b0, l1, l2, rfl, hb0⟩ := keyPresent_split bs k0 hp
  have hne := nodup_split_ne (fun b => b.id) l1 l2 b0 hnd
  unfold updIn keySumTS
  rw [sum_map_flip_split (fun b => b.id = k0)
    (fun b => { b with utxoCount := b.utxoCount - 1,
                       totalSent := b.totalSent + amt })
    (fun b => if b.id = k then b.totalSent else 0) l1 l2 b0
    (fun a ha he => hne.1 a ha (he.trans hb0.symm))
    (fun a ha he => hne.2 a ha (he.trans hb0.symm)) hb0]
  rw [sum_map_split]
  by_cases hk : k0 = k <;> simp [hb0, hk] <;> omega

theorem keySumUC_updIn (bs : List AccumulateBalances) (k0 k : BalanceKey) (amt : Nat)
    (hnd : (bs.map (fun b => b.id)).Nodup) (hp : keyPresent bs k0) :
    keySumUC (updIn k0 amt bs) k = keySumUC bs k - (if k0 = k then 1 else 0) := by
  obtain ⟨b0, l1, l2, rfl, hb0⟩ := keyPresent_split bs k0 hp
  have hne := nodup_split_ne (fun b => b.id) l1 l2 b0 hnd
  unfold updIn keySumUC
  rw [sum_map_flip_split (fun b => b.id = k0)
    (fun b => { b with utxoCount := b.utxoCount - 1,
                       totalSent := b.totalSent + amt })
    (fun b => if b.id = k then b.utxoCount else 0) l1 l2 b0
    (fun a ha he => hne.1 a ha (he.trans hb0.symm))
    (fun a ha he => hne.2 a ha (he.trans hb0.symm)) hb0]
  rw [sum_map_split]
  by_cases hk : k0 = k <;> simp [hb0, hk] <;> omega

theorem keySumTC_updTx (bs : List AccumulateBalances) (k0 k : BalanceKey)
    (hnd : (bs.map (fun b => b.id)).Nodup) (hp : keyPresent bs k0) :
    keySumTC (updTx k0 bs) k = keySumTC bs k + (if k0 = k then 1 else 0) := by
  obtain ⟨b0, l1, l2, rfl, hb0⟩ := keyPresent_split bs k0 hp
  have hne := nodup_split_ne (fun b => b.id) l1 l2 b0 hnd
  unfold updTx keySumTC
  rw [sum_map_flip_split (fun b => b.id = k0)
    (fun b => { b with transactionCount := b.transactionCount + 1 })
    (fun b => if b.id = k then b.transactionCount else 0) l1 l2 b0
    (fun a ha he => hne.1 a ha (he.trans hb0.symm))
    (fun a ha he => hne.2 a ha (he.trans hb0.symm)) hb0]
  rw [sum_map_split]
  by_cases hk : k0 = k <;> simp [hb0, hk] <;> omega

theorem keyPresent_of_keys_eq (bs bs2 : List AccumulateBalances) (k : BalanceKey)
    (he : bs2.map (fun b => b.id) = bs.map (fun b => b.id))
    (h : keyPresent bs k) : keyPresent bs2 k := by
  unfold keyPresent at h ⊢
  rw [he]
  exact h

/-! Effect of the staging flag updates on the key columns. -/

theorem flipOut_pairs (id addr : String) (rs : List OutputAddressAccumulate) :
    (flipOut id addr rs).map (fun r => (r.id, r.address))
      = rs.map (fun r => (r.id, r.address)) := by
  unfold flipOut
  rw [List.map_map]
  refine List.map_congr_left ?_
  intro r _
  by_cases h : r.id = id ∧ r.address = addr <;> simp [h]

theorem flipIn_pairs (id addr : String) (rs : List OutputAddressAccumulate) :
    (flipIn id addr rs).map (fun r => (r.id, r.address))
      = rs.map (fun r => (r.id, r.address)) := by
  unfold flipIn
  rw [List.map_map]
  refine List.map_congr_left ?_
  intro r _
  by_cases h : r.id = id ∧ r.address = addr <;> simp [h]

theorem markTx_ids (id : String) (rs : List OutputTxsAccumulate) :
    (markTx id rs).map (fun r => r.id) = rs.map (fun r => r.id) := by
  unfold markTx
  rw [List.map_map]
  refine List.map_congr_left ?_
  intro r _
  by_cases h : r.id = id <;> simp [h]

/-! Fold lemmas for the pass bodies. -/

theorem insert_fold_spec (ks : List BalanceKey) :
    ∀ (s : DBState),
    (ks.foldl insertAccumulateBalances s).outputAddressesAccumulate
      = s.outputAddressesAccumulate ∧
    (ks.foldl insertAccumulateBalances s).outputTxsAccumulate
      = s.outputTxsAccumulate ∧
    (ks.foldl insertAccumulateBalances s).avmOutputs = s.avmOutputs ∧
    (ks.foldl insertAccumulateBalances s).avmOutputAddresses = s.avmOutputAddresses ∧
    (ks.foldl insertAccumulateBalances s).avmOutputsRedeeming
      = s.avmOutputsRedeeming ∧
    (∀ k, keySumTR (ks.foldl insertAccumulateBalances s).accumulateBalances k
        = keySumTR s.accumulateBalances k) ∧
    (∀ k, keySumTS (ks.foldl insertAccumulateBalances s).accumulateBalances k
        = keySumTS s.accumulateBalances k) ∧
    (∀ k, keySumTC (ks.foldl insertAccumulateBalances s).accumulateBalances k
        = keySumTC s.accumulateBalances k) ∧
    (∀ k, keySumUC (ks.foldl insertAccumulateBalances s).accumulateBalances k
        = keySumUC s.accumulateBalances k) ∧
    ((s.accumulateBalances.map (fun b => b.id)).Nodup →
      ((ks.foldl insertAccumulateBalances s).accumulateBalances.map
        (fun b => b.id)).Nodup) ∧
    (∀ k ∈ ks, keyPresent (ks.foldl insertAccumulateBalances s).accumulateBalances k) ∧
    (∀ k, keyPresent s.accumulateBalances k →
      keyPresent (ks.foldl insertAccumulateBalances s).accumulateBalances k) := by
  induction ks with
  | nil =>
    intro s
    refine ⟨rfl, rfl, rfl, rfl, rfl, fun k => rfl, fun k => rfl, fun k => rfl,
      fun k => rfl, fun h => h, ?_, fun k h => h⟩
    intro k hk
    exact absurd hk (List.not_mem_nil k)
  | cons k0 t ih =>
    intro s
    rw [List.foldl_cons]
    obtain ⟨f1, f2, f3, f4, f5, g1, g2, g3, g4, gn, gp, gm⟩ :=
      ih (insertAccumulateBalances s k0)
    obtain ⟨e1, e2, e3, e4, e5⟩ := insert_frame s k0
    refine ⟨f1.trans e1, f2.trans e2, f3.trans e3, f4.trans e4, f5.trans e5,
      ?_, ?_, ?_, ?_, ?_, ?_, ?_⟩
    · intro k
      rw [g1 k, (insert_keySums s k0 k).1]
    · intro k
      rw [g2 k, (insert_keySums s k0 k).2.1]
    · intro k
      rw [g3 k, (insert_keySums s k0 k).2.2.1]
    · intro k
      rw [g4 k, (insert_keySums s k0 k).2.2.2]
    · intro h
      exact gn (insert_keys_nodup s k0 h)
    · intro k hk
      rcases List.mem_cons.mp hk with h | h
      · subst h
        exact gm k (insert_keyPresent_self s k)
      · exact gp k h
    · intro k h
      exact gm k (insert_keyPresent_mono s k0 k h)

theorem updOut_fold_spec (bl : List AggRow) :
    ∀ (s : DBState),
    ((s.accumulateBalances.map (fun b => b.id)).Nodup) →
    (∀ b ∈ bl, keyPresent s.accumulateBalances (aggKey b)) →
    (bl.foldl (fun st b =>
      { st with accumulateBalances :=
          updOut (aggKey b) b.totalReceived st.accumulateBalances }) s).outputAddressesAccumulate
      = s.outputAddressesAccumulate ∧
    (bl.foldl (fun st b =>
      { st with accumulateBalances :=
          updOut (aggKey b) b.totalReceived st.accumulateBalances }) s).outputTxsAccumulate
      = s.outputTxsAccumulate ∧
    (bl.foldl (fun st b =>
      { st with accumulateBalances :=
          updOut (aggKey b) b.totalReceived st.accumulateBalances }) s).avmOutputs
      = s.avmOutputs ∧
    (bl.foldl (fun st b =>
      { st with accumulateBalances :=
          updOut (aggKey b) b.totalReceived st.accumulateBalances }) s).avmOutputAddresses
      = s.avmOutputAddresses ∧
    (bl.foldl (fun st b =>
      { st with accumulateBalances :=
          updOut (aggKey b) b.totalReceived st.accumulateBalances }) s).avmOutputsRedeeming
      = s.avmOutputsRedeeming ∧
    ((bl.foldl (fun st b =>
      { st with accumulateBalances :=
          updOut (aggKey b) b.totalReceived st.accumulateBalances }) s).accumulateBalances.map
        (fun b => b.id) = s.accumulateBalances.map (fun b => b.id)) ∧
    (∀ k, keySumTR (bl.foldl (fun st b =>
      { st with accumulateBalances :=
          updOut (aggKey b) b.totalReceived st.accumulateBalances }) s).accumulateBalances k
        = keySumTR s.accumulateBalances k
          + (bl.map (fun b => if aggKey b = k then b.totalReceived else 0)).sum) ∧
    (∀ k, keySumUC (bl.foldl (fun st b =>
      { st with accumulateBalances :=
          updOut (aggKey b) b.totalReceived st.accumulateBalances }) s).accumulateBalances k
        = keySumUC s.accumulateBalances k
          + (bl.map (fun b => if aggKey b = k then (1 : Int) else 0)).sum) ∧
    (∀ k, keySumTS (bl.foldl (fun st b =>
      { st with accumulateBalances :=
          updOut (aggKey b) b.totalReceived st.accumulateBalances }) s).accumulateBalances k
        = keySumTS s.accumulateBalances k) ∧
    (∀ k, keySumTC (bl.foldl (fun st b =>
      { st with accumulateBalances :=
          updOut (aggKey b) b.totalReceived st.accumulateBalances }) s).accumulateBalances k
        = keySumTC s.accumulateBalances k) := by
  induction bl with
  | nil =>
    intro s _ _
    exact ⟨rfl, rfl, rfl, rfl, rfl, rfl, fun k => by simp, fun k => by simp,
      fun k => rfl, fun k => rfl⟩
  | cons b t ih =>
    intro s hnd hpres
    rw [List.foldl_cons]
    have hnd1 : ((updOut (aggKey b) b.totalReceived s.accumulateBalances).map
        (fun b2 => b2.id)).Nodup := by
      rw [updOut_keys]
      exact hnd
    have hpres1 : ∀ b2 ∈ t, keyPresent
        (updOut (aggKey b) b.totalReceived s.accumulateBalances) (aggKey b2) := by
      intro b2 hb2
      exact keyPresent_of_keys_eq _ _ _ (updOut_keys _ _ _)
        (hpres b2 (List.mem_cons_of_mem b hb2))
    obtain ⟨f1, f2, f3, f4, f5, fk, g1, g2, g3, g4⟩ :=
      ih { s with accumulateBalances := updOut (aggKey b) b.totalReceived s.accumulateBalances } hnd1 hpres1
    have hpb : keyPresent s.accumulateBalances (aggKey b) :=
      hpres b (List.mem_cons_self b t)
    refine ⟨f1, f2, f3, f4, f5, fk.trans (updOut_keys _ _ _), ?_, ?_, ?_, ?_⟩
    · intro k
      rw [g1 k]
      show keySumTR (updOut (aggKey b) b.totalReceived s.accumulateBalances) k + _ = _
      rw [keySumTR_updOut s.accumulateBalances (aggKey b) k b.totalReceived hnd hpb]
      rw [List.map_cons, List.sum_cons]
      by_cases hk : aggKey b = k <;> simp [hk] <;> omega
    · intro k
      rw [g2 k]
      show keySumUC (updOut (aggKey b) b.totalReceived s.accumulateBalances) k + _ = _
      rw [keySumUC_updOut s.accumulateBalances (aggKey b) k b.totalReceived hnd hpb]
      rw [List.map_cons, List.sum_cons]
      by_cases hk : aggKey b = k <;> simp [hk] <;> omega
    · intro k
      rw [g3 k]
      exact (updOut_other (aggKey b) b.totalReceived s.accumulateBalances k).1
    · intro k
      rw [g4 k]
      exact (updOut_other (aggKey b) b.totalReceived s.accumulateBalances k).2

theorem updIn_fold_spec (bl : List AggRow) :
    ∀ (s : DBState),
    ((s.accumulateBalances.map (fun b => b.id)).Nodup) →
    (∀ b ∈ bl, keyPresent s.accumulateBalances (aggKey b)) →
    (bl.foldl (fun st b =>
      { st with accumulateBalances := updIn (aggKey b) b.totalSent st.accumulateBalances }) s).outputAddressesAccumulate
      = s.outputAddressesAccumulate ∧
    (bl.foldl (fun st b =>
      { st with accumulateBalances := updIn (aggKey b) b.totalSent st.accumulateBalances }) s).outputTxsAccumulate
      = s.outputTxsAccumulate ∧
    (bl.foldl (fun st b =>
      { st with accumulateBalances := updIn (aggKey b) b.totalSent st.accumulateBalances }) s).avmOutputs
      = s.avmOutputs ∧
    (bl.foldl (fun st b =>
      { st with accumulateBalances := updIn (aggKey b) b.totalSent st.accumulateBalances }) s).avmOutputAddresses
      = s.avmOutputAddresses ∧
    (bl.foldl (fun st b =>
      { st with accumulateBalances := updIn (aggKey b) b.totalSent st.accumulateBalances }) s).avmOutputsRedeeming
      = s.avmOutputsRedeeming ∧
    ((bl.foldl (fun st b =>
      { st with accumulateBalances := updIn (aggKey b) b.totalSent st.accumulateBalances }) s).accumulateBalances.map
        (fun b => b.id) = s.accumulateBalances.map (fun b => b.id)) ∧
    (∀ k, keySumTS (bl.foldl (fun st b =>
      { st with accumulateBalances := updIn (aggKey b) b.totalSent st.accumulateBalances }) s).accumulateBalances k
        = keySumTS s.accumulateBalances k
          + (bl.map (fun b => if aggKey b = k then b.totalSent else 0)).sum) ∧
    (∀ k, keySumUC (bl.foldl (fun st b =>
      { st with accumulateBalances := updIn (aggKey b) b.totalSent st.accumulateBalances }) s).accumulateBalances k
        = keySumUC s.accumulateBalances k
          - (bl.map (fun b => if aggKey b = k then (1 : Int) else 0)).sum) ∧
    (∀ k, keySumTR (bl.foldl (fun st b =>
      { st with accumulateBalances := updIn (aggKey b) b.totalSent st.accumulateBalances }) s).accumulateBalances k
        = keySumTR s.accumulateBalances k) ∧
    (∀ k, keySumTC (bl.foldl (fun st b =>
      { st with accumulateBalances := updIn (aggKey b) b.totalSent st.accumulateBalances }) s).accumulateBalances k
        = keySumTC s.accumulateBalances k) := by
  induction bl with
  | nil =>
    intro s _ _
    exact ⟨rfl, rfl, rfl, rfl, rfl, rfl, fun k => by simp, fun k => by simp,
      fun k => rfl, fun k => rfl⟩
  | cons b t ih =>
    intro s hnd hpres
    rw [List.foldl_cons]
    have hnd1 : ((updIn (aggKey b) b.totalSent s.accumulateBalances).map
        (fun b2 => b2.id)).Nodup := by
      rw [updIn_keys]
      exact hnd
    have hpres1 : ∀ b2 ∈ t, keyPresent
        (updIn (aggKey b) b.totalSent s.accumulateBalances) (aggKey b2) := by
      intro b2 hb2
      exact keyPresent_of_keys_eq _ _ _ (updIn_keys _ _ _)
        (hpres b2 (List.mem_cons_of_mem b hb2))
    obtain ⟨f1, f2, f3, f4, f5, fk, g1, g2, g3, g4⟩ :=
      ih { s with accumulateBalances := updIn (aggKey b) b.totalSent s.accumulateBalances } hnd1 hpres1
    have hpb : keyPresent s.accumulateBalances (aggKey b) :=
      hpres b (List.mem_cons_self b t)
    refine ⟨f1, f2, f3, f4, f5, fk.trans (updIn_keys _ _ _), ?_, ?_, ?_, ?_⟩
    · intro k
      rw [g1 k]
      show keySumTS (updIn (aggKey b) b.totalSent s.accumulateBalances) k + _ = _
      rw [keySumTS_updIn s.accumulateBalances (aggKey b) k b.totalSent hnd hpb]
      rw [List.map_cons, List.sum_cons]
      by_cases hk : aggKey b = k <;> simp [hk] <;> omega
    · intro k
      rw [g2 k]
      show keySumUC (updIn (aggKey b) b.totalSent s.accumulateBalances) k - _ = _
      rw [keySumUC_updIn s.accumulateBalances (aggKey b) k b.totalSent hnd hpb]
      rw [List.map_cons, List.sum_cons]
      by_cases hk : aggKey b = k <;> simp [hk] <;> omega
    · intro k
      rw [g3 k]
      exact (updIn_other (aggKey b) b.totalSent s.accumulateBalances k).1
    · intro k
      rw [g4 k]
      exact (updIn_other (aggKey b) b.totalSent s.accumulateBalances k).2

theorem updTx_fold_spec (ks : List BalanceKey) :
    ∀ (s : DBState),
    ((s.accumulateBalances.map (fun b => b.id)).Nodup) →
    (∀ k0 ∈ ks, keyPresent s.accumulateBalances k0) →
    (ks.foldl (fun st k0 =>
      { st with accumulateBalances := updTx k0 st.accumulateBalances }) s).outputAddressesAccumulate
      = s.outputAddressesAccumulate ∧
    (ks.foldl (fun st k0 =>
      { st with accumulateBalances := updTx k0 st.accumulateBalances }) s).outputTxsAccumulate
      = s.outputTxsAccumulate ∧
    (ks.foldl (fun st k0 =>
      { st with accumulateBalances := updTx k0 st.accumulateBalances }) s).avmOutputs
      = s.avmOutputs ∧
    (ks.foldl (fun st k0 =>
      { st with accumulateBalances := updTx k0 st.accumulateBalances }) s).avmOutputAddresses
      = s.avmOutputAddresses ∧
    (ks.foldl (fun st k0 =>
      { st with accumulateBalances := updTx k0 st.accumulateBalances }) s).avmOutputsRedeeming
      = s.avmOutputsRedeeming ∧
    ((ks.foldl (fun st k0 =>
      { st with accumulateBalances := updTx k0 st.accumulateBalances }) s).accumulateBalances.map
        (fun b => b.id) = s.accumulateBalances.map (fun b => b.id)) ∧
    (∀ k, keySumTC (ks.foldl (fun st k0 =>
      { st with accumulateBalances := updTx k0 st.accumulateBalances }) s).accumulateBalances k
        = keySumTC s.accumulateBalances k
          + (ks.map (fun k0 => if k0 = k then (1 : Nat) else 0)).sum) ∧
    (∀ k, keySumTR (ks.foldl (fun st k0 =>
      { st with accumulateBalances := updTx k0 st.accumulateBalances }) s).accumulateBalances k
        = keySumTR s.accumulateBalances k) ∧
    (∀ k, keySumTS (ks.foldl (fun st k0 =>
      { st with accumulateBalances := updTx k0 st.accumulateBalances }) s).accumulateBalances k
        = keySumTS s.accumulateBalances k) ∧
    (∀ k, keySumUC (ks.foldl (fun st k0 =>
      { st with accumulateBalances := updTx k0 st.accumulateBalances }) s).accumulateBalances k
        = keySumUC s.accumulateBalances k) := by
  induction ks with
  | nil =>
    intro s _ _
    exact ⟨rfl, rfl, rfl, rfl, rfl, rfl, fun k => by simp, fun k => rfl,
      fun k => rfl, fun k => rfl⟩
  | cons k0 t ih =>
    intro s hnd hpres
    rw [List.foldl_cons]
    have hnd1 : ((updTx k0 s.accumulateBalances).map (fun b2 => b2.id)).Nodup := by
      rw [updTx_keys]
      exact hnd
    have hpres1 : ∀ k2 ∈ t, keyPresent (updTx k0 s.accumulateBalances) k2 := by
      intro k2 hk2
      exact keyPresent_of_keys_eq _ _ _ (updTx_keys _ _)
        (hpres k2 (List.mem_cons_of_mem k0 hk2))
    obtain ⟨f1, f2, f3, f4, f5, fk, g1, g2, g3, g4⟩ :=
      ih { s with accumulateBalances := updTx k0 s.accumulateBalances } hnd1 hpres1
    have hpb : keyPresent s.accumulateBalances k0 :=
      hpres k0 (List.mem_cons_self k0 t)
    refine ⟨f1, f2, f3, f4, f5, fk.trans (updTx_keys _ _), ?_, ?_, ?_, ?_⟩
    · intro k
      rw [g1 k]
      show keySumTC (updTx k0 s.accumulateBalances) k + _ = _
      rw [keySumTC_updTx s.accumulateBalances k0 k hnd hpb]
      rw [List.map_cons, List.sum_cons]
      by_cases hk : k0 = k <;> simp [hk] <;> omega
    · intro k
      rw [g2 k]
      exact (updTx_other k0 s.accumulateBalances k).1
    · intro k
      rw [g3 k]
      exact (updTx_other k0 s.accumulateBalances k).2.1
    · intro k
      rw [g4 k]
      exact (updTx_other k0 s.accumulateBalances k).2.2

/-! Effect of marking transaction staging rows. -/

theorem markTx_one_delta (ts : List OutputTxsAccumulate) (r : OutputTxsAccumulate)
    (hnd : (ts.map (fun t => t.id)).Nodup) (hmem : r ∈ ts)
    (hpend : r.processed = false) (k : BalanceKey) :
    ((markTx r.id ts).map
      (fun t => if t.processed = true ∧ txRowKey t = k then (1 : Nat) else 0)).sum
      = (ts.map
          (fun t => if t.processed = true ∧ txRowKey t = k then (1 : Nat) else 0)).sum
        + (if txRowKey r = k then 1 else 0) := by
  obtain ⟨l1, l2, rfl⟩ := List.append_of_mem hmem
  have hne := nodup_split_ne (fun t => t.id) l1 l2 r hnd
  unfold markTx
  rw [sum_map_flip_split (fun t => t.id = r.id) (fun t => { t with processed := true })
    (fun t => if t.processed = true ∧ txRowKey t = k then (1 : Nat) else 0) l1 l2 r
    (fun a ha he => hne.1 a ha he) (fun a ha he => hne.2 a ha he) rfl]
  rw [sum_map_split]
  by_cases hk : txRowKey r = k <;> simp [hpend, txRowKey] at hk ⊢ <;> simp [hk] <;> omega

theorem markTx_mem_other (ts : List OutputTxsAccumulate) (id2 : String)
    (r : OutputTxsAccumulate) (hne : r.id ≠ id2) (hmem : r ∈ ts) : r ∈ markTx id2 ts :=
  List.mem_map.mpr ⟨r, hmem, by simp [hne]⟩

theorem markTx_mem_processed (ts : List OutputTxsAccumulate) (id2 : String) (x : String)
    (h : ∃ r2 ∈ ts, r2.id = x ∧ r2.processed = true) :
    ∃ r2 ∈ markTx id2 ts, r2.id = x ∧ r2.processed = true := by
  obtain ⟨r2, hm, hid, hpr⟩ := h
  by_cases hc : r2.id = id2
  · exact ⟨{ r2 with processed := true },
      List.mem_map.mpr ⟨r2, hm, by simp [hc]⟩, by simpa using hid, rfl⟩
  · exact ⟨r2, List.mem_map.mpr ⟨r2, hm, by simp [hc]⟩, hid, hpr⟩

theorem markTx_mem_self (ts : List OutputTxsAccumulate) (r : OutputTxsAccumulate)
    (hmem : r ∈ ts) : { r with processed := true } ∈ markTx r.id ts :=
  List.mem_map.mpr ⟨r, hmem, by simp⟩

theorem markTx_fold_spec (rl : List OutputTxsAccumulate) :
    ∀ (s : DBState),
    ((rl.map (fun r => r.id)).Nodup) →
    ((s.outputTxsAccumulate.map (fun r => r.id)).Nodup) →
    (∀ r ∈ rl, r ∈ s.outputTxsAccumulate ∧ r.processed = false) →
    (rl.foldl (fun st row =>
      { st with outputTxsAccumulate := markTx row.id st.outputTxsAccumulate }) s).outputAddressesAccumulate
      = s.outputAddressesAccumulate ∧
    (rl.foldl (fun st row =>
      { st with outputTxsAccumulate := markTx row.id st.outputTxsAccumulate }) s).avmOutputs
      = s.avmOutputs ∧
    (rl.foldl (fun st row =>
      { st with outputTxsAccumulate := markTx row.id st.outputTxsAccumulate }) s).avmOutputAddresses
      = s.avmOutputAddresses ∧
    (rl.foldl (fun st row =>
      { st with outputTxsAccumulate := markTx row.id st.outputTxsAccumulate }) s).avmOutputsRedeeming
      = s.avmOutputsRedeeming ∧
    (rl.foldl (fun st row =>
      { st with outputTxsAccumulate := markTx row.id st.outputTxsAccumulate }) s).accumulateBalances
      = s.accumulateBalances ∧
    ((rl.foldl (fun st row =>
      { st with outputTxsAccumulate := markTx row.id st.outputTxsAccumulate }) s).outputTxsAccumulate.map
        (fun r => r.id) = s.outputTxsAccumulate.map (fun r => r.id)) ∧
    (∀ k, txCount (rl.foldl (fun st row =>
      { st with outputTxsAccumulate := markTx row.id st.outputTxsAccumulate }) s) k
      = txCount s k + (rl.map (fun r => if txRowKey r = k then (1 : Nat) else 0)).sum) ∧
    (∀ x, (∃ r2 ∈ s.outputTxsAccumulate, r2.id = x ∧ r2.processed = true) →
      ∃ r2 ∈ (rl.foldl (fun st row =>
        { st with outputTxsAccumulate := markTx row.id st.outputTxsAccumulate }) s).outputTxsAccumulate,
        r2.id = x ∧ r2.processed = true) ∧
    (∀ r ∈ rl, ∃ r2 ∈ (rl.foldl (fun st row =>
      { st with outputTxsAccumulate := markTx row.id st.outputTxsAccumulate }) s).outputTxsAccumulate,
      r2.id = r.id ∧ r2.processed = true) := by
  induction rl with
  | nil =>
    intro s _ _ _
    refine ⟨rfl, rfl, rfl, rfl, rfl, rfl, fun k => by simp [txCount], fun x h => h, ?_⟩
    intro r hr
    exact absurd hr (List.not_mem_nil r)
  | cons r t ih =>
    intro s hrl hnd hmem
    rw [List.foldl_cons]
    rw [List.map_cons, List.nodup_cons] at hrl
    have hrm := hmem r (List.mem_cons_self r t)
    have hnd1 : ((markTx r.id s.outputTxsAccumulate).map (fun r2 => r2.id)).Nodup := by
      rw [markTx_ids]
      exact hnd
    have hne : ∀ r2 ∈ t, r2.id ≠ r.id := by
      intro r2 hr2 he
      exact hrl.1 (he ▸ List.mem_map_of_mem (fun r3 => r3.id) hr2)
    have hmem1 : ∀ r2 ∈ t, r2 ∈ markTx r.id s.outputTxsAccumulate ∧ r2.processed = false := by
      intro r2 hr2
      exact ⟨markTx_mem_other _ _ _ (hne r2 hr2) (hmem r2 (List.mem_cons_of_mem r hr2)).1,
        (hmem r2 (List.mem_cons_of_mem r hr2)).2⟩
    obtain ⟨f1, f2, f3, f4, f5, fk, g1, gmon, gall⟩ :=
      ih { s with outputTxsAccumulate := markTx r.id s.outputTxsAccumulate } hrl.2 hnd1 hmem1
    refine ⟨f1, f2, f3, f4, f5, fk.trans (markTx_ids _ _), ?_, ?_, ?_⟩
    · intro k
      rw [g1 k]
      have hd : txCount { s with outputTxsAccumulate := markTx r.id s.outputTxsAccumulate } k
          = txCount s k + (if txRowKey r = k then 1 else 0) := by
        show ((markTx r.id s.outputTxsAccumulate).map
          (fun t2 => if t2.processed = true ∧ txRowKey t2 = k then (1 : Nat) else 0)).sum = _
        exact markTx_one_delta s.outputTxsAccumulate r hnd hrm.1 hrm.2 k
      rw [hd, List.map_cons, List.sum_cons]
      omega
    · intro x h
      exact gmon x (markTx_mem_processed _ _ _ h)
    · intro r2 hr2
      rcases List.mem_cons.mp hr2 with h | h
      · subst h
        refine gmon r2.id ?_
        exact ⟨{ r2 with processed := true }, markTx_mem_self _ _ hrm.1, rfl, rfl⟩
      · exact gall r2 h

/-! Evaluation of the pass bodies under the concrete `computeID`. -/

theorem outfold_ok (bl : List AggRow) :
    ∀ (st : DBState) (acc : List (BalanceKey × AggRow)),
    (bl.foldlM (fun (acc2 : DBState × List (BalanceKey × AggRow)) b => do
      let k ← computeID (aggKey b)
      pure (insertAccumulateBalances acc2.1 k, acc2.2 ++ [(k, b)])) (st, acc)
      : Except String (DBState × List (BalanceKey × AggRow)))
    = Except.ok (bl.foldl (fun st2 b => insertAccumulateBalances st2 (aggKey b)) st,
        acc ++ bl.map (fun b => (aggKey b, b))) := by
  induction bl with
  | nil =>
    intro st acc
    rw [List.foldlM_nil]
    simp
    rfl
  | cons b t ih =>
    intro st acc
    rw [List.foldlM_cons]
    show (Except.ok (insertAccumulateBalances st (aggKey b), acc ++ [(aggKey b, b)])
      >>= fun x => t.foldlM _ x) = _
    rw [except_bind_ok, ih]
    simp

theorem processRow_computeID (typ : ProcessType) (s : DBState) (p : String × String) :
    processRow computeID typ s p = Except.ok (applyRow typ s p) := by
  unfold processRow applyRow
  by_cases hb : (aggregateBalances s p.1 p.2).isEmpty
  · rw [if_pos hb, if_pos hb]
  · rw [if_neg hb, if_neg hb]
    rw [outfold_ok]
    rw [except_bind_ok]
    simp only [List.nil_append, List.foldl_map]

theorem txfold_ok (rl : List OutputTxsAccumulate) :
    ∀ (st : DBState) (acc : List BalanceKey),
    (rl.foldlM (fun (acc2 : DBState × List BalanceKey) row => do
      let k ← computeID ⟨row.chainID, row.assetID, row.address⟩
      pure (insertAccumulateBalances acc2.1 k, acc2.2 ++ [k])) (st, acc)
      : Except String (DBState × List BalanceKey))
    = Except.ok ((rl.map txRowKey).foldl insertAccumulateBalances st,
        acc ++ rl.map txRowKey) := by
  induction rl with
  | nil =>
    intro st acc
    rw [List.foldlM_nil]
    simp
    rfl
  | cons r t ih =>
    intro st acc
    rw [List.foldlM_cons]
    show (Except.ok (insertAccumulateBalances st (txRowKey r), acc ++ [txRowKey r])
      >>= fun x => t.foldlM _ x) = _
    rw [except_bind_ok, ih]
    simp [txRowKey]

theorem processTransactions_computeID (s : DBState) (h : ¬ claimTxRows s = []) :
    processTransactions computeID s
      = Except.ok ⟨(claimTxRows s).length, true, applyTx s⟩ := by
  unfold processTransactions applyTx
  rw [if_neg (by simpa [List.isEmpty_iff] using h)]
  rw [txfold_ok]
  rw [except_bind_ok]
  simp only [List.nil_append]

theorem insert_fold_rows (bl : List AggRow) (s : DBState) :
    (bl.foldl (fun st b => insertAccumulateBalances st (aggKey b)) s).outputAddressesAccumulate = s.outputAddressesAccumulate ∧
    (bl.foldl (fun st b => insertAccumulateBalances st (aggKey b)) s).outputTxsAccumulate = s.outputTxsAccumulate ∧
    (bl.foldl (fun st b => insertAccumulateBalances st (aggKey b)) s).avmOutputs = s.avmOutputs ∧
    (bl.foldl (fun st b => insertAccumulateBalances st (aggKey b)) s).avmOutputAddresses = s.avmOutputAddresses ∧
    (bl.foldl (fun st b => insertAccumulateBalances st (aggKey b)) s).avmOutputsRedeeming = s.avmOutputsRedeeming ∧
    (∀ k, keySumTR (bl.foldl (fun st b => insertAccumulateBalances st (aggKey b)) s).accumulateBalances k = keySumTR s.accumulateBalances k) ∧
    (∀ k, keySumTS (bl.foldl (fun st b => insertAccumulateBalances st (aggKey b)) s).accumulateBalances k = keySumTS s.accumulateBalances k) ∧
    (∀ k, keySumTC (bl.foldl (fun st b => insertAccumulateBalances st (aggKey b)) s).accumulateBalances k = keySumTC s.accumulateBalances k) ∧
    (∀ k, keySumUC (bl.foldl (fun st b => insertAccumulateBalances st (aggKey b)) s).accumulateBalances k = keySumUC s.accumulateBalances k) ∧
    ((s.accumulateBalances.map (fun b => b.id)).Nodup →
      ((bl.foldl (fun st b => insertAccumulateBalances st (aggKey b)) s).accumulateBalances.map (fun b => b.id)).Nodup) ∧
    (∀ b ∈ bl, keyPresent (bl.foldl (fun st b => insertAccumulateBalances st (aggKey b)) s).accumulateBalances (aggKey b)) ∧
    (∀ k, keyPresent s.accumulateBalances k → keyPresent (bl.foldl (fun st b => insertAccumulateBalances st (aggKey b)) s).accumulateBalances k) := by
  have h := insert_fold_spec (bl.map aggKey) s
  rw [List.foldl_map] at h
  obtain ⟨f1, f2, f3, f4, f5, g1, g2, g3, g4, gn, gp, gm⟩ := h
  exact ⟨f1, f2, f3, f4, f5, g1, g2, g3, g4, gn,
    fun b hb => gp (aggKey b) (List.mem_map_of_mem aggKey hb), gm⟩

theorem applyRow_out_spec (s : DBState) (p : String × String)
    (hbn : (s.accumulateBalances.map (fun b => b.id)).Nodup)
    (hsn : (s.outputAddressesAccumulate.map (fun r => (r.id, r.address))).Nodup)
    (hpend : ∃ r ∈ s.outputAddressesAccumulate,
      r.id = p.1 ∧ r.address = p.2 ∧ r.processedOut = false) :
    (applyRow ProcessType.typeOut s p).outputTxsAccumulate = s.outputTxsAccumulate ∧
    (applyRow ProcessType.typeOut s p).avmOutputs = s.avmOutputs ∧
    (applyRow ProcessType.typeOut s p).avmOutputAddresses = s.avmOutputAddresses ∧
    (applyRow ProcessType.typeOut s p).avmOutputsRedeeming = s.avmOutputsRedeeming ∧
    ((applyRow ProcessType.typeOut s p).outputAddressesAccumulate.map (fun r => (r.id, r.address))
      = s.outputAddressesAccumulate.map (fun r => (r.id, r.address))) ∧
    ((applyRow ProcessType.typeOut s p).accumulateBalances.map (fun b => b.id)).Nodup ∧
    (∀ q : String × String, q ≠ p →
      (∃ r ∈ s.outputAddressesAccumulate,
        r.id = q.1 ∧ r.address = q.2 ∧ r.processedOut = false) →
      (∃ r ∈ (applyRow ProcessType.typeOut s p).outputAddressesAccumulate,
        r.id = q.1 ∧ r.address = q.2 ∧ r.processedOut = false)) ∧
    (∀ q : String × String, q ≠ p →
      (∃ r ∈ s.outputAddressesAccumulate,
        r.id = q.1 ∧ r.address = q.2 ∧ r.processedIn = false) →
      (∃ r ∈ (applyRow ProcessType.typeOut s p).outputAddressesAccumulate,
        r.id = q.1 ∧ r.address = q.2 ∧ r.processedIn = false)) ∧
    (∀ k, balTR (applyRow ProcessType.typeOut s p) k = balTR s k + rowContrib s p.1 p.2 k) ∧
    (∀ k, balUC (applyRow ProcessType.typeOut s p) k = balUC s k + (if k ∈ rowKeys s p.1 p.2 then 1 else 0)) ∧
    (∀ k, balTS (applyRow ProcessType.typeOut s p) k = balTS s k) ∧
    (∀ k, balTC (applyRow ProcessType.typeOut s p) k = balTC s k) ∧
    (∀ k, recvSum (applyRow ProcessType.typeOut s p) k = recvSum s k + rowContrib s p.1 p.2 k) ∧
    (∀ k, outCount (applyRow ProcessType.typeOut s p) k = outCount s k + (if k ∈ rowKeys s p.1 p.2 then 1 else 0)) ∧
    (∀ k, sentSum (applyRow ProcessType.typeOut s p) k = sentSum s k) ∧
    (∀ k, inCount (applyRow ProcessType.typeOut s p) k = inCount s k) ∧
    (∀ k, txCount (applyRow ProcessType.typeOut s p) k = txCount s k) := by
  by_cases hb : (aggregateBalances s p.1 p.2).isEmpty = true
  · have ha : applyRow ProcessType.typeOut s p = s := by
      unfold applyRow
      rw [if_pos hb]
    have hk0 : rowKeys s p.1 p.2 = [] := aggregateBalances_isEmpty s p.1 p.2 hb
    rw [ha]
    refine ⟨rfl, rfl, rfl, rfl, rfl, hbn, fun q _ h => h, fun q _ h => h,
      ?_, ?_, fun k => rfl, fun k => rfl, ?_, ?_, fun k => rfl, fun k => rfl, fun k => rfl⟩
    · intro k
      rw [rowContrib_zero s p.1 p.2 k (by rw [hk0]; exact List.not_mem_nil k), add_zero]
    · intro k
      rw [if_neg (by rw [hk0]; exact List.not_mem_nil k)]
      rw [add_zero]
    · intro k
      rw [rowContrib_zero s p.1 p.2 k (by rw [hk0]; exact List.not_mem_nil k), add_zero]
    · intro k
      rw [if_neg (by rw [hk0]; exact List.not_mem_nil k)]
      rw [add_zero]
  · have ha : applyRow ProcessType.typeOut s p = { ((aggregateBalances s p.1 p.2).foldl (fun st b => { st with accumulateBalances := updOut (aggKey b) b.totalReceived st.accumulateBalances }) ((aggregateBalances s p.1 p.2).foldl (fun st b => insertAccumulateBalances st (aggKey b)) s)) with outputAddressesAccumulate := flipOut p.1 p.2 ((aggregateBalances s p.1 p.2).foldl (fun st b => { st with accumulateBalances := updOut (aggKey b) b.totalReceived st.accumulateBalances }) ((aggregateBalances s p.1 p.2).foldl (fun st b => insertAccumulateBalances st (aggKey b)) s)).outputAddressesAccumulate } := by
      unfold applyRow
      rw [if_neg hb]
    obtain ⟨e1, e2, e3, e4, e5, i1, i2, i3, i4, inod, ipres, imono⟩ :=
      insert_fold_rows (aggregateBalances s p.1 p.2) s
    have hnd1 : (((aggregateBalances s p.1 p.2).foldl (fun st b => insertAccumulateBalances st (aggKey b)) s).accumulateBalances.map (fun b => b.id)).Nodup := inod hbn
    obtain ⟨u1, u2, u3, u4, u5, uk, utr, uuc, uts, utc⟩ :=
      updOut_fold_spec (aggregateBalances s p.1 p.2) ((aggregateBalances s p.1 p.2).foldl (fun st b => insertAccumulateBalances st (aggKey b)) s) hnd1 ipres
    have hOA : ((aggregateBalances s p.1 p.2).foldl (fun st b => { st with accumulateBalances := updOut (aggKey b) b.totalReceived st.accumulateBalances }) ((aggregateBalances s p.1 p.2).foldl (fun st b => insertAccumulateBalances st (aggKey b)) s)).outputAddressesAccumulate = s.outputAddressesAccumulate :=
      u1.trans e1
    have hTX : ((aggregateBalances s p.1 p.2).foldl (fun st b => { st with accumulateBalances := updOut (aggKey b) b.totalReceived st.accumulateBalances }) ((aggregateBalances s p.1 p.2).foldl (fun st b => insertAccumulateBalances st (aggKey b)) s)).outputTxsAccumulate = s.outputTxsAccumulate := u2.trans e2
    have hAV : ((aggregateBalances s p.1 p.2).foldl (fun st b => { st with accumulateBalances := updOut (aggKey b) b.totalReceived st.accumulateBalances }) ((aggregateBalances s p.1 p.2).foldl (fun st b => insertAccumulateBalances st (aggKey b)) s)).avmOutputs = s.avmOutputs := u3.trans e3
    have hAA : ((aggregateBalances s p.1 p.2).foldl (fun st b => { st with accumulateBalances := updOut (aggKey b) b.totalReceived st.accumulateBalances }) ((aggregateBalances s p.1 p.2).foldl (fun st b => insertAccumulateBalances st (aggKey b)) s)).avmOutputAddresses = s.avmOutputAddresses := u4.trans e4
    have hAR : ((aggregateBalances s p.1 p.2).foldl (fun st b => { st with accumulateBalances := updOut (aggKey b) b.totalReceived st.accumulateBalances }) ((aggregateBalances s p.1 p.2).foldl (fun st b => insertAccumulateBalances st (aggKey b)) s)).avmOutputsRedeeming = s.avmOutputsRedeeming := u5.trans e5
    obtain ⟨r0, hr0m, hr0id, hr0ad, hr0out⟩ := hpend
    obtain ⟨l1, l2, hsplit⟩ := List.append_of_mem hr0m
    have hsn2 : ((l1 ++ r0 :: l2).map (fun r => (r.id, r.address))).Nodup := by
      rw [← hsplit]
      exact hsn
    have hnePair := nodup_split_ne (fun r => (r.id, r.address)) l1 l2 r0 hsn2
    have hP1 : ∀ a ∈ l1, ¬ (a.id = p.1 ∧ a.address = p.2) := by
      intro a ha2 hPa
      exact hnePair.1 a ha2 (show (a.id, a.address) = (r0.id, r0.address) by
        rw [hPa.1, hPa.2, hr0id, hr0ad])
    have hP2 : ∀ a ∈ l2, ¬ (a.id = p.1 ∧ a.address = p.2) := by
      intro a ha2 hPa
      exact hnePair.2 a ha2 (show (a.id, a.address) = (r0.id, r0.address) by
        rw [hPa.1, hPa.2, hr0id, hr0ad])
    rw [ha]
    refine ⟨hTX, hAV, hAA, hAR, ?_, ?_, ?_, ?_, ?_, ?_, ?_, ?_, ?_, ?_, ?_, ?_, ?_⟩
    · show (flipOut p.1 p.2 ((aggregateBalances s p.1 p.2).foldl (fun st b => { st with accumulateBalances := updOut (aggKey b) b.totalReceived st.accumulateBalances }) ((aggregateBalances s p.1 p.2).foldl (fun st b => insertAccumulateBalances st (aggKey b)) s)).outputAddressesAccumulate).map (fun r => (r.id, r.address))
        = s.outputAddressesAccumulate.map (fun r => (r.id, r.address))
      rw [flipOut_pairs, hOA]
    · show (((aggregateBalances s p.1 p.2).foldl (fun st b => { st with accumulateBalances := updOut (aggKey b) b.totalReceived st.accumulateBalances }) ((aggregateBalances s p.1 p.2).foldl (fun st b => insertAccumulateBalances st (aggKey b)) s)).accumulateBalances.map (fun b => b.id)).Nodup
      rw [uk]
      exact hnd1
    · intro q hq hpq
      obtain ⟨rq, hqm, hqid, hqad, hqfl⟩ := hpq
      have hnotP : ¬ (rq.id = p.1 ∧ rq.address = p.2) := by
        intro hPq
        exact hq (Prod.ext (by rw [← hqid, hPq.1]) (by rw [← hqad, hPq.2]))
      refine ⟨rq, ?_, hqid, hqad, hqfl⟩
      show rq ∈ flipOut p.1 p.2 ((aggregateBalances s p.1 p.2).foldl (fun st b => { st with accumulateBalances := updOut (aggKey b) b.totalReceived st.accumulateBalances }) ((aggregateBalances s p.1 p.2).foldl (fun st b => insertAccumulateBalances st (aggKey b)) s)).outputAddressesAccumulate
      rw [hOA]
      unfold flipOut
      exact List.mem_map.mpr ⟨rq, hqm, by rw [if_neg hnotP]⟩
    · intro q hq hpq
      obtain ⟨rq, hqm, hqid, hqad, hqfl⟩ := hpq
      have hnotP : ¬ (rq.id = p.1 ∧ rq.address = p.2) := by
        intro hPq
        exact hq (Prod.ext (by rw [← hqid, hPq.1]) (by rw [← hqad, hPq.2]))
      refine ⟨rq, ?_, hqid, hqad, hqfl⟩
      show rq ∈ flipOut p.1 p.2 ((aggregateBalances s p.1 p.2).foldl (fun st b => { st with accumulateBalances := updOut (aggKey b) b.totalReceived st.accumulateBalances }) ((aggregateBalances s p.1 p.2).foldl (fun st b => insertAccumulateBalances st (aggKey b)) s)).outputAddressesAccumulate
      rw [hOA]
      unfold flipOut
      exact List.mem_map.mpr ⟨rq, hqm, by rw [if_neg hnotP]⟩
    · intro k
      show keySumTR ((aggregateBalances s p.1 p.2).foldl (fun st b => { st with accumulateBalances := updOut (aggKey b) b.totalReceived st.accumulateBalances }) ((aggregateBalances s p.1 p.2).foldl (fun st b => insertAccumulateBalances st (aggKey b)) s)).accumulateBalances k
        = keySumTR s.accumulateBalances k + rowContrib s p.1 p.2 k
      rw [utr k, i1 k, aggregate_sum_tr]
    · intro k
      show keySumUC ((aggregateBalances s p.1 p.2).foldl (fun st b => { st with accumulateBalances := updOut (aggKey b) b.totalReceived st.accumulateBalances }) ((aggregateBalances s p.1 p.2).foldl (fun st b => insertAccumulateBalances st (aggKey b)) s)).accumulateBalances k
        = keySumUC s.accumulateBalances k + (if k ∈ rowKeys s p.1 p.2 then 1 else 0)
      rw [uuc k, i4 k, aggregate_sum_ind_int]
    · intro k
      show keySumTS ((aggregateBalances s p.1 p.2).foldl (fun st b => { st with accumulateBalances := updOut (aggKey b) b.totalReceived st.accumulateBalances }) ((aggregateBalances s p.1 p.2).foldl (fun st b => insertAccumulateBalances st (aggKey b)) s)).accumulateBalances k = keySumTS s.accumulateBalances k
      rw [uts k, i2 k]
    · intro k
      show keySumTC ((aggregateBalances s p.1 p.2).foldl (fun st b => { st with accumulateBalances := updOut (aggKey b) b.totalReceived st.accumulateBalances }) ((aggregateBalances s p.1 p.2).foldl (fun st b => insertAccumulateBalances st (aggKey b)) s)).accumulateBalances k = keySumTC s.accumulateBalances k
      rw [utc k, i3 k]
    · intro k
      show ((flipOut p.1 p.2 ((aggregateBalances s p.1 p.2).foldl (fun st b => { st with accumulateBalances := updOut (aggKey b) b.totalReceived st.accumulateBalances }) ((aggregateBalances s p.1 p.2).foldl (fun st b => insertAccumulateBalances st (aggKey b)) s)).outputAddressesAccumulate).map (fun r => if r.processedOut = true then rowContrib ({ ((aggregateBalances s p.1 p.2).foldl (fun st b => { st with accumulateBalances := updOut (aggKey b) b.totalReceived st.accumulateBalances }) ((aggregateBalances s p.1 p.2).foldl (fun st b => insertAccumulateBalances st (aggKey b)) s)) with outputAddressesAccumulate := flipOut p.1 p.2 ((aggregateBalances s p.1 p.2).foldl (fun st b => { st with accumulateBalances := updOut (aggKey b) b.totalReceived st.accumulateBalances }) ((aggregateBalances s p.1 p.2).foldl (fun st b => insertAccumulateBalances st (aggKey b)) s)).outputAddressesAccumulate } : DBState) r.id r.address k else 0)).sum
        = recvSum s k + rowContrib s p.1 p.2 k
      rw [List.map_congr_left (fun r _ => by
        simp only [rowContrib_congr ({ ((aggregateBalances s p.1 p.2).foldl (fun st b => { st with accumulateBalances := updOut (aggKey b) b.totalReceived st.accumulateBalances }) ((aggregateBalances s p.1 p.2).foldl (fun st b => insertAccumulateBalances st (aggKey b)) s)) with outputAddressesAccumulate := flipOut p.1 p.2 ((aggregateBalances s p.1 p.2).foldl (fun st b => { st with accumulateBalances := updOut (aggKey b) b.totalReceived st.accumulateBalances }) ((aggregateBalances s p.1 p.2).foldl (fun st b => insertAccumulateBalances st (aggKey b)) s)).outputAddressesAccumulate } : DBState) s hAV hAA] :
        ∀ r ∈ flipOut p.1 p.2 ((aggregateBalances s p.1 p.2).foldl (fun st b => { st with accumulateBalances := updOut (aggKey b) b.totalReceived st.accumulateBalances }) ((aggregateBalances s p.1 p.2).foldl (fun st b => insertAccumulateBalances st (aggKey b)) s)).outputAddressesAccumulate, (fun r => if r.processedOut = true then rowContrib ({ ((aggregateBalances s p.1 p.2).foldl (fun st b => { st with accumulateBalances := updOut (aggKey b) b.totalReceived st.accumulateBalances }) ((aggregateBalances s p.1 p.2).foldl (fun st b => insertAccumulateBalances st (aggKey b)) s)) with outputAddressesAccumulate := flipOut p.1 p.2 ((aggregateBalances s p.1 p.2).foldl (fun st b => { st with accumulateBalances := updOut (aggKey b) b.totalReceived st.accumulateBalances }) ((aggregateBalances s p.1 p.2).foldl (fun st b => insertAccumulateBalances st (aggKey b)) s)).outputAddressesAccumulate } : DBState) r.id r.address k else 0) r = (fun r => if r.processedOut = true then rowContrib s r.id r.address k else 0) r)]
      rw [hOA, hsplit]
      have hrecv : recvSum s k = ((l1 ++ r0 :: l2).map (fun r => if r.processedOut = true then rowContrib s r.id r.address k else 0)).sum := by
        unfold recvSum
        rw [hsplit]
      rw [hrecv]
      unfold flipOut
      rw [sum_map_flip_split (fun r => r.id = p.1 ∧ r.address = p.2)
        (fun r => { r with processedOut := true }) (fun r => if r.processedOut = true then rowContrib s r.id r.address k else 0) l1 l2 r0 hP1 hP2 ⟨hr0id, hr0ad⟩]
      rw [sum_map_split]
      simp only [hr0out]
      simp [hr0id, hr0ad]
      omega
    · intro k
      show ((flipOut p.1 p.2 ((aggregateBalances s p.1 p.2).foldl (fun st b => { st with accumulateBalances := updOut (aggKey b) b.totalReceived st.accumulateBalances }) ((aggregateBalances s p.1 p.2).foldl (fun st b => insertAccumulateBalances st (aggKey b)) s)).outputAddressesAccumulate).map (fun r => if r.processedOut = true ∧ k ∈ rowKeys ({ ((aggregateBalances s p.1 p.2).foldl (fun st b => { st with accumulateBalances := updOut (aggKey b) b.totalReceived st.accumulateBalances }) ((aggregateBalances s p.1 p.2).foldl (fun st b => insertAccumulateBalances st (aggKey b)) s)) with outputAddressesAccumulate := flipOut p.1 p.2 ((aggregateBalances s p.1 p.2).foldl (fun st b => { st with accumulateBalances := updOut (aggKey b) b.totalReceived st.accumulateBalances }) ((aggregateBalances s p.1 p.2).foldl (fun st b => insertAccumulateBalances st (aggKey b)) s)).outputAddressesAccumulate } : DBState) r.id r.address then (1 : Nat) else 0)).sum
        = outCount s k + (if k ∈ rowKeys s p.1 p.2 then 1 else 0)
      rw [List.map_congr_left (fun r _ => by
        simp only [rowKeys_congr ({ ((aggregateBalances s p.1 p.2).foldl (fun st b => { st with accumulateBalances := updOut (aggKey b) b.totalReceived st.accumulateBalances }) ((aggregateBalances s p.1 p.2).foldl (fun st b => insertAccumulateBalances st (aggKey b)) s)) with outputAddressesAccumulate := flipOut p.1 p.2 ((aggregateBalances s p.1 p.2).foldl (fun st b => { st with accumulateBalances := updOut (aggKey b) b.totalReceived st.accumulateBalances }) ((aggregateBalances s p.1 p.2).foldl (fun st b => insertAccumulateBalances st (aggKey b)) s)).outputAddressesAccumulate } : DBState) s hAV hAA] :
        ∀ r ∈ flipOut p.1 p.2 ((aggregateBalances s p.1 p.2).foldl (fun st b => { st with accumulateBalances := updOut (aggKey b) b.totalReceived st.accumulateBalances }) ((aggregateBalances s p.1 p.2).foldl (fun st b => insertAccumulateBalances st (aggKey b)) s)).outputAddressesAccumulate, (fun r => if r.processedOut = true ∧ k ∈ rowKeys ({ ((aggregateBalances s p.1 p.2).foldl (fun st b => { st with accumulateBalances := updOut (aggKey b) b.totalReceived st.accumulateBalances }) ((aggregateBalances s p.1 p.2).foldl (fun st b => insertAccumulateBalances st (aggKey b)) s)) with outputAddressesAccumulate := flipOut p.1 p.2 ((aggregateBalances s p.1 p.2).foldl (fun st b => { st with accumulateBalances := updOut (aggKey b) b.totalReceived st.accumulateBalances }) ((aggregateBalances s p.1 p.2).foldl (fun st b => insertAccumulateBalances st (aggKey b)) s)).outputAddressesAccumulate } : DBState) r.id r.address then (1 : Nat) else 0) r = (fun r => if r.processedOut = true ∧ k ∈ rowKeys s r.id r.address then (1 : Nat) else 0) r)]
      rw [hOA, hsplit]
      have hout : outCount s k = ((l1 ++ r0 :: l2).map (fun r => if r.processedOut = true ∧ k ∈ rowKeys s r.id r.address then (1 : Nat) else 0)).sum := by
        unfold outCount
        rw [hsplit]
      rw [hout]
      unfold flipOut
      rw [sum_map_flip_split (fun r => r.id = p.1 ∧ r.address = p.2)
        (fun r => { r with processedOut := true }) (fun r => if r.processedOut = true ∧ k ∈ rowKeys s r.id r.address then (1 : Nat) else 0) l1 l2 r0 hP1 hP2 ⟨hr0id, hr0ad⟩]
      rw [sum_map_split]
      simp only [hr0out]
      simp [hr0id, hr0ad]
      omega
    · intro k
      show ((flipOut p.1 p.2 ((aggregateBalances s p.1 p.2).foldl (fun st b => { st with accumulateBalances := updOut (aggKey b) b.totalReceived st.accumulateBalances }) ((aggregateBalances s p.1 p.2).foldl (fun st b => insertAccumulateBalances st (aggKey b)) s)).outputAddressesAccumulate).map (fun r => if r.processedIn = true then rowContrib ({ ((aggregateBalances s p.1 p.2).foldl (fun st b => { st with accumulateBalances := updOut (aggKey b) b.totalReceived st.accumulateBalances }) ((aggregateBalances s p.1 p.2).foldl (fun st b => insertAccumulateBalances st (aggKey b)) s)) with outputAddressesAccumulate := flipOut p.1 p.2 ((aggregateBalances s p.1 p.2).foldl (fun st b => { st with accumulateBalances := updOut (aggKey b) b.totalReceived st.accumulateBalances }) ((aggregateBalances s p.1 p.2).foldl (fun st b => insertAccumulateBalances st (aggKey b)) s)).outputAddressesAccumulate } : DBState) r.id r.address k else 0)).sum = sentSum s k
      rw [List.map_congr_left (fun r _ => by
        simp only [rowContrib_congr ({ ((aggregateBalances s p.1 p.2).foldl (fun st b => { st with accumulateBalances := updOut (aggKey b) b.totalReceived st.accumulateBalances }) ((aggregateBalances s p.1 p.2).foldl (fun st b => insertAccumulateBalances st (aggKey b)) s)) with outputAddressesAccumulate := flipOut p.1 p.2 ((aggregateBalances s p.1 p.2).foldl (fun st b => { st with accumulateBalances := updOut (aggKey b) b.totalReceived st.accumulateBalances }) ((aggregateBalances s p.1 p.2).foldl (fun st b => insertAccumulateBalances st (aggKey b)) s)).outputAddressesAccumulate } : DBState) s hAV hAA] :
        ∀ r ∈ flipOut p.1 p.2 ((aggregateBalances s p.1 p.2).foldl (fun st b => { st with accumulateBalances := updOut (aggKey b) b.totalReceived st.accumulateBalances }) ((aggregateBalances s p.1 p.2).foldl (fun st b => insertAccumulateBalances st (aggKey b)) s)).outputAddressesAccumulate, (fun r => if r.processedIn = true then rowContrib ({ ((aggregateBalances s p.1 p.2).foldl (fun st b => { st with accumulateBalances := updOut (aggKey b) b.totalReceived st.accumulateBalances }) ((aggregateBalances s p.1 p.2).foldl (fun st b => insertAccumulateBalances st (aggKey b)) s)) with outputAddressesAccumulate := flipOut p.1 p.2 ((aggregateBalances s p.1 p.2).foldl (fun st b => { st with accumulateBalances := updOut (aggKey b) b.totalReceived st.accumulateBalances }) ((aggregateBalances s p.1 p.2).foldl (fun st b => insertAccumulateBalances st (aggKey b)) s)).outputAddressesAccumulate } : DBState) r.id r.address k else 0) r = (fun r => if r.processedIn = true then rowContrib s r.id r.address k else 0) r)]
      rw [hOA, hsplit]
      have hsent : sentSum s k = ((l1 ++ r0 :: l2).map (fun r => if r.processedIn = true then rowContrib s r.id r.address k else 0)).sum := by
        unfold sentSum
        rw [hsplit]
      rw [hsent]
      unfold flipOut
      rw [sum_map_flip_split (fun r => r.id = p.1 ∧ r.address = p.2)
        (fun r => { r with processedOut := true }) (fun r => if r.processedIn = true then rowContrib s r.id r.address k else 0) l1 l2 r0 hP1 hP2 ⟨hr0id, hr0ad⟩]
      rw [sum_map_split]
    · intro k
      show ((flipOut p.1 p.2 ((aggregateBalances s p.1 p.2).foldl (fun st b => { st with accumulateBalances := updOut (aggKey b) b.totalReceived st.accumulateBalances }) ((aggregateBalances s p.1 p.2).foldl (fun st b => insertAccumulateBalances st (aggKey b)) s)).outputAddressesAccumulate).map (fun r => if r.processedIn = true ∧ k ∈ rowKeys ({ ((aggregateBalances s p.1 p.2).foldl (fun st b => { st with accumulateBalances := updOut (aggKey b) b.totalReceived st.accumulateBalances }) ((aggregateBalances s p.1 p.2).foldl (fun st b => insertAccumulateBalances st (aggKey b)) s)) with outputAddressesAccumulate := flipOut p.1 p.2 ((aggregateBalances s p.1 p.2).foldl (fun st b => { st with accumulateBalances := updOut (aggKey b) b.totalReceived st.accumulateBalances }) ((aggregateBalances s p.1 p.2).foldl (fun st b => insertAccumulateBalances st (aggKey b)) s)).outputAddressesAccumulate } : DBState) r.id r.address then (1 : Nat) else 0)).sum = inCount s k
      rw [List.map_congr_left (fun r _ => by
        simp only [rowKeys_congr ({ ((aggregateBalances s p.1 p.2).foldl (fun st b => { st with accumulateBalances := updOut (aggKey b) b.totalReceived st.accumulateBalances }) ((aggregateBalances s p.1 p.2).foldl (fun st b => insertAccumulateBalances st (aggKey b)) s)) with outputAddressesAccumulate := flipOut p.1 p.2 ((aggregateBalances s p.1 p.2).foldl (fun st b => { st with accumulateBalances := updOut (aggKey b) b.totalReceived st.accumulateBalances }) ((aggregateBalances s p.1 p.2).foldl (fun st b => insertAccumulateBalances st (aggKey b)) s)).outputAddressesAccumulate } : DBState) s hAV hAA] :
        ∀ r ∈ flipOut p.1 p.2 ((aggregateBalances s p.1 p.2).foldl (fun st b => { st with accumulateBalances := updOut (aggKey b) b.totalReceived st.accumulateBalances }) ((aggregateBalances s p.1 p.2).foldl (fun st b => insertAccumulateBalances st (aggKey b)) s)).outputAddressesAccumulate, (fun r => if r.processedIn = true ∧ k ∈ rowKeys ({ ((aggregateBalances s p.1 p.2).foldl (fun st b => { st with accumulateBalances := updOut (aggKey b) b.totalReceived st.accumulateBalances }) ((aggregateBalances s p.1 p.2).foldl (fun st b => insertAccumulateBalances st (aggKey b)) s)) with outputAddressesAccumulate := flipOut p.1 p.2 ((aggregateBalances s p.1 p.2).foldl (fun st b => { st with accumulateBalances := updOut (aggKey b) b.totalReceived st.accumulateBalances }) ((aggregateBalances s p.1 p.2).foldl (fun st b => insertAccumulateBalances st (aggKey b)) s)).outputAddressesAccumulate } : DBState) r.id r.address then (1 : Nat) else 0) r = (fun r => if r.processedIn = true ∧ k ∈ rowKeys s r.id r.address then (1 : Nat) else 0) r)]
      rw [hOA, hsplit]
      have hin : inCount s k = ((l1 ++ r0 :: l2).map (fun r => if r.processedIn = true ∧ k ∈ rowKeys s r.id r.address then (1 : Nat) else 0)).sum := by
        unfold inCount
        rw [hsplit]
      rw [hin]
      unfold flipOut
      rw [sum_map_flip_split (fun r => r.id = p.1 ∧ r.address = p.2)
        (fun r => { r with processedOut := true }) (fun r => if r.processedIn = true ∧ k ∈ rowKeys s r.id r.address then (1 : Nat) else 0) l1 l2 r0 hP1 hP2 ⟨hr0id, hr0ad⟩]
      rw [sum_map_split]
    · intro k
      show (({ ((aggregateBalances s p.1 p.2).foldl (fun st b => { st with accumulateBalances := updOut (aggKey b) b.totalReceived st.accumulateBalances }) ((aggregateBalances s p.1 p.2).foldl (fun st b => insertAccumulateBalances st (aggKey b)) s)) with outputAddressesAccumulate := flipOut p.1 p.2 ((aggregateBalances s p.1 p.2).foldl (fun st b => { st with accumulateBalances := updOut (aggKey b) b.totalReceived st.accumulateBalances }) ((aggregateBalances s p.1 p.2).foldl (fun st b => insertAccumulateBalances st (aggKey b)) s)).outputAddressesAccumulate } : DBState).outputTxsAccumulate.map
        (fun r => if r.processed = true ∧ txRowKey r = k then (1 : Nat) else 0)).sum
        = txCount s k
      have : ({ ((aggregateBalances s p.1 p.2).foldl (fun st b => { st with accumulateBalances := updOut (aggKey b) b.totalReceived st.accumulateBalances }) ((aggregateBalances s p.1 p.2).foldl (fun st b => insertAccumulateBalances st (aggKey b)) s)) with outputAddressesAccumulate := flipOut p.1 p.2 ((aggregateBalances s p.1 p.2).foldl (fun st b => { st with accumulateBalances := updOut (aggKey b) b.totalReceived st.accumulateBalances }) ((aggregateBalances s p.1 p.2).foldl (fun st b => insertAccumulateBalances st (aggKey b)) s)).outputAddressesAccumulate } : DBState).outputTxsAccumulate = s.outputTxsAccumulate := hTX
      rw [this]
      rfl

theorem applyRow_in_spec (s : DBState) (p : String × String)
    (hbn : (s.accumulateBalances.map (fun b => b.id)).Nodup)
    (hsn : (s.outputAddressesAccumulate.map (fun r => (r.id, r.address))).Nodup)
    (hpend : ∃ r ∈ s.outputAddressesAccumulate,
      r.id = p.1 ∧ r.address = p.2 ∧ r.processedIn = false) :
    (applyRow ProcessType.typeIn s p).outputTxsAccumulate = s.outputTxsAccumulate ∧
    (applyRow ProcessType.typeIn s p).avmOutputs = s.avmOutputs ∧
    (applyRow ProcessType.typeIn s p).avmOutputAddresses = s.avmOutputAddresses ∧
    (applyRow ProcessType.typeIn s p).avmOutputsRedeeming = s.avmOutputsRedeeming ∧
    ((applyRow ProcessType.typeIn s p).outputAddressesAccumulate.map (fun r => (r.id, r.address))
      = s.outputAddressesAccumulate.map (fun r => (r.id, r.address))) ∧
    ((applyRow ProcessType.typeIn s p).accumulateBalances.map (fun b => b.id)).Nodup ∧
    (∀ q : String × String, q ≠ p →
      (∃ r ∈ s.outputAddressesAccumulate,
        r.id = q.1 ∧ r.address = q.2 ∧ r.processedOut = false) →
      (∃ r ∈ (applyRow ProcessType.typeIn s p).outputAddressesAccumulate,
        r.id = q.1 ∧ r.address = q.2 ∧ r.processedOut = false)) ∧
    (∀ q : String × String, q ≠ p →
      (∃ r ∈ s.outputAddressesAccumulate,
        r.id = q.1 ∧ r.address = q.2 ∧ r.processedIn = false) →
      (∃ r ∈ (applyRow ProcessType.typeIn s p).outputAddressesAccumulate,
        r.id = q.1 ∧ r.address = q.2 ∧ r.processedIn = false)) ∧
    (∀ k, balTS (applyRow ProcessType.typeIn s p) k = balTS s k + rowContrib s p.1 p.2 k) ∧
    (∀ k, balUC (applyRow ProcessType.typeIn s p) k = balUC s k - (if k ∈ rowKeys s p.1 p.2 then 1 else 0)) ∧
    (∀ k, balTR (applyRow ProcessType.typeIn s p) k = balTR s k) ∧
    (∀ k, balTC (applyRow ProcessType.typeIn s p) k = balTC s k) ∧
    (∀ k, sentSum (applyRow ProcessType.typeIn s p) k = sentSum s k + rowContrib s p.1 p.2 k) ∧
    (∀ k, inCount (applyRow ProcessType.typeIn s p) k = inCount s k + (if k ∈ rowKeys s p.1 p.2 then 1 else 0)) ∧
    (∀ k, recvSum (applyRow ProcessType.typeIn s p) k = recvSum s k) ∧
    (∀ k, outCount (applyRow ProcessType.typeIn s p) k = outCount s k) ∧
    (∀ k, txCount (applyRow ProcessType.typeIn s p) k = txCount s k) := by
  by_cases hb : (aggregateBalances s p.1 p.2).isEmpty = true
  · have ha : applyRow ProcessType.typeIn s p = s := by
      unfold applyRow
      rw [if_pos hb]
    have hk0 : rowKeys s p.1 p.2 = [] := aggregateBalances_isEmpty s p.1 p.2 hb
    rw [ha]
    refine ⟨rfl, rfl, rfl, rfl, rfl, hbn, fun q _ h => h, fun q _ h => h,
      ?_, ?_, fun k => rfl, fun k => rfl, ?_, ?_, fun k => rfl, fun k => rfl, fun k => rfl⟩
    · intro k
      rw [rowContrib_zero s p.1 p.2 k (by rw [hk0]; exact List.not_mem_nil k), add_zero]
    · intro k
      rw [if_neg (by rw [hk0]; exact List.not_mem_nil k)]
      rw [sub_zero]
    · intro k
      rw [rowContrib_zero s p.1 p.2 k (by rw [hk0]; exact List.not_mem_nil k), add_zero]
    · intro k
      rw [if_neg (by rw [hk0]; exact List.not_mem_nil k)]
      rw [add_zero]
  · have ha : applyRow ProcessType.typeIn s p = { ((aggregateBalances s p.1 p.2).foldl (fun st b => { st with accumulateBalances := updIn (aggKey b) b.totalSent st.accumulateBalances }) ((aggregateBalances s p.1 p.2).foldl (fun st b => insertAccumulateBalances st (aggKey b)) s)) with outputAddressesAccumulate := flipIn p.1 p.2 ((aggregateBalances s p.1 p.2).foldl (fun st b => { st with accumulateBalances := updIn (aggKey b) b.totalSent st.accumulateBalances }) ((aggregateBalances s p.1 p.2).foldl (fun st b => insertAccumulateBalances st (aggKey b)) s)).outputAddressesAccumulate } := by
      unfold applyRow
      rw [if_neg hb]
    obtain ⟨e1, e2, e3, e4, e5, i1, i2, i3, i4, inod, ipres, imono⟩ :=
      insert_fold_rows (aggregateBalances s p.1 p.2) s
    have hnd1 : (((aggregateBalances s p.1 p.2).foldl (fun st b => insertAccumulateBalances st (aggKey b)) s).accumulateBalances.map (fun b => b.id)).Nodup := inod hbn
    obtain ⟨u1, u2, u3, u4, u5, uk, uts, uuc, utr, utc⟩ :=
      updIn_fold_spec (aggregateBalances s p.1 p.2) ((aggregateBalances s p.1 p.2).foldl (fun st b => insertAccumulateBalances st (aggKey b)) s) hnd1 ipres
    have hOA : ((aggregateBalances s p.1 p.2).foldl (fun st b => { st with accumulateBalances := updIn (aggKey b) b.totalSent st.accumulateBalances }) ((aggregateBalances s p.1 p.2).foldl (fun st b => insertAccumulateBalances st (aggKey b)) s)).outputAddressesAccumulate = s.outputAddressesAccumulate :=
      u1.trans e1
    have hTX : ((aggregateBalances s p.1 p.2).foldl (fun st b => { st with accumulateBalances := updIn (aggKey b) b.totalSent st.accumulateBalances }) ((aggregateBalances s p.1 p.2).foldl (fun st b => insertAccumulateBalances st (aggKey b)) s)).outputTxsAccumulate = s.outputTxsAccumulate := u2.trans e2
    have hAV : ((aggregateBalances s p.1 p.2).foldl (fun st b => { st with accumulateBalances := updIn (aggKey b) b.totalSent st.accumulateBalances }) ((aggregateBalances s p.1 p.2).foldl (fun st b => insertAccumulateBalances st (aggKey b)) s)).avmOutputs = s.avmOutputs := u3.trans e3
    have hAA : ((aggregateBalances s p.1 p.2).foldl (fun st b => { st with accumulateBalances := updIn (aggKey b) b.totalSent st.accumulateBalances }) ((aggregateBalances s p.1 p.2).foldl (fun st b => insertAccumulateBalances st (aggKey b)) s)).avmOutputAddresses = s.avmOutputAddresses := u4.trans e4
    have hAR : ((aggregateBalances s p.1 p.2).foldl (fun st b => { st with accumulateBalances := updIn (aggKey b) b.totalSent st.accumulateBalances }) ((aggregateBalances s p.1 p.2).foldl (fun st b => insertAccumulateBalances st (aggKey b)) s)).avmOutputsRedeeming = s.avmOutputsRedeeming := u5.trans e5
    obtain ⟨r0, hr0m, hr0id, hr0ad, hr0in⟩ := hpend
    obtain ⟨l1, l2, hsplit⟩ := List.append_of_mem hr0m
    have hsn2 : ((l1 ++ r0 :: l2).map (fun r => (r.id, r.address))).Nodup := by
      rw [← hsplit]
      exact hsn
    have hnePair := nodup_split_ne (fun r => (r.id, r.address)) l1 l2 r0 hsn2
    have hP1 : ∀ a ∈ l1, ¬ (a.id = p.1 ∧ a.address = p.2) := by
      intro a ha2 hPa
      exact hnePair.1 a ha2 (show (a.id, a.address) = (r0.id, r0.address) by
        rw [hPa.1, hPa.2, hr0id, hr0ad])
    have hP2 : ∀ a ∈ l2, ¬ (a.id = p.1 ∧ a.address = p.2) := by
      intro a ha2 hPa
      exact hnePair.2 a ha2 (show (a.id, a.address) = (r0.id, r0.address) by
        rw [hPa.1, hPa.2, hr0id, hr0ad])
    rw [ha]
    refine ⟨hTX, hAV, hAA, hAR, ?_, ?_, ?_, ?_, ?_, ?_, ?_, ?_, ?_, ?_, ?_, ?_, ?_⟩
    · show (flipIn p.1 p.2 ((aggregateBalances s p.1 p.2).foldl (fun st b => { st with accumulateBalances := updIn (aggKey b) b.totalSent st.accumulateBalances }) ((aggregateBalances s p.1 p.2).foldl (fun st b => insertAccumulateBalances st (aggKey b)) s)).outputAddressesAccumulate).map (fun r => (r.id, r.address))
        = s.outputAddressesAccumulate.map (fun r => (r.id, r.address))
      rw [flipIn_pairs, hOA]
    · show (((aggregateBalances s p.1 p.2).foldl (fun st b => { st with accumulateBalances := updIn (aggKey b) b.totalSent st.accumulateBalances }) ((aggregateBalances s p.1 p.2).foldl (fun st b => insertAccumulateBalances st (aggKey b)) s)).accumulateBalances.map (fun b => b.id)).Nodup
      rw [uk]
      exact hnd1
    · intro q hq hpq
      obtain ⟨rq, hqm, hqid, hqad, hqfl⟩ := hpq
      have hnotP : ¬ (rq.id = p.1 ∧ rq.address = p.2) := by
        intro hPq
        exact hq (Prod.ext (by rw [← hqid, hPq.1]) (by rw [← hqad, hPq.2]))
      refine ⟨rq, ?_, hqid, hqad, hqfl⟩
      show rq ∈ flipIn p.1 p.2 ((aggregateBalances s p.1 p.2).foldl (fun st b => { st with accumulateBalances := updIn (aggKey b) b.totalSent st.accumulateBalances }) ((aggregateBalances s p.1 p.2).foldl (fun st b => insertAccumulateBalances st (aggKey b)) s)).outputAddressesAccumulate
      rw [hOA]
      unfold flipIn
      exact List.mem_map.mpr ⟨rq, hqm, by rw [if_neg hnotP]⟩
    · intro q hq hpq
      obtain ⟨rq, hqm, hqid, hqad, hqfl⟩ := hpq
      have hnotP : ¬ (rq.id = p.1 ∧ rq.address = p.2) := by
        intro hPq
        exact hq (Prod.ext (by rw [← hqid, hPq.1]) (by rw [← hqad, hPq.2]))
      refine ⟨rq, ?_, hqid, hqad, hqfl⟩
      show rq ∈ flipIn p.1 p.2 ((aggregateBalances s p.1 p.2).foldl (fun st b => { st with accumulateBalances := updIn (aggKey b) b.totalSent st.accumulateBalances }) ((aggregateBalances s p.1 p.2).foldl (fun st b => insertAccumulateBalances st (aggKey b)) s)).outputAddressesAccumulate
      rw [hOA]
      unfold flipIn
      exact List.mem_map.mpr ⟨rq, hqm, by rw [if_neg hnotP]⟩
    · intro k
      show keySumTS ((aggregateBalances s p.1 p.2).foldl (fun st b => { st with accumulateBalances := updIn (aggKey b) b.totalSent st.accumulateBalances }) ((aggregateBalances s p.1 p.2).foldl (fun st b => insertAccumulateBalances st (aggKey b)) s)).accumulateBalances k
        = keySumTS s.accumulateBalances k + rowContrib s p.1 p.2 k
      rw [uts k, i2 k, aggregate_sum_ts]
    · intro k
      show keySumUC ((aggregateBalances s p.1 p.2).foldl (fun st b => { st with accumulateBalances := updIn (aggKey b) b.totalSent st.accumulateBalances }) ((aggregateBalances s p.1 p.2).foldl (fun st b => insertAccumulateBalances st (aggKey b)) s)).accumulateBalances k
        = keySumUC s.accumulateBalances k - (if k ∈ rowKeys s p.1 p.2 then 1 else 0)
      rw [uuc k, i4 k, aggregate_sum_ind_int]
    · intro k
      show keySumTR ((aggregateBalances s p.1 p.2).foldl (fun st b => { st with accumulateBalances := updIn (aggKey b) b.totalSent st.accumulateBalances }) ((aggregateBalances s p.1 p.2).foldl (fun st b => insertAccumulateBalances st (aggKey b)) s)).accumulateBalances k = keySumTR s.accumulateBalances k
      rw [utr k, i1 k]
    · intro k
      show keySumTC ((aggregateBalances s p.1 p.2).foldl (fun st b => { st with accumulateBalances := updIn (aggKey b) b.totalSent st.accumulateBalances }) ((aggregateBalances s p.1 p.2).foldl (fun st b => insertAccumulateBalances st (aggKey b)) s)).accumulateBalances k = keySumTC s.accumulateBalances k
      rw [utc k, i3 k]
    · intro k
      show ((flipIn p.1 p.2 ((aggregateBalances s p.1 p.2).foldl (fun st b => { st with accumulateBalances := updIn (aggKey b) b.totalSent st.accumulateBalances }) ((aggregateBalances s p.1 p.2).foldl (fun st b => insertAccumulateBalances st (aggKey b)) s)).outputAddressesAccumulate).map (fun r => if r.processedIn = true then rowContrib ({ ((aggregateBalances s p.1 p.2).foldl (fun st b => { st with accumulateBalances := updIn (aggKey b) b.totalSent st.accumulateBalances }) ((aggregateBalances s p.1 p.2).foldl (fun st b => insertAccumulateBalances st (aggKey b)) s)) with outputAddressesAccumulate := flipIn p.1 p.2 ((aggregateBalances s p.1 p.2).foldl (fun st b => { st with accumulateBalances := updIn (aggKey b) b.totalSent st.accumulateBalances }) ((aggregateBalances s p.1 p.2).foldl (fun st b => insertAccumulateBalances st (aggKey b)) s)).outputAddressesAccumulate } : DBState) r.id r.address k else 0)).sum
        = sentSum s k + rowContrib s p.1 p.2 k
      rw [List.map_congr_left (fun r _ => by
        simp only [rowContrib_congr ({ ((aggregateBalances s p.1 p.2).foldl (fun st b => { st with accumulateBalances := updIn (aggKey b) b.totalSent st.accumulateBalances }) ((aggregateBalances s p.1 p.2).foldl (fun st b => insertAccumulateBalances st (aggKey b)) s)) with outputAddressesAccumulate := flipIn p.1 p.2 ((aggregateBalances s p.1 p.2).foldl (fun st b => { st with accumulateBalances := updIn (aggKey b) b.totalSent st.accumulateBalances }) ((aggregateBalances s p.1 p.2).foldl (fun st b => insertAccumulateBalances st (aggKey b)) s)).outputAddressesAccumulate } : DBState) s hAV hAA] :
        ∀ r ∈ flipIn p.1 p.2 ((aggregateBalances s p.1 p.2).foldl (fun st b => { st with accumulateBalances := updIn (aggKey b) b.totalSent st.accumulateBalances }) ((aggregateBalances s p.1 p.2).foldl (fun st b => insertAccumulateBalances st (aggKey b)) s)).outputAddressesAccumulate, (fun r => if r.processedIn = true then rowContrib ({ ((aggregateBalances s p.1 p.2).foldl (fun st b => { st with accumulateBalances := updIn (aggKey b) b.totalSent st.accumulateBalances }) ((aggregateBalances s p.1 p.2).foldl (fun st b => insertAccumulateBalances st (aggKey b)) s)) with outputAddressesAccumulate := flipIn p.1 p.2 ((aggregateBalances s p.1 p.2).foldl (fun st b => { st with accumulateBalances := updIn (aggKey b) b.totalSent st.accumulateBalances }) ((aggregateBalances s p.1 p.2).foldl (fun st b => insertAccumulateBalances st (aggKey b)) s)).outputAddressesAccumulate } : DBState) r.id r.address k else 0) r = (fun r => if r.processedIn = true then rowContrib s r.id r.address k else 0) r)]
      rw [hOA, hsplit]
      have hsent : sentSum s k = ((l1 ++ r0 :: l2).map (fun r => if r.processedIn = true then rowContrib s r.id r.address k else 0)).sum := by
        unfold sentSum
        rw [hsplit]
      rw [hsent]
      unfold flipIn
      rw [sum_map_flip_split (fun r => r.id = p.1 ∧ r.address = p.2)
        (fun r => { r with processedIn := true }) (fun r => if r.processedIn = true then rowContrib s r.id r.address k else 0) l1 l2 r0 hP1 hP2 ⟨hr0id, hr0ad⟩]
      rw [sum_map_split]
      simp only [hr0in]
      simp [hr0id, hr0ad]
      omega
    · intro k
      show ((flipIn p.1 p.2 ((aggregateBalances s p.1 p.2).foldl (fun st b => { st with accumulateBalances := updIn (aggKey b) b.totalSent st.accumulateBalances }) ((aggregateBalances s p.1 p.2).foldl (fun st b => insertAccumulateBalances st (aggKey b)) s)).outputAddressesAccumulate).map (fun r => if r.processedIn = true ∧ k ∈ rowKeys ({ ((aggregateBalances s p.1 p.2).foldl (fun st b => { st with accumulateBalances := updIn (aggKey b) b.totalSent st.accumulateBalances }) ((aggregateBalances s p.1 p.2).foldl (fun st b => insertAccumulateBalances st (aggKey b)) s)) with outputAddressesAccumulate := flipIn p.1 p.2 ((aggregateBalances s p.1 p.2).foldl (fun st b => { st with accumulateBalances := updIn (aggKey b) b.totalSent st.accumulateBalances }) ((aggregateBalances s p.1 p.2).foldl (fun st b => insertAccumulateBalances st (aggKey b)) s)).outputAddressesAccumulate } : DBState) r.id r.address then (1 : Nat) else 0)).sum
        = inCount s k + (if k ∈ rowKeys s p.1 p.2 then 1 else 0)
      rw [List.map_congr_left (fun r _ => by
        simp only [rowKeys_congr ({ ((aggregateBalances s p.1 p.2).foldl (fun st b => { st with accumulateBalances := updIn (aggKey b) b.totalSent st.accumulateBalances }) ((aggregateBalances s p.1 p.2).foldl (fun st b => insertAccumulateBalances st (aggKey b)) s)) with outputAddressesAccumulate := flipIn p.1 p.2 ((aggregateBalances s p.1 p.2).foldl (fun st b => { st with accumulateBalances := updIn (aggKey b) b.totalSent st.accumulateBalances }) ((aggregateBalances s p.1 p.2).foldl (fun st b => insertAccumulateBalances st (aggKey b)) s)).outputAddressesAccumulate } : DBState) s hAV hAA] :
        ∀ r ∈ flipIn p.1 p.2 ((aggregateBalances s p.1 p.2).foldl (fun st b => { st with accumulateBalances := updIn (aggKey b) b.totalSent st.accumulateBalances }) ((aggregateBalances s p.1 p.2).foldl (fun st b => insertAccumulateBalances st (aggKey b)) s)).outputAddressesAccumulate, (fun r => if r.processedIn = true ∧ k ∈ rowKeys ({ ((aggregateBalances s p.1 p.2).foldl (fun st b => { st with accumulateBalances := updIn (aggKey b) b.totalSent st.accumulateBalances }) ((aggregateBalances s p.1 p.2).foldl (fun st b => insertAccumulateBalances st (aggKey b)) s)) with outputAddressesAccumulate := flipIn p.1 p.2 ((aggregateBalances s p.1 p.2).foldl (fun st b => { st with accumulateBalances := updIn (aggKey b) b.totalSent st.accumulateBalances }) ((aggregateBalances s p.1 p.2).foldl (fun st b => insertAccumulateBalances st (aggKey b)) s)).outputAddressesAccumulate } : DBState) r.id r.address then (1 : Nat) else 0) r = (fun r => if r.processedIn = true ∧ k ∈ rowKeys s r.id r.address then (1 : Nat) else 0) r)]
      rw [hOA, hsplit]
      have hin : inCount s k = ((l1 ++ r0 :: l2).map (fun r => if r.processedIn = true ∧ k ∈ rowKeys s r.id r.address then (1 : Nat) else 0)).sum := by
        unfold inCount
        rw [hsplit]
      rw [hin]
      unfold flipIn
      rw [sum_map_flip_split (fun r => r.id = p.1 ∧ r.address = p.2)
        (fun r => { r with processedIn := true }) (fun r => if r.processedIn = true ∧ k ∈ rowKeys s r.id r.address then (1 : Nat) else 0) l1 l2 r0 hP1 hP2 ⟨hr0id, hr0ad⟩]
      rw [sum_map_split]
      simp only [hr0in]
      simp [hr0id, hr0ad]
      omega
    · intro k
      show ((flipIn p.1 p.2 ((aggregateBalances s p.1 p.2).foldl (fun st b => { st with accumulateBalances := updIn (aggKey b) b.totalSent st.accumulateBalances }) ((aggregateBalances s p.1 p.2).foldl (fun st b => insertAccumulateBalances st (aggKey b)) s)).outputAddressesAccumulate).map (fun r => if r.processedOut = true then rowContrib ({ ((aggregateBalances s p.1 p.2).foldl (fun st b => { st with accumulateBalances := updIn (aggKey b) b.totalSent st.accumulateBalances }) ((aggregateBalances s p.1 p.2).foldl (fun st b => insertAccumulateBalances st (aggKey b)) s)) with outputAddressesAccumulate := flipIn p.1 p.2 ((aggregateBalances s p.1 p.2).foldl (fun st b => { st with accumulateBalances := updIn (aggKey b) b.totalSent st.accumulateBalances }) ((aggregateBalances s p.1 p.2).foldl (fun st b => insertAccumulateBalances st (aggKey b)) s)).outputAddressesAccumulate } : DBState) r.id r.address k else 0)).sum = recvSum s k
      rw [List.map_congr_left (fun r _ => by
        simp only [rowContrib_congr ({ ((aggregateBalances s p.1 p.2).foldl (fun st b => { st with accumulateBalances := updIn (aggKey b) b.totalSent st.accumulateBalances }) ((aggregateBalances s p.1 p.2).foldl (fun st b => insertAccumulateBalances st (aggKey b)) s)) with outputAddressesAccumulate := flipIn p.1 p.2 ((aggregateBalances s p.1 p.2).foldl (fun st b => { st with accumulateBalances := updIn (aggKey b) b.totalSent st.accumulateBalances }) ((aggregateBalances s p.1 p.2).foldl (fun st b => insertAccumulateBalances st (aggKey b)) s)).outputAddressesAccumulate } : DBState) s hAV hAA] :
        ∀ r ∈ flipIn p.1 p.2 ((aggregateBalances s p.1 p.2).foldl (fun st b => { st with accumulateBalances := updIn (aggKey b) b.totalSent st.accumulateBalances }) ((aggregateBalances s p.1 p.2).foldl (fun st b => insertAccumulateBalances st (aggKey b)) s)).outputAddressesAccumulate, (fun r => if r.processedOut = true then rowContrib ({ ((aggregateBalances s p.1 p.2).foldl (fun st b => { st with accumulateBalances := updIn (aggKey b) b.totalSent st.accumulateBalances }) ((aggregateBalances s p.1 p.2).foldl (fun st b => insertAccumulateBalances st (aggKey b)) s)) with outputAddressesAccumulate := flipIn p.1 p.2 ((aggregateBalances s p.1 p.2).foldl (fun st b => { st with accumulateBalances := updIn (aggKey b) b.totalSent st.accumulateBalances }) ((aggregateBalances s p.1 p.2).foldl (fun st b => insertAccumulateBalances st (aggKey b)) s)).outputAddressesAccumulate } : DBState) r.id r.address k else 0) r = (fun r => if r.processedOut = true then rowContrib s r.id r.address k else 0) r)]
      rw [hOA, hsplit]
      have hrecv : recvSum s k = ((l1 ++ r0 :: l2).map (fun r => if r.processedOut = true then rowContrib s r.id r.address k else 0)).sum := by
        unfold recvSum
        rw [hsplit]
      rw [hrecv]
      unfold flipIn
      rw [sum_map_flip_split (fun r => r.id = p.1 ∧ r.address = p.2)
        (fun r => { r with processedIn := true }) (fun r => if r.processedOut = true then rowContrib s r.id r.address k else 0) l1 l2 r0 hP1 hP2 ⟨hr0id, hr0ad⟩]
      rw [sum_map_split]
    · intro k
      show ((flipIn p.1 p.2 ((aggregateBalances s p.1 p.2).foldl (fun st b => { st with accumulateBalances := updIn (aggKey b) b.totalSent st.accumulateBalances }) ((aggregateBalances s p.1 p.2).foldl (fun st b => insertAccumulateBalances st (aggKey b)) s)).outputAddressesAccumulate).map (fun r => if r.processedOut = true ∧ k ∈ rowKeys ({ ((aggregateBalances s p.1 p.2).foldl (fun st b => { st with accumulateBalances := updIn (aggKey b) b.totalSent st.accumulateBalances }) ((aggregateBalances s p.1 p.2).foldl (fun st b => insertAccumulateBalances st (aggKey b)) s)) with outputAddressesAccumulate := flipIn p.1 p.2 ((aggregateBalances s p.1 p.2).foldl (fun st b => { st with accumulateBalances := updIn (aggKey b) b.totalSent st.accumulateBalances }) ((aggregateBalances s p.1 p.2).foldl (fun st b => insertAccumulateBalances st (aggKey b)) s)).outputAddressesAccumulate } : DBState) r.id r.address then (1 : Nat) else 0)).sum = outCount s k
      rw [List.map_congr_left (fun r _ => by
        simp only [rowKeys_congr ({ ((aggregateBalances s p.1 p.2).foldl (fun st b => { st with accumulateBalances := updIn (aggKey b) b.totalSent st.accumulateBalances }) ((aggregateBalances s p.1 p.2).foldl (fun st b => insertAccumulateBalances st (aggKey b)) s)) with outputAddressesAccumulate := flipIn p.1 p.2 ((aggregateBalances s p.1 p.2).foldl (fun st b => { st with accumulateBalances := updIn (aggKey b) b.totalSent st.accumulateBalances }) ((aggregateBalances s p.1 p.2).foldl (fun st b => insertAccumulateBalances st (aggKey b)) s)).outputAddressesAccumulate } : DBState) s hAV hAA] :
        ∀ r ∈ flipIn p.1 p.2 ((aggregateBalances s p.1 p.2).foldl (fun st b => { st with accumulateBalances := updIn (aggKey b) b.totalSent st.accumulateBalances }) ((aggregateBalances s p.1 p.2).foldl (fun st b => insertAccumulateBalances st (aggKey b)) s)).outputAddressesAccumulate, (fun r => if r.processedOut = true ∧ k ∈ rowKeys ({ ((aggregateBalances s p.1 p.2).foldl (fun st b => { st with accumulateBalances := updIn (aggKey b) b.totalSent st.accumulateBalances }) ((aggregateBalances s p.1 p.2).foldl (fun st b => insertAccumulateBalances st (aggKey b)) s)) with outputAddressesAccumulate := flipIn p.1 p.2 ((aggregateBalances s p.1 p.2).foldl (fun st b => { st with accumulateBalances := updIn (aggKey b) b.totalSent st.accumulateBalances }) ((aggregateBalances s p.1 p.2).foldl (fun st b => insertAccumulateBalances st (aggKey b)) s)).outputAddressesAccumulate } : DBState) r.id r.address then (1 : Nat) else 0) r = (fun r => if r.processedOut = true ∧ k ∈ rowKeys s r.id r.address then (1 : Nat) else 0) r)]
      rw [hOA, hsplit]
      have hout : outCount s k = ((l1 ++ r0 :: l2).map (fun r => if r.processedOut = true ∧ k ∈ rowKeys s r.id r.address then (1 : Nat) else 0)).sum := by
        unfold outCount
        rw [hsplit]
      rw [hout]
      unfold flipIn
      rw [sum_map_flip_split (fun r => r.id = p.1 ∧ r.address = p.2)
        (fun r => { r with processedIn := true }) (fun r => if r.processedOut = true ∧ k ∈ rowKeys s r.id r.address then (1 : Nat) else 0) l1 l2 r0 hP1 hP2 ⟨hr0id, hr0ad⟩]
      rw [sum_map_split]
    · intro k
      show (({ ((aggregateBalances s p.1 p.2).foldl (fun st b => { st with accumulateBalances := updIn (aggKey b) b.totalSent st.accumulateBalances }) ((aggregateBalances s p.1 p.2).foldl (fun st b => insertAccumulateBalances st (aggKey b)) s)) with outputAddressesAccumulate := flipIn p.1 p.2 ((aggregateBalances s p.1 p.2).foldl (fun st b => { st with accumulateBalances := updIn (aggKey b) b.totalSent st.accumulateBalances }) ((aggregateBalances s p.1 p.2).foldl (fun st b => insertAccumulateBalances st (aggKey b)) s)).outputAddressesAccumulate } : DBState).outputTxsAccumulate.map
        (fun r => if r.processed = true ∧ txRowKey r = k then (1 : Nat) else 0)).sum
        = txCount s k
      have : ({ ((aggregateBalances s p.1 p.2).foldl (fun st b => { st with accumulateBalances := updIn (aggKey b) b.totalSent st.accumulateBalances }) ((aggregateBalances s p.1 p.2).foldl (fun st b => insertAccumulateBalances st (aggKey b)) s)) with outputAddressesAccumulate := flipIn p.1 p.2 ((aggregateBalances s p.1 p.2).foldl (fun st b => { st with accumulateBalances := updIn (aggKey b) b.totalSent st.accumulateBalances }) ((aggregateBalances s p.1 p.2).foldl (fun st b => insertAccumulateBalances st (aggKey b)) s)).outputAddressesAccumulate } : DBState).outputTxsAccumulate = s.outputTxsAccumulate := hTX
      rw [this]
      rfl

/-! Congruence of the staging-side sums in the tables they read. -/

theorem recvSum_congr (s t : DBState)
    (h0 : s.outputAddressesAccumulate = t.outputAddressesAccumulate)
    (h1 : s.avmOutputs = t.avmOutputs)
    (h2 : s.avmOutputAddresses = t.avmOutputAddresses) (k : BalanceKey) :
    recvSum s k = recvSum t k := by
  unfold recvSum
  rw [h0]
  exact congrArg List.sum (List.map_congr_left (fun r _ => by
    rw [rowContrib_congr s t h1 h2]))

theorem sentSum_congr (s t : DBState)
    (h0 : s.outputAddressesAccumulate = t.outputAddressesAccumulate)
    (h1 : s.avmOutputs = t.avmOutputs)
    (h2 : s.avmOutputAddresses = t.avmOutputAddresses) (k : BalanceKey) :
    sentSum s k = sentSum t k := by
  unfold sentSum
  rw [h0]
  exact congrArg List.sum (List.map_congr_left (fun r _ => by
    rw [rowContrib_congr s t h1 h2]))

theorem outCount_congr (s t : DBState)
    (h0 : s.outputAddressesAccumulate = t.outputAddressesAccumulate)
    (h1 : s.avmOutputs = t.avmOutputs)
    (h2 : s.avmOutputAddresses = t.avmOutputAddresses) (k : BalanceKey) :
    outCount s k = outCount t k := by
  unfold outCount
  rw [h0]
  exact congrArg List.sum (List.map_congr_left (fun r _ => by
    rw [rowKeys_congr s t h1 h2]))

theorem inCount_congr (s t : DBState)
    (h0 : s.outputAddressesAccumulate = t.outputAddressesAccumulate)
    (h1 : s.avmOutputs = t.avmOutputs)
    (h2 : s.avmOutputAddresses = t.avmOutputAddresses) (k : BalanceKey) :
    inCount s k = inCount t k := by
  unfold inCount
  rw [h0]
  exact congrArg List.sum (List.map_congr_left (fun r _ => by
    rw [rowKeys_congr s t h1 h2]))

/-! Well-formedness of the claim queries. -/

theorem nodup_flatMap_le_one {α β : Type} (l : List α) (f : α → List β)
    (g : α → β) (hf : ∀ a ∈ l, ∀ b ∈ f a, b = g a)
    (hlen : ∀ a ∈ l, (f a).length ≤ 1) (hg : (l.map g).Nodup) :
    (l.flatMap f).Nodup := by
  induction l with
  | nil => simp
  | cons a t ih =>
    rw [List.flatMap_cons]
    rw [List.map_cons, List.nodup_cons] at hg
    refine List.Nodup.append
      (len_le_one_nodup _ (hlen a (List.mem_cons_self a t)))
      (ih (fun x hx => hf x (List.mem_cons_of_mem a hx))
        (fun x hx => hlen x (List.mem_cons_of_mem a hx)) hg.2) ?_
    intro b hb1 hb2
    have hba : b = g a := hf a (List.mem_cons_self a t) b hb1
    obtain ⟨x, hx, hbx⟩ := List.mem_flatMap.mp hb2
    have hgg : g a = g x := hba.symm.trans (hf x (List.mem_cons_of_mem a hx) b hbx)
    exact hg.1 (by rw [hgg]; exact List.mem_map_of_mem g hx)

theorem flatMap_len_le_one {α β : Type} (l : List α) (f : α → List β)
    (h1 : l.length ≤ 1) (h2 : ∀ a ∈ l, (f a).length ≤ 1) :
    (l.flatMap f).length ≤ 1 := by
  cases l with
  | nil => simp
  | cons a t =>
    cases t with
    | nil => simpa using h2 a (by simp)
    | cons b u => simp at h1

theorem filter_self_len (x : String) : ∀ (l : List String), l.Nodup →
    (l.filter (fun y => decide (y = x))).length ≤ 1 := by
  intro l
  induction l with
  | nil => intro _; simp
  | cons a t ih =>
    intro h
    rw [List.nodup_cons] at h
    by_cases hx : a = x
    · rw [List.filter_cons_of_pos (by simpa using hx)]
      have ht : t.filter (fun y => decide (y = x)) = [] := by
        rw [List.filter_eq_nil_iff]
        intro b hb hbx
        exact h.1 (by rw [hx, ← (by simpa using hbx : b = x)]; exact hb)
      rw [ht]
      simp
    · rw [List.filter_cons_of_neg (by simpa using hx)]
      exact ih h.2

theorem claimOutPairs_pending (s : DBState) :
    ∀ p ∈ claimOutPairs s, pendOut s p := by
  intro p hp
  unfold claimOutPairs at hp
  have hp2 := (List.take_sublist _ _).subset hp
  obtain ⟨r, hr, hpr⟩ := List.mem_flatMap.mp hp2
  obtain ⟨o, ho, hpo⟩ := List.mem_map.mp hpr
  have hrm := List.mem_filter.mp hr
  refine ⟨r, hrm.1, ?_, ?_, ?_⟩
  · rw [← hpo]
  · rw [← hpo]
  · simpa using hrm.2

theorem claimInPairs_pending (s : DBState) :
    ∀ p ∈ claimInPairs s, pendIn s p := by
  intro p hp
  unfold claimInPairs at hp
  have hp2 := (List.take_sublist _ _).subset hp
  obtain ⟨r, hr, hpr⟩ := List.mem_flatMap.mp hp2
  obtain ⟨o, ho, hpo⟩ := List.mem_flatMap.mp hpr
  obtain ⟨x, hx, hpx⟩ := List.mem_map.mp hpo
  have hrm := List.mem_filter.mp hr
  refine ⟨r, hrm.1, ?_, ?_, ?_⟩
  · rw [← hpx]
  · rw [← hpx]
  · simpa using hrm.2

theorem claimOutPairs_nodup (s : DBState)
    (hsn : (s.outputAddressesAccumulate.map (fun r => (r.id, r.address))).Nodup)
    (han : (s.avmOutputs.map (fun o => o.id)).Nodup) :
    (claimOutPairs s).Nodup := by
  unfold claimOutPairs
  refine List.Nodup.sublist (List.take_sublist _ _) ?_
  refine nodup_flatMap_le_one _ _ (fun r => (r.id, r.address)) ?_ ?_ ?_
  · intro r _ b hb
    obtain ⟨o, _, hbo⟩ := List.mem_map.mp hb
    exact hbo.symm
  · intro r _
    rw [List.length_map]
    exact filter_key_len (fun o => o.id) r.id s.avmOutputs han
  · exact List.Nodup.sublist
      ((List.filter_sublist s.outputAddressesAccumulate).map
        (fun r => (r.id, r.address))) hsn

theorem claimInPairs_nodup (s : DBState)
    (hsn : (s.outputAddressesAccumulate.map (fun r => (r.id, r.address))).Nodup)
    (han : (s.avmOutputs.map (fun o => o.id)).Nodup)
    (hrn : s.avmOutputsRedeeming.Nodup) :
    (claimInPairs s).Nodup := by
  unfold claimInPairs
  refine List.Nodup.sublist (List.take_sublist _ _) ?_
  refine nodup_flatMap_le_one _ _ (fun r => (r.id, r.address)) ?_ ?_ ?_
  · intro r _ b hb
    obtain ⟨o, _, hbo⟩ := List.mem_flatMap.mp hb
    obtain ⟨x, _, hbx⟩ := List.mem_map.mp hbo
    exact hbx.symm
  · intro r _
    refine flatMap_len_le_one _ _
      (filter_key_len (fun o => o.id) r.id s.avmOutputs han) ?_
    intro o _
    rw [List.length_map]
    exact filter_self_len r.id s.avmOutputsRedeeming hrn
  · exact List.Nodup.sublist
      ((List.filter_sublist s.outputAddressesAccumulate).map
        (fun r => (r.id, r.address))) hsn

theorem claimTxRows_mem (s : DBState) :
    ∀ r ∈ claimTxRows s, r ∈ s.outputTxsAccumulate ∧ r.processed = false := by
  intro r hr
  unfold claimTxRows at hr
  have h2 := (List.take_sublist _ _).subset hr
  have h3 := List.mem_filter.mp h2
  exact ⟨h3.1, by simpa using h3.2⟩

theorem claimTxRows_sub (s : DBState) :
    List.Sublist (claimTxRows s) s.outputTxsAccumulate :=
  List.Sublist.trans (List.take_sublist _ _)
    (List.filter_sublist s.outputTxsAccumulate)

theorem claimTxRows_ids_nodup (s : DBState)
    (h : (s.outputTxsAccumulate.map (fun r => r.id)).Nodup) :
    ((claimTxRows s).map (fun r => r.id)).Nodup :=
  List.Nodup.sublist ((claimTxRows_sub s).map (fun r => r.id)) h


/-! Per-row preservation of the schema constraints and of conservation. -/

theorem applyRow_out_preserve (s : DBState) (p : String × String)
    (hok : StateOK s) (hpend : pendOut s p) :
    StateOK (applyRow ProcessType.typeOut s p) ∧
    (Conservation s → Conservation (applyRow ProcessType.typeOut s p)) ∧
    (∀ q, q ≠ p → pendOut s q → pendOut (applyRow ProcessType.typeOut s p) q) ∧
    (∀ q, q ≠ p → pendIn s q → pendIn (applyRow ProcessType.typeOut s p) q) ∧
    (∀ k, balTS (applyRow ProcessType.typeOut s p) k = balTS s k) ∧
    (∀ k, balTC (applyRow ProcessType.typeOut s p) k = balTC s k) := by
  obtain ⟨hbn, hsn, htn, han, hrn⟩ := hok
  obtain ⟨c1, c2, c3, c4, c5, c6, c7, c8, c9, c10, c11, c12, c13, c14, c15, c16, c17⟩ :=
    applyRow_out_spec s p hbn hsn hpend
  refine ⟨⟨c6, by rw [c5]; exact hsn, by rw [c1]; exact htn,
    by rw [c2]; exact han, by rw [c4]; exact hrn⟩, ?_,
    fun q hq h2 => c7 q hq h2, fun q hq h2 => c8 q hq h2, c11, c12⟩
  intro hcons k
  obtain ⟨h1, h2, h3, h4⟩ := hcons k
  refine ⟨by rw [c9 k, c13 k, h1], by rw [c11 k, c15 k]; exact h2, ?_,
    by rw [c12 k, c17 k]; exact h4⟩
  rw [c10 k, c14 k, c16 k, h3]
  by_cases hc : k ∈ rowKeys s p.1 p.2
  · rw [if_pos hc, if_pos hc]
    push_cast
    ring
  · rw [if_neg hc, if_neg hc]
    push_cast
    ring

theorem applyRow_in_preserve (s : DBState) (p : String × String)
    (hok : StateOK s) (hpend : pendIn s p) :
    StateOK (applyRow ProcessType.typeIn s p) ∧
    (Conservation s → Conservation (applyRow ProcessType.typeIn s p)) ∧
    (∀ q, q ≠ p → pendOut s q → pendOut (applyRow ProcessType.typeIn s p) q) ∧
    (∀ q, q ≠ p → pendIn s q → pendIn (applyRow ProcessType.typeIn s p) q) ∧
    (∀ k, balTR (applyRow ProcessType.typeIn s p) k = balTR s k) ∧
    (∀ k, balTC (applyRow ProcessType.typeIn s p) k = balTC s k) := by
  obtain ⟨hbn, hsn, htn, han, hrn⟩ := hok
  obtain ⟨c1, c2, c3, c4, c5, c6, c7, c8, c9, c10, c11, c12, c13, c14, c15, c16, c17⟩ :=
    applyRow_in_spec s p hbn hsn hpend
  refine ⟨⟨c6, by rw [c5]; exact hsn, by rw [c1]; exact htn,
    by rw [c2]; exact han, by rw [c4]; exact hrn⟩, ?_,
    fun q hq h2 => c7 q hq h2, fun q hq h2 => c8 q hq h2, c11, c12⟩
  intro hcons k
  obtain ⟨h1, h2, h3, h4⟩ := hcons k
  refine ⟨by rw [c11 k, c15 k]; exact h1, by rw [c9 k, c13 k, h2], ?_,
    by rw [c12 k, c17 k]; exact h4⟩
  rw [c10 k, c14 k, c16 k, h3]
  by_cases hc : k ∈ rowKeys s p.1 p.2
  · rw [if_pos hc, if_pos hc]
    push_cast
    ring
  · rw [if_neg hc, if_neg hc]
    push_cast
    ring

theorem applyRow_fold_out (ps : List (String × String)) :
    ∀ (s : DBState), StateOK s → ps.Nodup → (∀ p ∈ ps, pendOut s p) →
    StateOK (ps.foldl (applyRow ProcessType.typeOut) s) ∧
    (Conservation s → Conservation (ps.foldl (applyRow ProcessType.typeOut) s)) ∧
    (∀ k, balTS (ps.foldl (applyRow ProcessType.typeOut) s) k = balTS s k) ∧
    (∀ k, balTC (ps.foldl (applyRow ProcessType.typeOut) s) k = balTC s k) := by
  induction ps with
  | nil =>
    intro s hok _ _
    exact ⟨hok, fun h => h, fun k => rfl, fun k => rfl⟩
  | cons p t ih =>
    intro s hok hnd hpend
    rw [List.foldl_cons]
    rw [List.nodup_cons] at hnd
    obtain ⟨hok1, hcons1, houtp, hinp, hts1, htc1⟩ :=
      applyRow_out_preserve s p hok (hpend p (List.mem_cons_self p t))
    have hpend1 : ∀ q ∈ t, pendOut (applyRow ProcessType.typeOut s p) q := by
      intro q hq
      exact houtp q (fun he => hnd.1 (he ▸ hq))
        (hpend q (List.mem_cons_of_mem p hq))
    obtain ⟨gok, gcons, gts, gtc⟩ :=
      ih (applyRow ProcessType.typeOut s p) hok1 hnd.2 hpend1
    exact ⟨gok, fun hc => gcons (hcons1 hc), fun k => (gts k).trans (hts1 k),
      fun k => (gtc k).trans (htc1 k)⟩

theorem applyRow_fold_in (ps : List (String × String)) :
    ∀ (s : DBState), StateOK s → ps.Nodup → (∀ p ∈ ps, pendIn s p) →
    StateOK (ps.foldl (applyRow ProcessType.typeIn) s) ∧
    (Conservation s → Conservation (ps.foldl (applyRow ProcessType.typeIn) s)) ∧
    (∀ k, balTR (ps.foldl (applyRow ProcessType.typeIn) s) k = balTR s k) ∧
    (∀ k, balTC (ps.foldl (applyRow ProcessType.typeIn) s) k = balTC s k) := by
  induction ps with
  | nil =>
    intro s hok _ _
    exact ⟨hok, fun h => h, fun k => rfl, fun k => rfl⟩
  | cons p t ih =>
    intro s hok hnd hpend
    rw [List.foldl_cons]
    rw [List.nodup_cons] at hnd
    obtain ⟨hok1, hcons1, houtp, hinp, htr1, htc1⟩ :=
      applyRow_in_preserve s p hok (hpend p (List.mem_cons_self p t))
    have hpend1 : ∀ q ∈ t, pendIn (applyRow ProcessType.typeIn s p) q := by
      intro q hq
      exact hinp q (fun he => hnd.1 (he ▸ hq))
        (hpend q (List.mem_cons_of_mem p hq))
    obtain ⟨gok, gcons, gtr, gtc⟩ :=
      ih (applyRow ProcessType.typeIn s p) hok1 hnd.2 hpend1
    exact ⟨gok, fun hc => gcons (hcons1 hc), fun k => (gtr k).trans (htr1 k),
      fun k => (gtc k).trans (htc1 k)⟩

/-! The batch fold of a pass body, under the concrete `computeID`. -/

theorem processRow_foldlM (typ : ProcessType) (ps : List (String × String)) :
    ∀ (s : DBState), ps.foldlM (processRow computeID typ) s
      = Except.ok (ps.foldl (applyRow typ) s) := by
  induction ps with
  | nil => intro s; rfl
  | cons p t ih =>
    intro s
    rw [List.foldlM_cons, processRow_computeID, except_bind_ok, List.foldl_cons]
    exact ih (applyRow typ s p)

theorem processOutputs_computeID (typ : ProcessType) (s : DBState)
    (h : ¬ claimPairs typ s = []) :
    processOutputs computeID typ s
      = Except.ok ⟨(claimPairs typ s).length, true,
          (claimPairs typ s).foldl (applyRow typ) s⟩ := by
  unfold processOutputs
  rw [if_neg (by simpa [List.isEmpty_iff] using h)]
  rw [processRow_foldlM]
  rw [except_bind_ok]

/-! Pass-level preservation: schema constraints, conservation and the
cross-direction frames. -/

theorem processOutputs_out_ok (s : DBState) (po : PassOut) (hok : StateOK s)
    (h : processOutputs computeID ProcessType.typeOut s = Except.ok po) :
    StateOK po.state ∧ (Conservation s → Conservation po.state) ∧
    (∀ k, balTS po.state k = balTS s k) ∧
    (∀ k, balTC po.state k = balTC s k) := by
  by_cases hcl : claimPairs ProcessType.typeOut s = []
  · rw [processOutputs_empty computeID ProcessType.typeOut s hcl] at h
    injection h with h2
    rw [← h2]
    exact ⟨hok, fun hc => hc, fun k => rfl, fun k => rfl⟩
  · rw [processOutputs_computeID ProcessType.typeOut s hcl] at h
    injection h with h2
    rw [← h2]
    obtain ⟨hbn, hsn, htn, han, hrn⟩ := hok
    exact applyRow_fold_out (claimOutPairs s) s ⟨hbn, hsn, htn, han, hrn⟩
      (claimOutPairs_nodup s hsn han) (claimOutPairs_pending s)

theorem processOutputs_in_ok (s : DBState) (po : PassOut) (hok : StateOK s)
    (h : processOutputs computeID ProcessType.typeIn s = Except.ok po) :
    StateOK po.state ∧ (Conservation s → Conservation po.state) ∧
    (∀ k, balTR po.state k = balTR s k) ∧
    (∀ k, balTC po.state k = balTC s k) := by
  by_cases hcl : claimPairs ProcessType.typeIn s = []
  · rw [processOutputs_empty computeID ProcessType.typeIn s hcl] at h
    injection h with h2
    rw [← h2]
    exact ⟨hok, fun hc => hc, fun k => rfl, fun k => rfl⟩
  · rw [processOutputs_computeID ProcessType.typeIn s hcl] at h
    injection h with h2
    rw [← h2]
    obtain ⟨hbn, hsn, htn, han, hrn⟩ := hok
    exact applyRow_fold_in (claimInPairs s) s ⟨hbn, hsn, htn, han, hrn⟩
      (claimInPairs_nodup s hsn han hrn) (claimInPairs_pending s)

/-! The transaction pass as a pure transformation: frames, key constraints,
the per-staging-row `transaction_count` delta, and the processed marks. -/

theorem applyTx_spec (s : DBState)
    (hbn : (s.accumulateBalances.map (fun b => b.id)).Nodup)
    (htn : (s.outputTxsAccumulate.map (fun r => r.id)).Nodup) :
    (applyTx s).outputAddressesAccumulate = s.outputAddressesAccumulate ∧
    (applyTx s).avmOutputs = s.avmOutputs ∧
    (applyTx s).avmOutputAddresses = s.avmOutputAddresses ∧
    (applyTx s).avmOutputsRedeeming = s.avmOutputsRedeeming ∧
    ((applyTx s).accumulateBalances.map (fun b => b.id)).Nodup ∧
    ((applyTx s).outputTxsAccumulate.map (fun r => r.id)
      = s.outputTxsAccumulate.map (fun r => r.id)) ∧
    (∀ k, balTR (applyTx s) k = balTR s k) ∧
    (∀ k, balTS (applyTx s) k = balTS s k) ∧
    (∀ k, balUC (applyTx s) k = balUC s k) ∧
    (∀ k, balTC (applyTx s) k = balTC s k + ((claimTxRows s).map (fun r => if txRowKey r = k then (1 : Nat) else 0)).sum) ∧
    (∀ k, txCount (applyTx s) k = txCount s k + ((claimTxRows s).map (fun r => if txRowKey r = k then (1 : Nat) else 0)).sum) ∧
    (∀ r ∈ claimTxRows s, ∃ r2 ∈ (applyTx s).outputTxsAccumulate,
      r2.id = r.id ∧ r2.processed = true) := by
  have ha : applyTx s = ((claimTxRows s).foldl (fun st row => { st with outputTxsAccumulate := markTx row.id st.outputTxsAccumulate }) (((claimTxRows s).map txRowKey).foldl (fun st k => { st with accumulateBalances := updTx k st.accumulateBalances }) (((claimTxRows s).map txRowKey).foldl insertAccumulateBalances s))) := rfl
  obtain ⟨e1, e2, e3, e4, e5, i1, i2, i3, i4, inod, ipres, imono⟩ :=
    insert_fold_spec ((claimTxRows s).map txRowKey) s
  obtain ⟨u1, u2, u3, u4, u5, uk, utc, utr, uts, uuc⟩ :=
    updTx_fold_spec ((claimTxRows s).map txRowKey) (((claimTxRows s).map txRowKey).foldl insertAccumulateBalances s) (inod hbn) ipres
  have hS2tx : (((claimTxRows s).map txRowKey).foldl (fun st k => { st with accumulateBalances := updTx k st.accumulateBalances }) (((claimTxRows s).map txRowKey).foldl insertAccumulateBalances s)).outputTxsAccumulate = s.outputTxsAccumulate := u2.trans e2
  have hS2bn : ((((claimTxRows s).map txRowKey).foldl (fun st k => { st with accumulateBalances := updTx k st.accumulateBalances }) (((claimTxRows s).map txRowKey).foldl insertAccumulateBalances s)).accumulateBalances.map (fun b => b.id)).Nodup := by
    rw [uk]
    exact inod hbn
  obtain ⟨m1, m2, m3, m4, m5, mk, mtx, mmono, mall⟩ :=
    markTx_fold_spec (claimTxRows s) (((claimTxRows s).map txRowKey).foldl (fun st k => { st with accumulateBalances := updTx k st.accumulateBalances }) (((claimTxRows s).map txRowKey).foldl insertAccumulateBalances s)) (claimTxRows_ids_nodup s htn)
      (by rw [hS2tx]; exact htn)
      (by rw [hS2tx]; exact claimTxRows_mem s)
  rw [ha]
  refine ⟨m1.trans (u1.trans e1), m2.trans (u3.trans e3), m3.trans (u4.trans e4),
    m4.trans (u5.trans e5), ?_, mk.trans (by rw [hS2tx]), ?_, ?_, ?_, ?_, ?_, mall⟩
  · show (((claimTxRows s).foldl (fun st row => { st with outputTxsAccumulate := markTx row.id st.outputTxsAccumulate }) (((claimTxRows s).map txRowKey).foldl (fun st k => { st with accumulateBalances := updTx k st.accumulateBalances }) (((claimTxRows s).map txRowKey).foldl insertAccumulateBalances s))).accumulateBalances.map (fun b => b.id)).Nodup
    rw [m5, uk]
    exact inod hbn
  · intro k
    show keySumTR ((claimTxRows s).foldl (fun st row => { st with outputTxsAccumulate := markTx row.id st.outputTxsAccumulate }) (((claimTxRows s).map txRowKey).foldl (fun st k => { st with accumulateBalances := updTx k st.accumulateBalances }) (((claimTxRows s).map txRowKey).foldl insertAccumulateBalances s))).accumulateBalances k = keySumTR s.accumulateBalances k
    rw [m5, utr k, i1 k]
  · intro k
    show keySumTS ((claimTxRows s).foldl (fun st row => { st with outputTxsAccumulate := markTx row.id st.outputTxsAccumulate }) (((claimTxRows s).map txRowKey).foldl (fun st k => { st with accumulateBalances := updTx k st.accumulateBalances }) (((claimTxRows s).map txRowKey).foldl insertAccumulateBalances s))).accumulateBalances k = keySumTS s.accumulateBalances k
    rw [m5, uts k, i2 k]
  · intro k
    show keySumUC ((claimTxRows s).foldl (fun st row => { st with outputTxsAccumulate := markTx row.id st.outputTxsAccumulate }) (((claimTxRows s).map txRowKey).foldl (fun st k => { st with accumulateBalances := updTx k st.accumulateBalances }) (((claimTxRows s).map txRowKey).foldl insertAccumulateBalances s))).accumulateBalances k = keySumUC s.accumulateBalances k
    rw [m5, uuc k, i4 k]
  · intro k
    show keySumTC ((claimTxRows s).foldl (fun st row => { st with outputTxsAccumulate := markTx row.id st.outputTxsAccumulate }) (((claimTxRows s).map txRowKey).foldl (fun st k => { st with accumulateBalances := updTx k st.accumulateBalances }) (((claimTxRows s).map txRowKey).foldl insertAccumulateBalances s))).accumulateBalances k
      = keySumTC s.accumulateBalances k + ((claimTxRows s).map (fun r => if txRowKey r = k then (1 : Nat) else 0)).sum
    rw [m5, utc k, i3 k, List.map_map]
    rfl
  · intro k
    rw [mtx k]
    have h2 : txCount (((claimTxRows s).map txRowKey).foldl (fun st k => { st with accumulateBalances := updTx k st.accumulateBalances }) (((claimTxRows s).map txRowKey).foldl insertAccumulateBalances s)) k = txCount s k := by
      unfold txCount
      rw [hS2tx]
    rw [h2]

theorem processTransactions_ok (s : DBState) (po : PassOut) (hok : StateOK s)
    (h : processTransactions computeID s = Except.ok po) :
    StateOK po.state ∧ (Conservation s → Conservation po.state) ∧
    (∀ k, balTR po.state k = balTR s k) ∧
    (∀ k, balTS po.state k = balTS s k) ∧
    (∀ k, balUC po.state k = balUC s k) ∧
    (∀ k, balTC po.state k = balTC s k + ((claimTxRows s).map (fun r => if txRowKey r = k then (1 : Nat) else 0)).sum) ∧
    (∀ r ∈ claimTxRows s, ∃ r2 ∈ po.state.outputTxsAccumulate,
      r2.id = r.id ∧ r2.processed = true) := by
  obtain ⟨hbn, hsn, htn, han, hrn⟩ := hok
  by_cases hcl : claimTxRows s = []
  · rw [processTransactions_empty computeID s hcl] at h
    injection h with h2
    rw [← h2]
    refine ⟨⟨hbn, hsn, htn, han, hrn⟩, fun hc => hc, fun k => rfl, fun k => rfl,
      fun k => rfl, ?_, ?_⟩
    · intro k
      rw [hcl]
      simp
    · intro r hr
      rw [hcl] at hr
      exact absurd hr (List.not_mem_nil r)
  · rw [processTransactions_computeID s hcl] at h
    injection h with h2
    rw [← h2]
    obtain ⟨a1, a2, a3, a4, a5, a6, a7, a8, a9, a10, a11, a12⟩ := applyTx_spec s hbn htn
    refine ⟨⟨a5, by rw [a1]; exact hsn, by rw [a6]; exact htn,
      by rw [a2]; exact han, by rw [a4]; exact hrn⟩, ?_, a7, a8, a9, a10, a12⟩
    intro hcons k
    obtain ⟨h1, h2, h3, h4⟩ := hcons k
    refine ⟨?_, ?_, ?_, ?_⟩
    · rw [a7 k, recvSum_congr (applyTx s) s a1 a2 a3 k]
      exact h1
    · rw [a8 k, sentSum_congr (applyTx s) s a1 a2 a3 k]
      exact h2
    · rw [a9 k, outCount_congr (applyTx s) s a1 a2 a3 k,
        inCount_congr (applyTx s) s a1 a2 a3 k]
      exact h3
    · rw [a10 k, a11 k, h4]

/-! Loop-level preservation and the initial state. -/

theorem outerLoop_inv (P : DBState → Prop)
    (h1 : ∀ t po, processOutputs computeID ProcessType.typeOut t = Except.ok po →
      P t → P po.state)
    (h2 : ∀ t po, processOutputs computeID ProcessType.typeIn t = Except.ok po →
      P t → P po.state)
    (h3 : ∀ t po, processTransactions computeID t = Except.ok po →
      P t → P po.state) :
    ∀ (ofuel ifuel : Nat) (s : DBState) (icnt : Nat) (tr : List Nat)
      (s2 : DBState) (i2 : Nat) (tr2 : List Nat),
    outerLoop computeID ofuel ifuel s icnt tr = LoopRes.ok s2 i2 tr2 →
    P s → P s2 := by
  intro ofuel
  induction ofuel with
  | zero => intro _ _ _ _ _ _ _ h _; exact LoopRes.noConfusion h
  | succ ofuel ih =>
    intro ifuel s icnt tr s2 i2 tr2 h hP
    unfold outerLoop at h
    by_cases h10 : 10 ≤ icnt
    · rw [if_pos h10] at h
      injection h with e1 e2 e3
      rw [← e1]
      exact hP
    · rw [if_neg h10] at h
      split at h
      · exact LoopRes.noConfusion h
      · exact LoopRes.noConfusion h
      · rename_i t1 j1 u1 g1
        split at h
        · exact LoopRes.noConfusion h
        · exact LoopRes.noConfusion h
        · rename_i t2 j2 u2 g2
          split at h
          · exact LoopRes.noConfusion h
          · exact LoopRes.noConfusion h
          · rename_i t3 j3 u3 g3
            have hP1 := innerLoop_inv (processOutputs computeID ProcessType.typeOut)
              P (fun t po hpo ht => h1 t po hpo ht) ifuel s icnt tr t1 j1 u1 g1 hP
            have hP2 := innerLoop_inv (processOutputs computeID ProcessType.typeIn)
              P (fun t po hpo ht => h2 t po hpo ht) ifuel t1 j1 u1 t2 j2 u2 g2 hP1
            have hP3 := innerLoop_inv (processTransactions computeID)
              P (fun t po hpo ht => h3 t po hpo ht) ifuel t2 j2 u2 t3 j3 u3 g3 hP2
            exact ih ifuel t3 (j3 + 1) u3 s2 i2 tr2 h hP3

theorem initial_conservation (s : DBState) (hini : InitialWorkload s) :
    Conservation s := by
  obtain ⟨hb, hst, htx⟩ := hini
  intro k
  have hTR : balTR s k = 0 := by
    show keySumTR s.accumulateBalances k = 0
    rw [hb]
    rfl
  have hTS : balTS s k = 0 := by
    show keySumTS s.accumulateBalances k = 0
    rw [hb]
    rfl
  have hTC : balTC s k = 0 := by
    show keySumTC s.accumulateBalances k = 0
    rw [hb]
    rfl
  have hUC : balUC s k = 0 := by
    show keySumUC s.accumulateBalances k = 0
    rw [hb]
    rfl
  have hRS : recvSum s k = 0 := by
    unfold recvSum
    refine List.sum_eq_zero ?_
    intro x hx
    obtain ⟨r, hr, hxr⟩ := List.mem_map.mp hx
    rw [← hxr, (hst r hr).1]
    simp
  have hSS : sentSum s k = 0 := by
    unfold sentSum
    refine List.sum_eq_zero ?_
    intro x hx
    obtain ⟨r, hr, hxr⟩ := List.mem_map.mp hx
    rw [← hxr, (hst r hr).2]
    simp
  have hOC : outCount s k = 0 := by
    unfold outCount
    refine List.sum_eq_zero ?_
    intro x hx
    obtain ⟨r, hr, hxr⟩ := List.mem_map.mp hx
    rw [← hxr]
    rw [if_neg (by rw [(hst r hr).1]; simp)]
  have hIC : inCount s k = 0 := by
    unfold inCount
    refine List.sum_eq_zero ?_
    intro x hx
    obtain ⟨r, hr, hxr⟩ := List.mem_map.mp hx
    rw [← hxr]
    rw [if_neg (by rw [(hst r hr).2]; simp)]
  have hXC : txCount s k = 0 := by
    unfold txCount
    refine List.sum_eq_zero ?_
    intro x hx
    obtain ⟨r, hr, hxr⟩ := List.mem_map.mp hx
    rw [← hxr]
    rw [if_neg (by rw [htx r hr]; simp)]
  rw [hTR, hTS, hTC, hUC, hRS, hSS, hOC, hIC, hXC]
  exact ⟨rfl, rfl, by simp, rfl⟩

theorem runnerWitState_reach : RunnerReach runnerWitState := by
  have h0 := RunnerReach.init
  have h1 := RunnerReach.step _ _ h0 (RStep.arrive _)
  have h2 := RunnerReach.step _ _ h1 (RStep.fastPass _ (by decide) (by decide))
  have h3 := RunnerReach.step _ _ h2 (RStep.lockAcq _ (by decide) (by decide))
  have h4 := RunnerReach.step _ _ h3 (RStep.checkPass _ (by decide) (by decide))
  have h5 := RunnerReach.step _ _ h4 (RStep.incr _ (by decide))
  have h6 := RunnerReach.step _ _ h5 (RStep.spawn _ (by decide))
  have h7 := RunnerReach.step _ _ h6 (RStep.unlock _ (by decide))
  exact h7

/-- Claim C2: under every interleaving of `Run` callers and spawned tasks over
the same `BalancerAccumulateHandler`, at most one background accumulation task
is in flight at any time, and the `running` counter accounts exactly for the
incremented-but-not-yet-spawned callers plus the in-flight tasks (it is
incremented before the task is spawned and decremented on task exit). -/
theorem run_single_flight (st : RunnerState) (h : RunnerReach st) :
    st.tRun + st.tEnd ≤ 1 ∧
    st.running = (st.atP4 : Int) + st.tRun + st.tEnd := by
  obtain ⟨hA, hB, _, _, _⟩ := runnerInv_reach st h
  exact ⟨by omega, hA⟩

theorem run_single_flight_witness :
    runnerWitState.tRun + runnerWitState.tEnd ≤ 1 ∧
    runnerWitState.running =
      (runnerWitState.atP4 : Int) + runnerWitState.tRun + runnerWitState.tEnd :=
  run_single_flight runnerWitState runnerWitState_reach

/-- Claim C3: whenever `Accumulate` fails with an error message containing
`"Deadlock found"`, the background task retries after a 1 ms sleep, without
bound: injecting deadlock errors on the first N attempts and success on
attempt N + 1 produces exactly N + 1 attempts; an error not containing the
substring ends the loop after its attempt and is logged at warning level; in
either case nothing is returned to the caller of `Run`. -/
theorem run_retry_harness (results : Nat → Option String) (N kf : Nat) (e : String) :
    ((∀ j, j < N → ∃ ej, results j = some ej ∧
        strContains ej deadlockDBErrorMessage = true) →
      results N = none →
      retryLoop results (N + 1 + kf) 0 = some (N + 1, none) ∧
      runTask results (N + 1 + kf) = some (N + 1, [])) ∧
    (results 0 = some e → strContains e deadlockDBErrorMessage = false →
      runTask results (kf + 1) = some (1, ["Accumulate " ++ e])) := by
  constructor
  · intro hdl hsucc
    have h0 : retryLoop results (N + 1 + kf) 0 = some (N + 1, none) := by
      have h := retryLoop_deadlock results N 0 (N + 1 + kf) (by omega)
        (fun j hj => by simpa using hdl j hj) (by simpa using hsucc)
      simpa using h
    refine ⟨h0, ?_⟩
    unfold runTask
    rw [h0]
  · intro h0 hnd
    unfold runTask
    have hr : retryLoop results (kf + 1) 0 = some (1, some e) := by
      show retryLoop results (Nat.succ kf) 0 = _
      simp [retryLoop, h0, hnd]
    rw [hr]

theorem run_retry_harness_witness :
    retryLoop wresDeadlock 3 0 = some (3, none) ∧ runTask wresDeadlock 3 = some (3, []) ∧
    runTask wresFatal 1 = some (1, ["Accumulate connection refused"]) := by
  have h1 := (run_retry_harness wresDeadlock 2 0 "x").1
    (fun j hj => ⟨"Error 1213: Deadlock found", by simp [wresDeadlock, hj], by decide⟩)
    (by decide)
  have h2 := (run_retry_harness wresFatal 0 0 "connection refused").2 rfl (by decide)
  exact ⟨h1.1, h1.2, h2⟩

/-- Claim C8, counterexample: on the empty database the OUT pass's claim query
selects zero staging rows and the pass returns 0, but its transaction is not
committed: the returned `committed` flag is `false` because the source returns
before reaching `dbTx.Commit()` and the deferred `RollbackUnlessCommitted`
rolls the transaction back; no run of the pass on this input commits. -/
theorem empty_claim_no_commit :
    claimOutPairs emptyState = [] ∧
    processOutputs computeID ProcessType.typeOut emptyState
      = Except.ok ⟨0, false, emptyState⟩ ∧
    ¬ ∃ po : PassOut, processOutputs computeID ProcessType.typeOut emptyState
        = Except.ok po ∧ po.committed = true := by
  refine ⟨rfl, rfl, ?_⟩
  rintro ⟨po, h1, h2⟩
  have he : processOutputs computeID ProcessType.typeOut emptyState
      = Except.ok ⟨0, false, emptyState⟩ := rfl
  rw [he] at h1
  injection h1 with h3
  rw [← h3] at h2
  exact Bool.noConfusion h2

/-- Claim C8 as amended: for both the output pass (either direction) and the
transaction pass, whenever the claim query selects zero staging rows the pass
returns 0 with the database unchanged; the transaction is not committed but
rolled back by the deferred `RollbackUnlessCommitted`, which is observationally
equivalent because it performed no writes. -/
theorem pass_empty_claim (cid : BalanceKey → Except String BalanceKey)
    (typ : ProcessType) (s : DBState) :
    (claimPairs typ s = [] → processOutputs cid typ s = Except.ok ⟨0, false, s⟩) ∧
    (claimTxRows s = [] → processTransactions cid s = Except.ok ⟨0, false, s⟩) :=
  ⟨fun h => processOutputs_empty cid typ s h,
   fun h => processTransactions_empty cid s h⟩

theorem pass_empty_claim_witness :
    processOutputs computeID ProcessType.typeOut emptyState
      = Except.ok ⟨0, false, emptyState⟩ ∧
    processTransactions computeID emptyState = Except.ok ⟨0, false, emptyState⟩ :=
  ⟨(pass_empty_claim computeID ProcessType.typeOut emptyState).1 rfl,
   (pass_empty_claim computeID ProcessType.typeOut emptyState).2 rfl⟩

/-- Claim C9: the IN pass claims a staging row only if a matching
`avm_outputs_redeeming` row exists for its output id; when no pending row has
a redemption record the IN-pass claim is empty and the pass leaves every
staging row and every aggregate row unchanged. -/
theorem in_pass_redeem_gate (s : DBState) :
    (∀ p ∈ claimInPairs s, p.1 ∈ s.avmOutputsRedeeming) ∧
    ((∀ r ∈ s.outputAddressesAccumulate, r.processedIn = false →
        r.id ∉ s.avmOutputsRedeeming) →
      claimInPairs s = [] ∧
      ∀ cid, processOutputs cid ProcessType.typeIn s = Except.ok ⟨0, false, s⟩) := by
  constructor
  · intro p hp
    have hp2 := List.mem_of_mem_take hp
    rw [List.mem_flatMap] at hp2
    obtain ⟨r, hr, hin⟩ := hp2
    rw [List.mem_flatMap] at hin
    obtain ⟨o, ho, hin2⟩ := hin
    rw [List.mem_map] at hin2
    obtain ⟨x, hx, hpe⟩ := hin2
    rw [List.mem_filter] at hx
    have hxid : x = r.id := by simpa using hx.2
    rw [← hpe]
    simpa [hxid] using hx.1
  · intro hnone
    have hcl : claimInPairs s = [] := by
      unfold claimInPairs
      have hfm : (s.outputAddressesAccumulate.filter
          (fun r => !r.processedIn)).flatMap (fun r =>
            (s.avmOutputs.filter (fun o => decide (o.id = r.id))).flatMap (fun _ =>
              (s.avmOutputsRedeeming.filter (fun x => decide (x = r.id))).map
                (fun _ => (r.id, r.address)))) = [] := by
        rw [List.flatMap_eq_nil_iff]
        intro r hr
        rw [List.mem_filter] at hr
        have hpend : r.processedIn = false := by simpa using hr.2
        have hnored := hnone r hr.1 hpend
        have hfe : s.avmOutputsRedeeming.filter (fun x => decide (x = r.id)) = [] := by
          rw [List.filter_eq_nil_iff]
          intro x hx
          simp only [decide_eq_true_eq]
          intro hxe
          exact hnored (hxe ▸ hx)
        rw [List.flatMap_eq_nil_iff]
        intro o ho
        rw [hfe]
        rfl
      rw [hfm]
      rfl
    exact ⟨hcl, fun cid => processOutputs_empty cid ProcessType.typeIn s hcl⟩

theorem in_pass_redeem_gate_witness :
    claimInPairs w3 = [] ∧
    processOutputs computeID ProcessType.typeIn w3 = Except.ok ⟨0, false, w3⟩ := by
  have h := (in_pass_redeem_gate w3).2 (by decide)
  exact ⟨h.1, h.2 computeID⟩

/-- Claim C6: every pass invocation is all-or-nothing — the outputs pass in
either direction and the transaction pass alike.  If the pass errors, the
observed database state is the one the transaction began with (the deferred
`RollbackUnlessCommitted` discards every flag flip and counter update of the
batch); if it processed a nonempty batch it committed everything together; and
a balance-key computation failure on a claimed row is propagated as the pass
error rather than being swallowed — in the outputs pass on the first
aggregated balance of the first claimed pair, in the transaction pass on the
first claimed staging row. -/
theorem pass_atomicity (cid : BalanceKey → Except String BalanceKey)
    (typ : ProcessType) (s : DBState) :
    (∀ e, processOutputs cid typ s = Except.error e →
      passState (processOutputs cid typ s) s = s) ∧
    (∀ po, processOutputs cid typ s = Except.ok po → 0 < po.cnt →
      po.committed = true) ∧
    (∀ p rest b bs e, claimPairs typ s = p :: rest →
      aggregateBalances s p.1 p.2 = b :: bs →
      cid (aggKey b) = Except.error e →
      processOutputs cid typ s = Except.error e) ∧
    (∀ e, processTransactions cid s = Except.error e →
      passState (processTransactions cid s) s = s) ∧
    (∀ po, processTransactions cid s = Except.ok po → 0 < po.cnt →
      po.committed = true) ∧
    (∀ r rest e, claimTxRows s = r :: rest →
      cid ⟨r.chainID, r.assetID, r.address⟩ = Except.error e →
      processTransactions cid s = Except.error e) := by
  refine ⟨?_, ?_, ?_, ?_, ?_, ?_⟩
  · intro e he
    rw [he]
    rfl
  · intro po h hcnt
    cases hcl : claimPairs typ s with
    | nil =>
      rw [processOutputs_empty cid typ s hcl] at h
      injection h with h2
      rw [← h2] at hcnt
      exact absurd hcnt (by simp)
    | cons p rest =>
      unfold processOutputs at h
      rw [hcl] at h
      simp only [List.isEmpty_cons, Bool.false_eq_true, if_false] at h
      cases hf : (p :: rest).foldlM (processRow cid typ) s with
      | error e2 => rw [hf, except_bind_err] at h; exact Except.noConfusion h
      | ok s3 =>
        rw [hf, except_bind_ok] at h
        injection h with h2
        rw [← h2]
  · intro p rest b bs e hclaim hagg hcid
    have hrow : processRow cid typ s p = Except.error e := by
      unfold processRow
      rw [hagg]
      simp only [List.isEmpty_cons, Bool.false_eq_true, if_false]
      rw [List.foldlM_cons, hcid]
      simp only [except_bind_err]
    unfold processOutputs
    rw [hclaim]
    simp only [List.isEmpty_cons, Bool.false_eq_true, if_false]
    rw [List.foldlM_cons, hrow]
    simp only [except_bind_err]
  · intro e he
    rw [he]
    rfl
  · intro po h hcnt
    cases hcl : claimTxRows s with
    | nil =>
      rw [processTransactions_empty cid s hcl] at h
      injection h with h2
      rw [← h2] at hcnt
      exact absurd hcnt (by simp)
    | cons r rest =>
      unfold processTransactions at h
      rw [hcl] at h
      simp only [List.isEmpty_cons, Bool.false_eq_true, if_false] at h
      cases hf : (r :: rest).foldlM (fun (acc : DBState × List BalanceKey) row => do
          let k ← cid ⟨row.chainID, row.assetID, row.address⟩
          pure (insertAccumulateBalances acc.1 k, acc.2 ++ [k])) (s, []) with
      | error e2 => rw [hf, except_bind_err] at h; exact Except.noConfusion h
      | ok pr =>
        rw [hf, except_bind_ok] at h
        injection h with h2
        rw [← h2]
  · intro r rest e hclaim hcid
    unfold processTransactions
    rw [hclaim]
    simp only [List.isEmpty_cons, Bool.false_eq_true, if_false]
    rw [List.foldlM_cons, hcid]
    simp only [except_bind_err]

theorem pass_atomicity_witness :
    (processOutputs cidFail ProcessType.typeOut w1 = Except.error "key failure" ∧
      passState (processOutputs cidFail ProcessType.typeOut w1) w1 = w1) ∧
    (processTransactions cidFail w5 = Except.error "key failure" ∧
      passState (processTransactions cidFail w5) w5 = w5) := by
  have h := pass_atomicity cidFail ProcessType.typeOut w1
  have he := h.2.2.1 ("X", "A") [] ⟨"C", "A", "S", 1, 10, 10⟩ [] "key failure" rfl rfl rfl
  have h5 := pass_atomicity cidFail ProcessType.typeOut w5
  have ht := h5.2.2.2.2.2 ⟨"t1", "C", "S", "A", "T1", false⟩
    [⟨"t2", "C", "S", "A", "T2", false⟩, ⟨"t3", "C", "S", "A", "T3", false⟩]
    "key failure" rfl rfl
  exact ⟨⟨he, h.1 "key failure" he⟩, ⟨ht, h5.2.2.2.1 "key failure" ht⟩⟩

/-- Claim C4, counterexample: on a workload on which all three passes return
empty from the start, `Accumulate` still performs 30 pass invocations — ten
full sweeps of the three passes — before returning; it does not terminate as
soon as all three passes return empty in sequence (which would be a trace of
3 invocations), nor as soon as some pass sees fewer than `RowLintValue` rows
three times in succession. -/
theorem accumulate_no_early_exit :
    accumulate computeID 11 1 emptyState
      = LoopRes.ok emptyState 10 (List.replicate 30 0) ∧
    (List.replicate 30 (0 : Nat)).length = 30 ∧ 30 ≠ 3 := by
  refine ⟨by decide, by decide, by decide⟩

/-- Claim C4 as amended: `Accumulate` runs the three passes in the fixed order
outputs-out, outputs-in, transactions, repeating each pass until its batch
returns fewer than `RowLintValue = 100` rows; a batch with at least one row
resets the iteration counter to 0; and the loop terminates only when the
counter reaches 10, i.e. after 10 consecutive idle outer sweeps.  On a
quiescent workload this means exactly 30 pass invocations, each returning 0,
with the state unchanged — not an immediate return after one empty sweep. -/
theorem accumulate_ten_idle_sweeps (cid : BalanceKey → Except String BalanceKey)
    (s : DBState) (g : Nat) (hq : Quiescent s) :
    accumulate cid 11 (g + 1) s = LoopRes.ok s 10 (List.replicate 30 0) ∧
    (∀ (ofuel ifuel : Nat) (s0 s' : DBState) (i' : Nat) (tr' : List Nat),
      accumulate cid ofuel ifuel s0 = LoopRes.ok s' i' tr' → i' = 10) := by
  constructor
  · have h := outerLoop_quiescent_run cid g s hq 10 [] (by omega)
    simpa [accumulate] using h
  · intro ofuel ifuel s0 s' i' tr' h
    exact outerLoop_exit_ten cid ofuel ifuel s0 0 [] s' i' tr' h (by omega)

theorem accumulate_ten_idle_sweeps_witness :
    accumulate computeID 11 1 emptyState
      = LoopRes.ok emptyState 10 (List.replicate 30 0) :=
  (accumulate_ten_idle_sweeps computeID emptyState 0 (by decide)).1

/-- Claim C5: a run of the accumulator that returns leaves a quiescent state:
every pass claims only rows whose relevant processed flag is 0 and flips that
flag, so after a completed run the claims are all empty, and a second run with
no new staging rows claims nothing, changes nothing — every
`accumulate_balances` row is identical before and after the second run, whose
final state is the first run's final state itself. -/
theorem accumulate_idempotent (cid : BalanceKey → Except String BalanceKey)
    (ofuel ifuel : Nat) (s s' : DBState) (i : Nat) (tr : List Nat)
    (hrun : accumulate cid ofuel ifuel s = LoopRes.ok s' i tr) :
    Quiescent s' ∧
    accumulate cid 11 1 s' = LoopRes.ok s' 10 (List.replicate 30 0) := by
  have hq : Quiescent s' :=
    outerLoop_ok_quiescent cid ofuel ifuel s 0 [] s' i tr hrun (by omega)
  refine ⟨hq, ?_⟩
  have h := outerLoop_quiescent_run cid 0 s' hq 10 [] (by omega)
  simpa [accumulate] using h

theorem accumulate_idempotent_witness :
    Quiescent w1Final ∧
    accumulate computeID 11 1 w1Final = LoopRes.ok w1Final 10 (List.replicate 30 0) :=
  accumulate_idempotent computeID 11 1 w1 w1Final 10 (1 :: List.replicate 29 0) (by decide)

/-- Claim C1: conservation. Starting from a workload satisfying the schema key
constraints, with an empty `accumulate_balances` table and all staging rows
unprocessed, any completed run of `Accumulate` reaches a state in which, for
every balance key, `total_received` equals the summed amounts of the
processed-OUT staging rows aggregating to it, `total_sent` the summed amounts
of the processed-IN rows, `utxo_count` the processed-OUT count minus the
processed-IN count, and `transaction_count` the number of processed
`output_txs_accumulate` rows carrying that key. -/
theorem accumulate_conservation (s : DBState) (ofuel ifuel : Nat)
    (s2 : DBState) (i2 : Nat) (tr2 : List Nat)
    (hok : StateOK s) (hini : InitialWorkload s)
    (h : accumulate computeID ofuel ifuel s = LoopRes.ok s2 i2 tr2) :
    Conservation s2 := by
  have hP := outerLoop_inv (fun t => StateOK t ∧ Conservation t)
    (fun t po hpo hPt => ⟨(processOutputs_out_ok t po hPt.1 hpo).1,
      (processOutputs_out_ok t po hPt.1 hpo).2.1 hPt.2⟩)
    (fun t po hpo hPt => ⟨(processOutputs_in_ok t po hPt.1 hpo).1,
      (processOutputs_in_ok t po hPt.1 hpo).2.1 hPt.2⟩)
    (fun t po hpo hPt => ⟨(processTransactions_ok t po hPt.1 hpo).1,
      (processTransactions_ok t po hPt.1 hpo).2.1 hPt.2⟩)
    ofuel ifuel s 0 [] s2 i2 tr2 h ⟨hok, initial_conservation s hini⟩
  exact hP.2

theorem accumulate_conservation_witness :
    StateOK w1 ∧ InitialWorkload w1 ∧ Conservation w1Final :=
  ⟨by unfold StateOK; decide, by unfold InitialWorkload; decide,
    accumulate_conservation w1 11 1 w1Final 10 (1 :: List.replicate 29 0)
      (by unfold StateOK; decide) (by unfold InitialWorkload; decide) (by decide)⟩

/-- Claim C7: the transaction pass increments `transaction_count` once per
claimed staging row — with multiplicity, not once per distinct key: for every
balance key the recorded `transaction_count` grows by the number of claimed
rows carrying that key, and every claimed row ends up marked `processed`. -/
theorem tx_pass_multiplicity (s : DBState) (po : PassOut) (hok : StateOK s)
    (h : processTransactions computeID s = Except.ok po) :
    (∀ k, balTC po.state k = balTC s k
      + ((claimTxRows s).map (fun r => if txRowKey r = k then (1 : Nat) else 0)).sum) ∧
    (∀ r ∈ claimTxRows s, ∃ r2 ∈ po.state.outputTxsAccumulate,
      r2.id = r.id ∧ r2.processed = true) := by
  obtain ⟨_, _, _, _, _, h6, h7⟩ := processTransactions_ok s po hok h
  exact ⟨h6, h7⟩

theorem tx_pass_multiplicity_witness :
    StateOK w5 ∧
    processTransactions computeID w5 = Except.ok ⟨3, true, applyTx w5⟩ ∧
    ((∀ k, balTC (applyTx w5) k = balTC w5 k
      + ((claimTxRows w5).map (fun r => if txRowKey r = k then (1 : Nat) else 0)).sum) ∧
    (∀ r ∈ claimTxRows w5, ∃ r2 ∈ (applyTx w5).outputTxsAccumulate,
      r2.id = r.id ∧ r2.processed = true)) :=
  ⟨by unfold StateOK; decide, by rfl,
    tx_pass_multiplicity w5 ⟨3, true, applyTx w5⟩ (by unfold StateOK; decide) (by rfl)⟩

/-- Claim C10: each pass leaves the aggregate-balance columns outside its
direction unchanged: the OUT pass preserves `total_sent` and
`transaction_count` at every key, the IN pass preserves `total_received` and
`transaction_count`, and the transaction pass preserves `total_received`,
`total_sent` and `utxo_count` — in particular the `transaction_count` selected
by the output passes is never written back. -/
theorem pass_frame (s : DBState) (hok : StateOK s) :
    (∀ po, processOutputs computeID ProcessType.typeOut s = Except.ok po →
      ∀ k, balTS po.state k = balTS s k ∧ balTC po.state k = balTC s k) ∧
    (∀ po, processOutputs computeID ProcessType.typeIn s = Except.ok po →
      ∀ k, balTR po.state k = balTR s k ∧ balTC po.state k = balTC s k) ∧
    (∀ po, processTransactions computeID s = Except.ok po →
      ∀ k, balTR po.state k = balTR s k ∧ balTS po.state k = balTS s k ∧
        balUC po.state k = balUC s k) := by
  refine ⟨?_, ?_, ?_⟩
  · intro po hpo k
    obtain ⟨_, _, h3, h4⟩ := processOutputs_out_ok s po hok hpo
    exact ⟨h3 k, h4 k⟩
  · intro po hpo k
    obtain ⟨_, _, h3, h4⟩ := processOutputs_in_ok s po hok hpo
    exact ⟨h3 k, h4 k⟩
  · intro po hpo k
    obtain ⟨_, _, h3, h4, h5, _, _⟩ := processTransactions_ok s po hok hpo
    exact ⟨h3 k, h4 k, h5 k⟩

theorem pass_frame_witness :
    StateOK w1 ∧
    ((∀ po, processOutputs computeID ProcessType.typeOut w1 = Except.ok po →
      ∀ k, balTS po.state k = balTS w1 k ∧ balTC po.state k = balTC w1 k) ∧
    (∀ po, processOutputs computeID ProcessType.typeIn w1 = Except.ok po →
      ∀ k, balTR po.state k = balTR w1 k ∧ balTC po.state k = balTC w1 k) ∧
    (∀ po, processTransactions computeID w1 = Except.ok po →
      ∀ k, balTR po.state k = balTR w1 k ∧ balTS po.state k = balTS w1 k ∧
        balUC po.state k = balUC w1 k)) :=
  ⟨by unfold StateOK; decide, pass_frame w1 (by unfold StateOK; decide)⟩

end Services
